import Mathlib

/-! percona-agent: a shallow embedding of the interval iterators, the managers and the base directory

Definitions are transcribed from `qan/perfschema/iter.go`, `data/manager.go`,
`instance/manager.go`, `pct/basedir.go` and `test/app.go`.  The slow-log file iterator, the
rotation of the slow log and the worker pool of the QAN manager, whose code is known only
through its tests, follow the design document and those tests; the merge of agent configs,
also known only through its tests, follows the words of the design document.
Go values are modelled as follows.

* `time.Time` is an instant, kept as its signed distance in nanoseconds from the zero
  `time.Time`; `IsZero` holds exactly at distance `0`.
* Go `int` is a 64-bit two's complement integer: arithmetic on it goes through `wrapInt`.
* A `select` is resolved by the event that the environment supplies: the case that fired
  is part of the input of the step function.
* Code outside the repository (JSON decoding, the repo of instances, MySQL, the working
  directory, faults of the file system) is a record of functions handed to the model.
* `filepath.Join`, `filepath.Clean`, `strings.Split` and `strconv.ParseInt` are the
  functions of the Go library, on Unix paths and a one-character separator; regular files
  are a map from path to contents.
* A panic is the error branch of an `Except`.
-/

set_option linter.dupNamespace false
set_option autoImplicit false

namespace gotime

/-- An instant of `time.Time`, as nanoseconds since the zero `time.Time`. -/
abbrev Time := Int

/-- Go `Time.IsZero`: the instant is the zero time. -/
def IsZero (t : Time) : Bool := decide (t = 0)

end gotime

/-- Two's complement wrap-around of a Go `int` (64 bits). -/
def wrapInt (x : Int) : Int := (x + 2 ^ 63) % 2 ^ 64 - 2 ^ 63

namespace qan

open gotime

/-- Go `qan.Interval`, with the fields the tests of the repository set
(`Number`, `Filename`, `StartTime`, `StopTime`, `StartOffset`, `EndOffset`);
the defaults are the Go zero values, so `{}` is `qan.Interval{}`. -/
structure Interval where
  Number : Int := 0
  Filename : String := ""
  StartTime : Time := 0
  StopTime : Time := 0
  StartOffset : Int := 0
  EndOffset : Int := 0
deriving DecidableEq, Repr

end qan

namespace perfschema

open gotime qan

/-- What the inner `select` of `Iter.run` did with a finished interval: it was sent on
`intervalChan`, or the one-second timer fired and "Lost interval" was logged. -/
inductive Emit where
  | sent (iv : Interval)
  | lost (iv : Interval)
deriving DecidableEq, Repr

/-- The interval an `Emit` is about. -/
def Emit.interval : Emit → Interval
  | .sent iv => iv
  | .lost iv => iv

/-- The case of the outer `select` of `Iter.run` that fires.  For a tick, `sendReady`
tells which case of the inner `select` fires if an interval is emitted: `true` when
`intervalChan` takes the interval within the second, `false` when `time.After` fires. -/
inductive Event where
  | tick (now : Time) (sendReady : Bool)
  | stop
deriving DecidableEq, Repr

/-- State of the goroutine `Iter.run`: the field `i.intervalNo`, the local `cur`, and the
emissions made so far, oldest first. -/
structure RunState where
  intervalNo : Int
  cur : Interval
  out : List Emit
deriving DecidableEq, Repr

/-- `NewIter` followed by the entry of `run`: `intervalNo` is the zero value,
`cur := &qan.Interval{}`, nothing emitted. -/
def NewIter : RunState := { intervalNo := 0, cur := {}, out := [] }

/-- The body of `case now := <-i.tickChan` in `Iter.run`. -/
def onTick (s : RunState) (now : Time) (sendReady : Bool) : RunState :=
  if !IsZero s.cur.StartTime then
    -- run:next
    let intervalNo := wrapInt (s.intervalNo + 1)
    let cur : Interval := { s.cur with StopTime := now, Number := intervalNo }
    let out := if sendReady then s.out ++ [Emit.sent cur] else s.out ++ [Emit.lost cur]
    { intervalNo := intervalNo, cur := { StartTime := now }, out := out }
  else
    -- run:first
    { s with cur := { s.cur with StartTime := now } }

/-- The loop of `Iter.run` over the events the two channels deliver.  The second component
tells whether `run` returned (a stop signal was received); events after the stop signal are
never read. -/
def run : RunState → List Event → RunState × Bool
  | s, [] => (s, false)
  | s, Event.stop :: _ => (s, true)
  | s, Event.tick now sendReady :: es => run (onTick s now sendReady) es

/-- The events of a sequence of ticks, each with the outcome of its send. -/
def ticksOf (ticks : List (Time × Bool)) : List Event :=
  ticks.map (fun p => Event.tick p.1 p.2)

/-- The state of `run` after it has handled `ticks`, one after the other, from `s`. -/
def afterTicks (s : RunState) (ticks : List (Time × Bool)) : RunState :=
  ticks.foldl (fun st p => onTick st p.1 p.2) s

/-- The emissions of `run` on `ticks` followed by a stop signal, from a fresh iterator. -/
def produced (ticks : List (Time × Bool)) : List Emit :=
  (run NewIter (ticksOf ticks ++ [Event.stop])).1.out

/-- The intervals the consumer of `intervalChan` receives, in order. -/
def delivered : List Emit → List Interval
  | [] => []
  | Emit.sent iv :: es => iv :: delivered es
  | Emit.lost _ :: es => delivered es

end perfschema

namespace pct

/-- The error numbers of the operating system that the code tells apart. -/
inductive Errno where
  | ENOENT
  | EEXIST
  | EACCES
  | ENOTDIR
  | EIO
deriving DecidableEq, Repr

/-- Go `error` values the managers return or pass on: the two error types of
package `pct` they construct, an `errors.New` or `fmt.Errorf` value, an `*os.PathError` of
a file operation, and an error of any other dynamic type (from `encoding/json`, the
spooler, the sender, the repo or MySQL), kept by its text. -/
inductive GoError where
  | ServiceIsRunningError (Service : String)
  | UnknownCmdError (Cmd : String)
  | errorString (s : String)
  | other (msg : String)
  | PathError (Op : String) (Path : String) (Err : Errno)
deriving DecidableEq, Repr

/-- Go `os.IsNotExist`: the error reports that a file or directory does not exist. -/
def IsNotExist : Option GoError → Bool
  | some (GoError.PathError _ _ Errno.ENOENT) => true
  | _ => false

/-- Go `os.IsExist`: the error reports that a file or directory already exists. -/
def IsExist : Option GoError → Bool
  | some (GoError.PathError _ _ Errno.EEXIST) => true
  | _ => false

/-- Modelled from the spec: `pct.Status`, the status registry of section 4.A, is declared
outside the files at hand; it is a mapping from name to status string, kept in insertion
order. -/
abbrev Status := List (String × String)

/-- Modelled from the spec: `pct.NewStatus(procs)` registers each name with the empty
status string. -/
def NewStatus (procs : List String) : Status := procs.map (fun p => (p, ""))

/-- Modelled from the spec: `update(name, value)` overwrites the value stored under `name`,
registering the name when it is new. -/
def Status.Update : Status → String → String → Status
  | [], proc, status => [(proc, status)]
  | (k, v) :: rest, proc, status =>
    if k = proc then (k, status) :: rest else (k, v) :: Status.Update rest proc status

/-- Modelled from the spec: `get(name, fresh?)` reads the value stored under `name`, the
empty string when there is none. -/
def Status.Get : Status → String → String
  | [], _ => ""
  | (k, v) :: rest, proc => if k = proc then v else Status.Get rest proc

/-- Handle of a `pct.WebsocketClient`; the manager only passes it on to the sender. -/
abbrev WebsocketClient := Nat

end pct

namespace data

open pct

/-- Go `data.Config`, with the fields `Manager` reads: `Dir`, `Encoding`, `SendInterval`. -/
structure Config where
  Dir : String := ""
  Encoding : String := ""
  SendInterval : Int := 0
deriving DecidableEq, Repr

/-- The two implementations of `Serializer` that `Manager.Start` constructs. -/
inductive Serializer where
  | JsonSerializer
  | JsonGzipSerializer
deriving DecidableEq, Repr

/-- The value `NewDiskvSpooler(logger, dataDir, sz, hostname)` is built from; the logger is
the one named `logName`. -/
structure Spooler where
  logName : String
  dataDir : String
  sz : Serializer
  hostname : String
deriving DecidableEq, Repr

/-- The value `NewSender(logger, client, spooler, tickChan)` is built from; `tick` is the
`time.Duration` handed to `time.Tick`, in nanoseconds. -/
structure Sender where
  logName : String
  client : WebsocketClient
  spooler : Spooler
  tick : Int
deriving DecidableEq, Repr

/-- Go `proto.Cmd`: the routing fields and the payload. -/
structure Cmd where
  Id : String := ""
  User : String := ""
  Service : String := ""
  Cmd : String := ""
  Data : List UInt8 := []
deriving DecidableEq, Repr

/-- The values `Manager.Handle` passes to `cmd.Reply`. -/
inductive ReplyData where
  | config (c : Option Config)
  | status (s : List (String × String))
  | error (e : GoError)
deriving DecidableEq, Repr

/-- Modelled from the spec: `proto.Reply` is `{id, error_string, data_bytes}`, declared in
the protocol library.  `Error` is the error whose text is the error string, `none` for the
empty string (success); `Data` is the value that is encoded into the data bytes. -/
structure Reply where
  Id : String
  Cmd : String
  Error : Option GoError
  Data : Option ReplyData
deriving DecidableEq, Repr

/-- Modelled from the spec: `cmd.Reply(data)` of the protocol library echoes the routing of
the command; an `error` value becomes the error of the reply, any other value its data with
no error. -/
def Cmd.Reply (cmd : data.Cmd) (data : ReplyData) : Reply :=
  match data with
  | ReplyData.error e => { Id := cmd.Id, Cmd := cmd.Cmd, Error := some e, Data := none }
  | d => { Id := cmd.Id, Cmd := cmd.Cmd, Error := none, Data := some d }

/-- Go `data.Manager`.  `logged` holds the lines written through `m.logger`, oldest first;
a nil pointer or interface is `none`. -/
structure Manager where
  hostname : String
  client : WebsocketClient
  config : Option Config
  configDir : String
  sz : Option Serializer
  spooler : Option Spooler
  sender : Option Sender
  status : Status
  logged : List String
deriving DecidableEq, Repr

/-- Go `NewManager`. -/
def NewManager (hostname : String) (client : WebsocketClient) : Manager :=
  { hostname := hostname, client := client, config := none, configDir := "", sz := none,
    spooler := none, sender := none, status := NewStatus ["data"], logged := [] }

/-- What the code outside the repository answers during one call of `Manager.Start`:
`json.Unmarshal` into a fresh `Config`, `pct.MakeDir`, `spooler.Start` and `sender.Start`;
`none` is a nil error. -/
structure Env where
  jsonUnmarshal : List UInt8 → Except GoError Config
  MakeDir : String → Option GoError
  spoolerStart : Spooler → Option GoError
  senderStart : Sender → Option GoError

/-- Go `Manager.Start`: the returned error (`none` is nil) and the manager afterwards. -/
def Manager.Start (env : Env) (m : Manager) ( _cmd : Cmd) (config : List UInt8) :
    Option GoError × Manager :=
  if m.config ≠ none then
    (some (GoError.ServiceIsRunningError "data"), m)
  else
    match env.jsonUnmarshal config with
    | Except.error err => (some err, m)
    | Except.ok c =>
      match env.MakeDir c.Dir with
      | some err => (some err, m)
      | none =>
        let szSel : Except GoError Serializer :=
          if c.Encoding = "" then Except.ok Serializer.JsonSerializer
          else if c.Encoding = "gzip" then Except.ok Serializer.JsonGzipSerializer
          else Except.error (GoError.errorString ("Unknown encoding: " ++ c.Encoding))
        match szSel with
        | Except.error err => (some err, m)
        | Except.ok sz =>
          let spooler : Spooler :=
            { logName := "data-spooler", dataDir := c.Dir, sz := sz, hostname := m.hostname }
          match env.spoolerStart spooler with
          | some err => (some err, m)
          | none =>
            let m1 := { m with spooler := some spooler,
                               logged := m.logged ++ ["Started spooler"] }
            let sender : Sender :=
              { logName := "data-sender", client := m1.client, spooler := spooler,
                tick := wrapInt (wrapInt c.SendInterval * 1000000000) }
            match env.senderStart sender with
            | some err => (some err, m1)
            | none =>
              let m2 := { m1 with sender := some sender,
                                  logged := m1.logged ++ ["Started sender"] }
              let m3 := { m2 with config := some c }
              (none, { m3 with status := m3.status.Update "data" "Ready",
                               logged := m3.logged ++ ["Ready"] })

/-- Go `Manager.Stop`. -/
def Manager.Stop (m : Manager) ( _cmd : Cmd) : Option GoError × Manager :=
  -- Can't stop data yet.
  (none, m)

/-- Go `Manager.Status`. -/
def Manager.Status (m : Manager) : String := m.status.Get "data"

/-- Go `Manager.InternalStatus`: the map with the single key "data". -/
def Manager.InternalStatus (m : Manager) : List (String × String) :=
  [("data", m.Status)]

/-- Go `Manager.Handle`: the reply and the manager afterwards; the deferred status update
runs after the reply has been built. -/
def Manager.Handle (m : Manager) (cmd : Cmd) : Reply × Manager :=
  let reply :=
    if cmd.Cmd = "GetConfig" then cmd.Reply (ReplyData.config m.config)
    else if cmd.Cmd = "Status" then cmd.Reply (ReplyData.status m.InternalStatus)
    else cmd.Reply (ReplyData.error (GoError.UnknownCmdError cmd.Cmd))
  (reply, { m with status := m.status.Update "data" "Ready" })

/-- One call of the service interface of the manager, with the answers of the outside
world for a `Start`. -/
inductive Call where
  | start (env : Env) (cmd : Cmd) (config : List UInt8)
  | stop (cmd : Cmd)
  | handle (cmd : Cmd)

/-- The manager after one call. -/
def Manager.call (m : Manager) : Call → Manager
  | Call.start env cmd config => (m.Start env cmd config).2
  | Call.stop cmd => (m.Stop cmd).2
  | Call.handle cmd => (m.Handle cmd).2

/-- The manager after a sequence of calls, made in order. -/
def Manager.calls (m : Manager) (cs : List Call) : Manager := cs.foldl Manager.call m

/-- An outside world in which every step of `Start` succeeds and the bytes decode to `c`. -/
def Env.ok (c : Config) : Env :=
  { jsonUnmarshal := fun _ => Except.ok c, MakeDir := fun _ => none,
    spoolerStart := fun _ => none, senderStart := fun _ => none }

end data

namespace pct

/-- Modelled from the spec: `update_with_command(name, verb, cmd_id)` of the status
registry (section 4.A; `UpdateRe` in the code) stores the uniform string "verb cmd_id"
under `name`. -/
def Status.UpdateRe (s : Status) (proc : String) (status : String) (cmdId : String) : Status :=
  s.Update proc (status ++ " " ++ cmdId)

end pct

namespace proto

/-- Go `proto.ServiceInstance`: the payload of the commands of the instance manager. -/
structure ServiceInstance where
  Service : String := ""
  InstanceId : Nat := 0
  Instance : List UInt8 := []
deriving DecidableEq, Repr

/-- Go `proto.MySQLInstance`, with the fields the instance manager and its tests use. -/
structure MySQLInstance where
  Id : Nat := 0
  Name : String := ""
  DSN : String := ""
  Distro : String := ""
  Version : String := ""
  Hostname : String := ""
deriving DecidableEq, Repr

end proto

namespace instanceMgr

open pct proto

/-- A call of a method of `instance.Repo`, as the manager makes it. -/
inductive RepoOp where
  | Init
  | List
  | Add (service : String) (id : Nat) (data : List UInt8) (writeToDisk : Bool)
  | Get (service : String) (id : Nat)
  | Remove (service : String) (id : Nat)
deriving DecidableEq, Repr

/-- What the code outside `instance/manager.go` answers: `json.Unmarshal` into a fresh
`proto.ServiceInstance` or `proto.MySQLInstance`, the methods of `instance.Repo`, the
text of an error (`err.Error()`), and the MySQL connection that `GetMySQLInfo` opens
(`Connect` and the scan of hostname, distro and version); `none` is a nil error. -/
structure Env where
  unmarshalServiceInstance : List UInt8 → Except GoError ServiceInstance
  unmarshalMySQLInstance : List UInt8 → Except GoError MySQLInstance
  errorText : GoError → String
  repoInit : Option GoError
  repoList : List String
  repoAdd : String → Nat → List UInt8 → Bool → Option GoError
  repoGet : String → Nat → Except GoError MySQLInstance
  repoRemove : String → Nat → Option GoError
  connect : String → Option GoError
  queryInfo : String → Except GoError (String × String × String)

/-- Go `instance.Manager`: the status registry, the calls made on `m.repo` so far (oldest
first) and the lines written through `m.logger`. -/
structure Manager where
  configDir : String
  status : Status
  repoOps : List RepoOp
  logged : List String
deriving DecidableEq, Repr

/-- Go `instance.NewManager`. -/
def NewManager (configDir : String) : Manager :=
  { configDir := configDir, status := NewStatus ["instance", "instance-repo"],
    repoOps := [], logged := [] }

/-- Modelled from the spec: `proto.Reply` is `{id, error_string, data_bytes}`; here the
data is the instance info that `Handle` hands to `cmd.Reply`, and `Error` the error whose
text is the error string (`none` is the empty string). -/
structure Reply where
  Id : String
  Cmd : String
  Error : Option GoError
  Data : Option MySQLInstance
deriving DecidableEq, Repr

/-- Modelled from the spec: `cmd.Reply(data, err)` of the protocol library echoes the
routing of the command and carries the data and the error. -/
def replyTo (cmd : data.Cmd) (info : Option MySQLInstance) (err : Option GoError) : Reply :=
  { Id := cmd.Id, Cmd := cmd.Cmd, Error := err, Data := info }

/-- Go `GetMySQLInfo`: connect, scan hostname, distro and version into `it`.  Returns the
error and the instance as it is afterwards. -/
def GetMySQLInfo (env : Env) (it : MySQLInstance) : Option GoError × MySQLInstance :=
  match env.connect it.DSN with
  | some err => (some err, it)
  | none =>
    match env.queryInfo it.DSN with
    | Except.error err => (some err, it)
    | Except.ok (hostname, distro, version) =>
      (none, { it with Hostname := hostname, Distro := distro, Version := version })

/-- Go `Manager.handleGetInfo`: the info and the error. -/
def Manager.handleGetInfo (env : Env) (service : String) (data : List UInt8) :
    Option MySQLInstance × Option GoError :=
  if service = "mysql" then
    match env.unmarshalMySQLInstance data with
    | Except.error err =>
      (none, some (GoError.errorString ("instance.Repo:json.Unmarshal:" ++ env.errorText err)))
    | Except.ok it =>
      if it.DSN = "" then
        (none, some (GoError.errorString "MySQL instance DSN is not set"))
      else
        match GetMySQLInfo env it with
        | (some err, _) => (none, some err)
        | (none, it2) => (some it2, none)
  else
    (none, some (GoError.errorString
      ("Don't know how to get info for " ++ service ++ " service")))

/-- Go `Manager.Handle`: the reply and the manager afterwards.  The status is set to
"Handling <cmd>" on entry and to "Running" by the deferred update. -/
def Manager.Handle (env : Env) (m : Manager) (cmd : data.Cmd) : Reply × Manager :=
  let m1 := { m with status := m.status.UpdateRe "instance" "Handling" cmd.Id }
  let done (r : Reply) (mm : Manager) : Reply × Manager :=
    (r, { mm with status := mm.status.Update "instance" "Running" })
  match env.unmarshalServiceInstance cmd.Data with
  | Except.error err => done (replyTo cmd none (some err)) m1
  | Except.ok it =>
    if cmd.Cmd = "Add" then
      let err := env.repoAdd it.Service it.InstanceId it.Instance true
      let m2 := { m1 with
        repoOps := m1.repoOps ++ [RepoOp.Add it.Service it.InstanceId it.Instance true] }
      if it.Service = "mysql" then
        let m3 := { m2 with repoOps := m2.repoOps ++ [RepoOp.Get it.Service it.InstanceId] }
        match env.repoGet it.Service it.InstanceId with
        | Except.error err2 => done (replyTo cmd none (some err2)) m3
        | Except.ok _ => done (replyTo cmd none err) m3
      else
        done (replyTo cmd none err) m2
    else if cmd.Cmd = "Remove" then
      let err := env.repoRemove it.Service it.InstanceId
      done (replyTo cmd none err)
        { m1 with repoOps := m1.repoOps ++ [RepoOp.Remove it.Service it.InstanceId] }
    else if cmd.Cmd = "GetInfo" then
      let r := Manager.handleGetInfo env it.Service it.Instance
      done (replyTo cmd r.1 r.2) m1
    else
      done (replyTo cmd none (some (GoError.UnknownCmdError cmd.Cmd))) m1

/-- An outside world for the instance manager in which nothing decodes and every call on
the repo or on MySQL succeeds with zero values. -/
def Env.undecodable (err : GoError) : Env :=
  { unmarshalServiceInstance := fun _ => Except.error err,
    unmarshalMySQLInstance := fun _ => Except.error err,
    errorText := fun _ => "",
    repoInit := none, repoList := [],
    repoAdd := fun _ _ _ _ => none, repoGet := fun _ _ => Except.ok {},
    repoRemove := fun _ _ => none,
    connect := fun _ => none, queryInfo := fun _ => Except.ok ("", "", "") }

/-- An outside world for the instance manager in which every payload decodes to `it` and
every call on the repo or on MySQL succeeds with zero values. -/
def Env.decoding (it : ServiceInstance) : Env :=
  { unmarshalServiceInstance := fun _ => Except.ok it,
    unmarshalMySQLInstance := fun _ => Except.ok {},
    errorText := fun _ => "",
    repoInit := none, repoList := [],
    repoAdd := fun _ _ _ _ => none, repoGet := fun _ _ => Except.ok {},
    repoRemove := fun _ _ => none,
    connect := fun _ => none, queryInfo := fun _ => Except.ok ("", "", "") }

end instanceMgr

namespace filepath

/-- The elements of a path: the pieces between the separators `/`. -/
def splitSep : List Char → List (List Char)
  | [] => [[]]
  | c :: cs =>
    if c = '/' then [] :: splitSep cs
    else
      match splitSep cs with
      | [] => [[c]]
      | e :: es => (c :: e) :: es

/-- The elements written one after the other with a separator `/` in between. -/
def joinSep : List (List Char) → List Char
  | [] => []
  | [e] => e
  | e :: e2 :: es => e ++ '/' :: joinSep (e2 :: es)

/-- One element handled by Go `filepath.Clean`; `stack` holds the elements kept so far,
last one first.  An empty element and `.` are dropped; `..` removes the element before
it, is dropped at the root, and is kept where nothing but `..` comes before it. -/
def cleanStep (rooted : Bool) (stack : List (List Char)) (e : List Char) : List (List Char) :=
  if e = [] ∨ e = ['.'] then stack
  else if e = ['.', '.'] then
    match stack with
    | [] => if rooted then [] else [e]
    | top :: rest => if top = ['.', '.'] then e :: stack else rest
  else e :: stack

/-- Go `filepath.Clean` (Unix) on the characters of a path: the shortest path that names
the same file by purely lexical processing; the empty path becomes `.`. -/
def cleanChars (path : List Char) : List Char :=
  let rooted : Bool := decide (path.head? = some '/')
  let elems := ((splitSep path).foldl (cleanStep rooted) []).reverse
  if rooted then '/' :: joinSep elems
  else if elems = [] then ['.'] else joinSep elems

/-- Go `filepath.Clean`. -/
def Clean (path : String) : String := String.mk (cleanChars path.data)

/-- Go `filepath.Join` (Unix): leading empty elements are ignored, the rest is joined with
`/` and cleaned; the result is empty when every element is empty. -/
def Join (elem : List String) : String :=
  match elem.dropWhile (fun e => decide (e = "")) with
  | [] => ""
  | es => Clean (String.mk (joinSep (es.map String.data)))

/-- A path element that `Clean` keeps as it is: not empty, not `.`, not `..`, and without
a separator. -/
def plainElem (e : String) : Bool :=
  decide (e.data ≠ [] ∧ e.data ≠ ['.'] ∧ e.data ≠ ['.', '.'] ∧ '/' ∉ e.data)

/-- The cleaned absolute path with the given elements: `/a/b/c`, and `/` for none. -/
def rootedPath (comps : List String) : String :=
  String.mk ('/' :: joinSep (comps.map String.data))

end filepath

namespace pct

/-- The constants of `pct/basedir.go`. -/
def CONFIG_FILE_SUFFIX : String := ".conf"

/-- Directory of the config files, relative to the base directory. -/
def CONFIG_DIR : String := "config"

/-- Directory of the data, relative to the base directory. -/
def DATA_DIR : String := "data"

/-- Directory of the binaries, relative to the base directory. -/
def BIN_DIR : String := "bin"

/-- Go `pct.basedir`. -/
structure basedir where
  path : String := ""
  configDir : String := ""
  dataDir : String := ""
  binDir : String := ""
deriving DecidableEq, Repr

/-- The regular files of the file system: the contents stored under each path. -/
abbrev FS := String → Option (List UInt8)

/-- What the code outside `pct/basedir.go` answers: `filepath.Abs` (it depends on the
working directory), `pct.MakeDir`, and the faults of the file system: a read of a path
that fails for another reason than a missing file (on the way to the path, as for a
component that is a regular file or a directory that may not be searched, or in the file
itself), with the data read so far; a write that fails, with the file system it leaves;
and a removal that fails; `none` is no fault. -/
structure Sys where
  Abs : String → Except GoError String
  MakeDir : String → Option GoError
  readFault : String → Option (List UInt8 × GoError)
  writeFault : FS → String → List UInt8 → Option (GoError × FS)
  removeFault : FS → String → Option (GoError × FS)

/-- Go `ioutil.ReadFile`: the data and the error.  Without a fault, a path without a file
gives no data and the error that `os.IsNotExist` recognises, and a file gives its
contents. -/
def ReadFile (sys : Sys) (fs : FS) (filename : String) : List UInt8 × Option GoError :=
  match sys.readFault filename with
  | some (sofar, err) => (sofar, some err)
  | none =>
    match fs filename with
    | none => ([], some (GoError.PathError "open" filename Errno.ENOENT))
    | some content => (content, none)

/-- Go `ioutil.WriteFile`: the error and the file system afterwards.  A write that succeeds
stores exactly `data` under `filename` and touches no other file. -/
def WriteFile (sys : Sys) (fs : FS) (filename : String) (data : List UInt8) :
    Option GoError × FS :=
  match sys.writeFault fs filename data with
  | some (err, fs2) => (some err, fs2)
  | none => (none, fun p => if p = filename then some data else fs p)

/-- Modelled from the spec: `pct.RemoveFile` is not among the files at hand; it unlinks the
file from disk (section 4.H): a removal that succeeds leaves no file under `file` and
touches no other file. -/
def RemoveFile (sys : Sys) (fs : FS) (file : String) : Option GoError × FS :=
  match sys.removeFault fs file with
  | some (err, fs2) => (some err, fs2)
  | none => (none, fun p => if p = file then none else fs p)

/-- Go `basedir.Init`: the error and the basedir afterwards. -/
def basedir.Init (sys : Sys) (b : basedir) (path : String) : Option GoError × basedir :=
  match sys.Abs path with
  | Except.error err => (some err, { b with path := "" })
  | Except.ok p =>
    let b1 := { b with path := p }
    if sys.MakeDir b1.path ≠ none ∧ ¬ IsExist (sys.MakeDir b1.path) then
      (sys.MakeDir b1.path, b1)
    else
      let b2 := { b1 with configDir := filepath.Join [b1.path, CONFIG_DIR] }
      if sys.MakeDir b2.configDir ≠ none ∧ ¬ IsExist (sys.MakeDir b2.configDir) then
        (sys.MakeDir b2.configDir, b2)
      else
        let b3 := { b2 with dataDir := filepath.Join [b2.path, DATA_DIR] }
        if sys.MakeDir b3.dataDir ≠ none ∧ ¬ IsExist (sys.MakeDir b3.dataDir) then
          (sys.MakeDir b3.dataDir, b3)
        else
          let b4 := { b3 with binDir := filepath.Join [b3.path, BIN_DIR] }
          if sys.MakeDir b4.binDir ≠ none ∧ ¬ IsExist (sys.MakeDir b4.binDir) then
            (sys.MakeDir b4.binDir, b4)
          else
            (none, b4)

/-- Go `basedir.Path`. -/
def basedir.Path (b : basedir) : String := b.path

/-- Go `basedir.Dir`: the directory, or the message of the panic. -/
def basedir.Dir (b : basedir) (service : String) : Except String String :=
  if service = "config" then Except.ok b.configDir
  else if service = "data" then Except.ok b.dataDir
  else if service = "bin" then Except.ok b.binDir
  else Except.error ("Invalid service: " ++ service)

/-- Go `basedir.ConfigFile`. -/
def basedir.ConfigFile (b : basedir) (service : String) : String :=
  filepath.Join [b.configDir, service ++ CONFIG_FILE_SUFFIX]

/-- Go `basedir.ReadConfig`, for a target `v` of type `α`; `unmarshal` is
`json.Unmarshal(data, &v)`: its error and the target as it leaves it.  Returns the error
and the target afterwards. -/
def basedir.ReadConfig {α : Type} (sys : Sys) (unmarshal : List UInt8 → α → Option GoError × α)
    (fs : FS) (b : basedir) (service : String) (v : α) : Option GoError × α :=
  let configFile := filepath.Join [b.configDir, service ++ CONFIG_FILE_SUFFIX]
  let r := ReadFile sys fs configFile
  if r.2 ≠ none ∧ ¬ IsNotExist r.2 then
    -- There's an error and it's not "file not found".
    (r.2, v)
  else if r.1.length > 0 then
    unmarshal r.1 v
  else
    (r.2, v)

/-- Go `basedir.WriteConfig`, for a config of type `α`; `marshalIndent` is
`json.MarshalIndent(config, "", "    ")`.  Returns the error and the file system
afterwards. -/
def basedir.WriteConfig {α : Type} (sys : Sys) (marshalIndent : α → Except GoError (List UInt8))
    (fs : FS) (b : basedir) (service : String) (config : α) : Option GoError × FS :=
  let configFile := filepath.Join [b.configDir, service ++ CONFIG_FILE_SUFFIX]
  match marshalIndent config with
  | Except.error err => (some err, fs)
  | Except.ok data => WriteFile sys fs configFile data

/-- Go `basedir.WriteConfigString`. -/
def basedir.WriteConfigString (sys : Sys) (fs : FS) (b : basedir) (service config : String) :
    Option GoError × FS :=
  let configFile := filepath.Join [b.configDir, service ++ CONFIG_FILE_SUFFIX]
  WriteFile sys fs configFile config.toUTF8.data.toList

/-- Go `basedir.RemoveConfig`. -/
def basedir.RemoveConfig (sys : Sys) (fs : FS) (b : basedir) (service : String) :
    Option GoError × FS :=
  let configFile := filepath.Join [b.configDir, service ++ CONFIG_FILE_SUFFIX]
  RemoveFile sys fs configFile

/-- An outside world without faults in which `path` is already absolute and clean, so
that `filepath.Abs` returns it as it is. -/
def Sys.plain : Sys :=
  { Abs := fun p => Except.ok p, MakeDir := fun _ => none, readFault := fun _ => none,
    writeFault := fun _ _ _ => none, removeFault := fun _ _ => none }

/-- A file system with no file. -/
def FS.empty : FS := fun _ => none

end pct


namespace slowlog

open gotime qan perfschema

/-- What the slow-log file iterator learns at one tick: the time of the tick, the file name
the injected resolver returns, the inode and the size that `stat` reports for that file,
and whether the interval stream takes an emitted interval within the timeout. -/
structure Tick where
  t : Time
  filename : String
  inode : Nat
  size : Nat
  sendReady : Bool
deriving DecidableEq, Repr

/-- Modelled from the spec: the state of the QAN interval iterator of section 4.F, whose
code (package `qan/slowlog`) is not among the files at hand: `prev_start_time`,
`prev_size`, `number`, the file name and inode of the last call (`none` before the first
tick), and the intervals emitted so far, oldest first. -/
structure IterState where
  prevStartTime : Time
  prevSize : Nat
  number : Int
  last : Option (String × Nat)
  out : List Emit
deriving DecidableEq, Repr

/-- Modelled from the spec: the iterator before its first tick; the first interval gets
number 1, as `TestIterFile` expects. -/
def IterState.init : IterState :=
  { prevStartTime := 0, prevSize := 0, number := 1, last := none, out := [] }

/-- Modelled from the spec: step 2 of section 4.F, the test for a rotation: the file name
differs from the last call, or the inode differs, or the current size is less than
`prev_size`. -/
def rotated (s : IterState) (tk : Tick) : Bool :=
  match s.last with
  | none => false
  | some (name, inode) =>
    decide (tk.filename ≠ name) || decide (tk.inode ≠ inode) || decide (tk.size < s.prevSize)

/-- Modelled from the spec: the steps of section 4.F on a received tick.  A rotation makes
`start_offset` 0, otherwise it is `prev_size`; `end_offset` is the current size; the first
tick after start only remembers its time and emits nothing; every later tick emits the
interval `{number++, filename, prev_start_time, t, start_offset, end_offset}` (taken by
the stream or dropped after the timeout) and then sets `prev_start_time` and `prev_size`.
The first tick also records the size it saw: in `TestIterFile` the file is 3 bytes at the
first tick "so that should be the StartOffset" of the first interval. -/
def onTick (s : IterState) (tk : Tick) : IterState :=
  let startOffset : Nat := if rotated s tk then 0 else s.prevSize
  let endOffset : Nat := tk.size
  match s.last with
  | none =>
    { s with prevStartTime := tk.t, prevSize := endOffset,
             last := some (tk.filename, tk.inode) }
  | some _ =>
    let iv : Interval :=
      { Number := s.number, Filename := tk.filename, StartTime := s.prevStartTime,
        StopTime := tk.t, StartOffset := startOffset, EndOffset := endOffset }
    { prevStartTime := tk.t, prevSize := endOffset, number := s.number + 1,
      last := some (tk.filename, tk.inode),
      out := s.out ++ [if tk.sendReady then Emit.sent iv else Emit.lost iv] }

/-- The iterator after the ticks, handled one after the other. -/
def afterTicks (s : IterState) (ticks : List Tick) : IterState := ticks.foldl onTick s

/-- The intervals the iterator emits on the ticks, from its start. -/
def produced (ticks : List Tick) : List Emit := (afterTicks IterState.init ticks).out

end slowlog

namespace qan

/-- Go `qan.Config`, with the options the rotation of the slow log and the worker pool
read; a query is kept by its text. -/
structure Config where
  MaxSlowLogSize : Int := 0
  RemoveOldSlowLogs : Bool := false
  Start : List String := []
  Stop : List String := []
  MaxWorkers : Nat := 0
deriving DecidableEq, Repr

/-- What the rotation of the slow log acts on: the queries executed on MySQL so far
(oldest first), the size of the file under each name (0 where there is none), the clock in
Unix seconds, and the renamed files that wait for removal. -/
structure World where
  executed : List String
  size : String → Nat
  unixNow : Int
  pending : List String

/-- The name a rotated slow log is given: `<original>-<unix_seconds_utc>`. -/
def rotatedName (filename : String) (unixNow : Int) : String :=
  filename ++ "-" ++ toString unixNow

/-- Modelled from the spec: the rotation check of section 4.H, whose code (the QAN manager
and worker) is not among the files at hand.  If `I.end_offset >= max_slow_log_size`: the
Stop and then the Start queries are executed, `I.end_offset` is extended to the current
size of the pre-rotation file, and the file is renamed to `<name>-<unix_ts>` and
remembered in the pending-removal list.  Otherwise nothing happens. -/
def rotationCheck (cfg : Config) (w : World) (I : Interval) : Interval × World :=
  if I.EndOffset ≥ cfg.MaxSlowLogSize then
    let executed := w.executed ++ cfg.Stop ++ cfg.Start
    let fileSize := w.size I.Filename
    let renamed := rotatedName I.Filename w.unixNow
    ({ I with EndOffset := (fileSize : Int) },
     { executed := executed,
       size := fun name =>
         if name = renamed then fileSize else if name = I.Filename then 0 else w.size name,
       unixNow := w.unixNow,
       pending := w.pending ++ [renamed] })
  else
    (I, w)

/-- The world of `TestRotateAndRemoveSlowLog`: one slow log of 2200 bytes, nothing executed
yet. -/
def World.sample : World :=
  { executed := [],
    size := fun name => if name = "/tmp/slow006.log" then 2200 else 0,
    unixNow := 1400000000, pending := [] }

end qan

namespace data

open pct

/-- The constants of package `data` that `LoadConfig` reads; they are declared in a file
that is not at hand, so they are handed to the model. -/
structure Consts where
  CONFIG_FILE : String
  DEFAULT_DATA_DIR : String
  DEFAULT_DATA_SEND_INTERVAL : Int
deriving DecidableEq, Repr

/-- The value `pct.ReadConfig` returns as an `interface{}`: a `data.Config`, the nil
interface, or a value of another dynamic type, given by the name of that type. -/
inductive Value where
  | config (c : Config)
  | nil
  | other (typ : String)
deriving DecidableEq, Repr

/-- Go `Manager.LoadConfig`; `readConfig` is `pct.ReadConfig`.  The result is the pair
(config, error) that is returned, or the message of the run-time panic of the type
assertion `v.(Config)` on a value that is not a `Config`; the manager has `configDir`
stored in every case. -/
def Manager.LoadConfig (consts : Consts) (readConfig : String → Except GoError Value)
    (m : Manager) (configDir : String) :
    Except String (Option Config × Option GoError) × Manager :=
  let m1 := { m with configDir := configDir }
  match readConfig (configDir ++ "/" ++ consts.CONFIG_FILE) with
  | Except.error err => (Except.ok (none, some err), m1)
  | Except.ok (Value.config config) =>
    let config1 := if config.Dir = "" then { config with Dir := consts.DEFAULT_DATA_DIR }
      else config
    let config2 := if config1.SendInterval ≤ 0 then
        { config1 with SendInterval := consts.DEFAULT_DATA_SEND_INTERVAL }
      else config1
    (Except.ok (some config2, none), m1)
  | Except.ok Value.nil =>
    (Except.error "interface conversion: interface \x7b\x7d is nil, not data.Config", m1)
  | Except.ok (Value.other typ) =>
    (Except.error ("interface conversion: interface \x7b\x7d is " ++ typ ++ ", not data.Config"),
      m1)

end data

namespace test

open pct

/-- Go `os.Stat`, as far as `FileExists` looks at it: its error.  `statFault` is a failure
for another reason than a missing file (a component of the path that is a regular file or
a directory that may not be searched; `none` is no fault); without one, a path with
nothing under it gives the error that `os.IsNotExist` recognises. -/
def Stat (statFault : String → Option GoError) (fs : FS) (name : String) : Option GoError :=
  match statFault name with
  | some err => some err
  | none =>
    match fs name with
    | none => some (GoError.PathError "stat" name Errno.ENOENT)
    | some _ => none

/-- Go `test.FileExists`. -/
def FileExists (statFault : String → Option GoError) (fs : FS) (file : String) : Bool :=
  let err := Stat statFault fs file
  if err = none then true
  else IsNotExist err

end test

namespace strings

/-- The pieces of a string between the occurrences of the character `sep`. -/
def splitChars (sep : Char) : List Char → List (List Char)
  | [] => [[]]
  | c :: cs =>
    if c = sep then [] :: splitChars sep cs
    else
      match splitChars sep cs with
      | [] => [[c]]
      | e :: es => (c :: e) :: es

/-- Go `strings.Split(s, sep)` for a separator of one character. -/
def Split (s : String) (sep : Char) : List String :=
  (splitChars sep s.data).map String.mk

end strings

namespace strconv

open pct

/-- The value of a string of decimal digits read after `acc`; `none` when a character is
not a digit. -/
def readDigits : List Char → Nat → Option Nat
  | [], acc => some acc
  | c :: cs, acc =>
    if '0' ≤ c ∧ c ≤ '9' then readDigits cs (10 * acc + (c.toNat - '0'.toNat))
    else none

/-- Go `strconv.Quote` on text of printable characters: the text between double quotes,
with a backslash before every double quote and every backslash in it.  (The escape
sequences Go writes for control and non-printable characters are not modelled; such
characters are kept as they are.) -/
def Quote (s : String) : String :=
  "\x22" ++ String.join (s.data.map fun c =>
    if c = Char.ofNat 34 then "\x5c\x22"
    else if c = Char.ofNat 92 then "\x5c\x5c"
    else String.singleton c) ++ "\x22"

/-- Go `strconv.ParseInt(s, 10, 64)`: an optional sign and at least one decimal digit,
with a value in the range of `int64`; anything else is an error, a `*NumError` whose text
quotes the input. -/
def ParseInt (s : String) : Except GoError Int :=
  let syntaxErr : GoError :=
    GoError.other ("strconv.ParseInt: parsing " ++ Quote s ++ ": invalid syntax")
  let rangeErr : GoError :=
    GoError.other ("strconv.ParseInt: parsing " ++ Quote s ++ ": value out of range")
  let body : Bool × List Char :=
    match s.data with
    | '+' :: rest => (false, rest)
    | '-' :: rest => (true, rest)
    | cs => (false, cs)
  if body.2 = [] then Except.error syntaxErr
  else
    match readDigits body.2 0 with
    | none => Except.error syntaxErr
    | some n =>
      if body.1 then
        if n ≤ 2 ^ 63 then Except.ok (-(n : Int)) else Except.error rangeErr
      else
        if n < 2 ^ 63 then Except.ok (n : Int) else Except.error rangeErr

end strconv

namespace instanceMgr

open pct proto

/-- Go conversion `uint(id)` of an `int64` (64-bit `uint`). -/
def toUint (id : Int) : Nat := (id % 2 ^ 64).toNat

/-- The loop of `Manager.getMySQLInstances` over the names that are left: the instances
gathered so far, the calls made on the repo so far, and the result `(instances, err)` with
the calls afterwards.  An error returns nil instances. -/
def getMySQLInstancesLoop (env : Env) :
    List String → List MySQLInstance → List RepoOp →
      (List MySQLInstance × Option GoError) × List RepoOp
  | [], instances, ops => ((instances, none), ops)
  | name :: rest, instances, ops =>
    match strings.Split name '-' with
    | [service, idStr] =>
      if service = "mysql" then
        match strconv.ParseInt idStr with
        | Except.error err => (([], some err), ops)
        | Except.ok id =>
          match env.repoGet service (toUint id) with
          | Except.error err => (([], some err), ops ++ [RepoOp.Get service (toUint id)])
          | Except.ok it =>
            -- err = GetMySQLInfo(it) is overwritten by the next iteration and never returned
            getMySQLInstancesLoop env rest (instances ++ [(GetMySQLInfo env it).2])
              (ops ++ [RepoOp.Get service (toUint id)])
      else
        getMySQLInstancesLoop env rest instances ops
    | _ => (([], some (GoError.errorString ("Invalid instance name: " ++ name))), ops)

/-- Go `Manager.getMySQLInstances`: the result `(instances, err)` and the manager
afterwards. -/
def Manager.getMySQLInstances (env : Env) (m : Manager) :
    (List MySQLInstance × Option GoError) × Manager :=
  let r := getMySQLInstancesLoop env env.repoList [] (m.repoOps ++ [RepoOp.List])
  (r.1, { m with repoOps := r.2 })

/-- Go `Manager.Start`: the error, the manager afterwards, and the instances printed on
standard output. -/
def Manager.Start (env : Env) (m : Manager) : Option GoError × Manager × List MySQLInstance :=
  let m1 := { m with status := m.status.Update "instance" "Starting",
                     repoOps := m.repoOps ++ [RepoOp.Init] }
  match env.repoInit with
  | some err => (some err, m1, [])
  | none =>
    let m2 := { m1 with logged := m1.logged ++ ["Started"],
                        status := m1.status.Update "instance" "Running" }
    let r := m2.getMySQLInstances env
    match r.1.2 with
    | some err =>
      -- the loop prints the first instance, if there is one, and returns err
      (some err, r.2, r.1.1.take 1)
    | none => (none, r.2, r.1.1)

/-- An outside world for the instance manager with the given repo names, in which every
lookup in the repo succeeds and no MySQL server is reachable. -/
def Env.unreachable (names : List String) : Env :=
  { unmarshalServiceInstance := fun _ => Except.ok {},
    unmarshalMySQLInstance := fun _ => Except.ok {},
    errorText := fun _ => "",
    repoInit := none, repoList := names,
    repoAdd := fun _ _ _ _ => none,
    repoGet := fun _ id => Except.ok { Id := id, DSN := "root@tcp(db:3306)" },
    repoRemove := fun _ _ => none,
    connect := fun _ => some (GoError.other "dial tcp: connection refused"),
    queryInfo := fun _ => Except.ok ("", "", "") }

end instanceMgr


namespace agent

/-- Go `agent.Config`, with the options of the configuration schema; a map is kept as the
list of its entries. -/
structure Config where
  ApiHostname : String := ""
  ApiKey : String := ""
  AgentUuid : String := ""
  PidFile : String := ""
  LogDir : String := ""
  LogLevel : String := ""
  DataDir : String := ""
  Links : List (String × String) := []
  Enable : List String := []
  Disable : List String := []
deriving DecidableEq, Repr

/-- Modelled from the spec: `agent.Config.Apply` is not among the files at hand, only its
tests are.  Section 6: applying `B` over `A` overwrites only the keys that are set in `B`;
an empty string and an empty collection are unset and do not overwrite.  `c.Apply cur` is
`c` after `cur` has been applied over it: every option of the configuration schema is the
one of `cur` where that is set and the one of `c` where it is not.  A collection that is
set in `cur` replaces the collection of `c` as a whole, so the property of section 8 that
the enable list of the result contains the enable lists of both configs "where fields are
set" holds when the list of `cur` is unset or contains the list of `c`
(`apply_enable_superset`). -/
def Config.Apply (c cur : Config) : Config :=
  { ApiHostname := if cur.ApiHostname ≠ "" then cur.ApiHostname else c.ApiHostname,
    ApiKey := if cur.ApiKey ≠ "" then cur.ApiKey else c.ApiKey,
    AgentUuid := if cur.AgentUuid ≠ "" then cur.AgentUuid else c.AgentUuid,
    PidFile := if cur.PidFile ≠ "" then cur.PidFile else c.PidFile,
    LogDir := if cur.LogDir ≠ "" then cur.LogDir else c.LogDir,
    LogLevel := if cur.LogLevel ≠ "" then cur.LogLevel else c.LogLevel,
    DataDir := if cur.DataDir ≠ "" then cur.DataDir else c.DataDir,
    Links := if cur.Links ≠ [] then cur.Links else c.Links,
    Enable := if cur.Enable ≠ [] then cur.Enable else c.Enable,
    Disable := if cur.Disable ≠ [] then cur.Disable else c.Disable }

/-- The config of `full_config.json`, as `TestLoadConfig` and `TestRequiredConfig` spell it
out. -/
def Config.full : Config :=
  { ApiHostname := "agent hostname", ApiKey := "api key", AgentUuid := "agent uuid",
    PidFile := "pid file", LogDir := "log dir", LogLevel := "info", DataDir := "data dir",
    Links := [("home", "/")], Enable := ["enabled"], Disable := ["disabled"] }

end agent

namespace qan

/-- An entry of the pending-removal list: a renamed slow log and the ids of the workers
that may still be reading it. -/
structure Held where
  file : String
  holders : List Nat
deriving DecidableEq, Repr

/-- Modelled from the spec: the state of the dispatch loop of the QAN manager (section
4.H), whose code is not among the files at hand: the world the rotation acts on, the ids
of the running workers, the id of the next worker, the pending-removal list with its
holder sets, and what the loop has done so far (oldest first): the files unlinked from
disk, the warnings logged, the intervals dropped, the intervals handed to workers and the
workers whose result went to the spool. -/
structure Pool where
  world : World
  running : List Nat
  nextId : Nat
  held : List Held
  removed : List String
  warned : List String
  dropped : List Interval
  started : List (Nat × Interval)
  spooled : List Nat

/-- Modelled from the spec: the manager before the first interval: no worker, nothing
pending. -/
def Pool.init (w : World) : Pool :=
  { world := w, running := [], nextId := 1, held := [], removed := [], warned := [],
    dropped := [], started := [], spooled := [] }

/-- Modelled from the spec: the dispatch loop on a received interval (section 4.H).
Admission: with `max_workers` workers running the warning "All workers busy" is logged
and the interval is dropped.  Otherwise the rotation check runs; a rotated file enters the
pending-removal list, tagged with the workers that are running; a worker is created,
recorded as a holder of every entry of the list, and launched. -/
def dispatch (cfg : Config) (p : Pool) (I : Interval) : Pool :=
  if p.running.length ≥ cfg.MaxWorkers then
    { p with warned := p.warned ++ ["All workers busy"], dropped := p.dropped ++ [I] }
  else
    let r := rotationCheck cfg p.world I
    let held1 : List Held :=
      if I.EndOffset ≥ cfg.MaxSlowLogSize then
        p.held ++ [{ file := rotatedName I.Filename p.world.unixNow, holders := p.running }]
      else p.held
    let id := p.nextId
    { p with
      world := r.2,
      running := p.running ++ [id],
      nextId := id + 1,
      held := held1.map (fun h => { h with holders := h.holders ++ [id] }),
      started := p.started ++ [(id, r.1)] }

/-- Modelled from the spec: a worker finishes (section 4.H): its result goes to the spool,
its hold on the pending-removal entries is dropped, and every entry whose holder set is
empty leaves the list and is unlinked from disk if `remove_old_slow_logs` is true.  A
worker that is not running is ignored. -/
def finish (cfg : Config) (p : Pool) (id : Nat) : Pool :=
  if id ∈ p.running then
    let held1 : List Held :=
      p.held.map (fun h => { h with holders := h.holders.filter (fun w => decide (w ≠ id)) })
    let drained : List String :=
      (held1.filter (fun h => decide (h.holders = []))).map Held.file
    let unlinked : List String := if cfg.RemoveOldSlowLogs then drained else []
    { p with
      world :=
        { p.world with
          size := fun name => if name ∈ unlinked then 0 else p.world.size name,
          pending := p.world.pending.filter (fun f => decide (f ∉ drained)) },
      running := p.running.filter (fun w => decide (w ≠ id)),
      held := held1.filter (fun h => decide (h.holders ≠ [])),
      removed := p.removed ++ unlinked,
      spooled := p.spooled ++ [id] }
  else p

/-- What the dispatch loop receives: an interval from the iterator, or the end of a
worker. -/
inductive PoolEvent where
  | interval (I : Interval)
  | done (worker : Nat)
deriving DecidableEq, Repr

/-- One turn of the dispatch loop. -/
def Pool.step (cfg : Config) (p : Pool) : PoolEvent → Pool
  | PoolEvent.interval I => dispatch cfg p I
  | PoolEvent.done id => finish cfg p id

/-- The dispatch loop over the events, from the start of the manager. -/
def Pool.run (cfg : Config) (w : World) (es : List PoolEvent) : Pool :=
  es.foldl (Pool.step cfg) (Pool.init w)

end qan

/-! ## Arithmetic of Go `int` -/

theorem wrapInt_zero : wrapInt 0 = 0 := by decide

theorem wrapInt_of_range (x : Int) (h0 : -(2 ^ 63) ≤ x) (h1 : x < 2 ^ 63) : wrapInt x = x := by
  unfold wrapInt
  rw [Int.emod_eq_of_lt (by omega) (by omega)]
  omega

theorem wrapInt_succ (x : Int) : wrapInt (wrapInt x + 1) = wrapInt (x + 1) := by
  unfold wrapInt
  have h : (x + 2 ^ 63) % 2 ^ 64 - 2 ^ 63 + 1 + 2 ^ 63 = (x + 2 ^ 63) % 2 ^ 64 + 1 := by ring
  rw [h, Int.emod_add_cancel_right 1 |>.mpr (Int.emod_emod_of_dvd _ (dvd_refl _))]
  congr 2
  ring

namespace perfschema

open gotime qan

/-! ## The loop of `Iter.run` -/

theorem run_ticksOf (s : RunState) (ticks : List (Time × Bool)) (rest : List Event) :
    run s (ticksOf ticks ++ Event.stop :: rest) = (afterTicks s ticks, true) := by
  induction ticks generalizing s with
  | nil => simp [ticksOf, run, afterTicks]
  | cons p ps ih =>
    have := ih (onTick s p.1 p.2)
    simpa [ticksOf, run, afterTicks] using this

theorem produced_eq (ticks : List (Time × Bool)) :
    produced ticks = (afterTicks NewIter ticks).out := by
  unfold produced
  rw [run_ticksOf]

theorem afterTicks_snoc (s : RunState) (ticks : List (Time × Bool)) (p : Time × Bool) :
    afterTicks s (ticks ++ [p]) = onTick (afterTicks s ticks) p.1 p.2 := by
  simp [afterTicks, List.foldl_append]

theorem onTick_first (s : RunState) (now : Time) (r : Bool)
    (h : IsZero s.cur.StartTime = true) :
    onTick s now r = { s with cur := { s.cur with StartTime := now } } := by
  simp [onTick, h]

theorem onTick_next (s : RunState) (now : Time) (r : Bool)
    (h : IsZero s.cur.StartTime = false) :
    onTick s now r =
      { intervalNo := wrapInt (s.intervalNo + 1), cur := { StartTime := now },
        out := s.out ++
          [if r then Emit.sent { s.cur with StopTime := now, Number := wrapInt (s.intervalNo + 1) }
           else Emit.lost { s.cur with StopTime := now, Number := wrapInt (s.intervalNo + 1) }] } := by
  cases r <;> simp [onTick, h]

theorem onTick_startTime (s : RunState) (now : Time) (r : Bool) :
    (onTick s now r).cur.StartTime = now := by
  cases h : IsZero s.cur.StartTime
  · rw [onTick_next s now r h]
  · rw [onTick_first s now r h]

theorem emit_interval_ite (r : Bool) (iv : Interval) :
    (if r then Emit.sent iv else Emit.lost iv).interval = iv := by
  cases r <;> rfl

/-- Numbering invariant: the counter is the (wrapped) number of emissions, and the
emission at position `n` carries the (wrapped) number `n + 1`. -/
theorem numbering (ticks : List (Time × Bool)) :
    (afterTicks NewIter ticks).intervalNo = wrapInt (afterTicks NewIter ticks).out.length ∧
    ∀ (n : Nat) (e : Emit), (afterTicks NewIter ticks).out[n]? = some e →
      e.interval.Number = wrapInt ((n : Int) + 1) := by
  induction ticks using List.reverseRecOn with
  | nil => simp [afterTicks, NewIter, wrapInt_zero]
  | append_singleton l p ih =>
    obtain ⟨ihNo, ihOut⟩ := ih
    rw [afterTicks_snoc]
    cases h : IsZero (afterTicks NewIter l).cur.StartTime
    · rw [onTick_next _ _ _ h]
      refine ⟨?_, ?_⟩
      · simp only [List.length_append, List.length_singleton]
        rw [ihNo, wrapInt_succ]
        push_cast
        rfl
      · intro n e hn
        simp only at hn
        rcases Nat.lt_or_ge n (afterTicks NewIter l).out.length with hlt | hge
        · rw [List.getElem?_append_left hlt] at hn
          exact ihOut n e hn
        · rw [List.getElem?_append_right hge] at hn
          have hn0 : n - (afterTicks NewIter l).out.length = 0 := by
            by_contra hne
            have : 1 ≤ n - (afterTicks NewIter l).out.length := Nat.one_le_iff_ne_zero.mpr hne
            simp [List.getElem?_eq_none, this] at hn
          rw [hn0] at hn
          simp only [List.getElem?_cons_zero, Option.some.injEq] at hn
          subst hn
          rw [emit_interval_ite]
          have hnl : n = (afterTicks NewIter l).out.length := by omega
          simp only
          rw [ihNo, wrapInt_succ, hnl]
    · rw [onTick_first _ _ _ h]
      exact ⟨ihNo, ihOut⟩

theorem delivered_sublist (out : List Emit) :
    (delivered out).Sublist (out.map Emit.interval) := by
  induction out with
  | nil => simp [delivered]
  | cons e es ih =>
    cases e with
    | sent iv => simpa [delivered, Emit.interval] using ih
    | lost iv => simpa [delivered, Emit.interval] using ih.cons iv

/-- C2: the n-th interval produced by one iterator, dropped ones counted, has Number n
(within the range of Go int), so the Numbers of the intervals the consumer receives are at
least 1 and strictly increasing. -/
theorem iter_numbers_strictly_increasing (ticks : List (Time × Bool))
    (hlen : ((produced ticks).length : Int) < 2 ^ 63) :
    (∀ (n : Nat) (e : Emit), (produced ticks)[n]? = some e →
      e.interval.Number = (n : Int) + 1) ∧
    (∀ iv ∈ delivered (produced ticks), 1 ≤ iv.Number) ∧
    (delivered (produced ticks)).Pairwise (fun a b => a.Number < b.Number) := by
  rw [produced_eq] at hlen ⊢
  have hnum : ∀ (n : Nat) (e : Emit), (afterTicks NewIter ticks).out[n]? = some e →
      e.interval.Number = (n : Int) + 1 := by
    intro n e hn
    have hlt : n < (afterTicks NewIter ticks).out.length := by
      by_contra hge
      rw [List.getElem?_eq_none (by omega)] at hn
      cases hn
    rw [(numbering ticks).2 n e hn]
    exact wrapInt_of_range _ (by omega) (by omega)
  have hall : ∀ iv ∈ (afterTicks NewIter ticks).out.map Emit.interval, 1 ≤ iv.Number := by
    intro iv hiv
    obtain ⟨e, he, rfl⟩ := List.mem_map.mp hiv
    obtain ⟨n, hn⟩ := List.getElem?_of_mem he
    rw [hnum n e hn]
    omega
  have hpair : ((afterTicks NewIter ticks).out.map Emit.interval).Pairwise
      (fun a b => a.Number < b.Number) := by
    rw [List.pairwise_iff_getElem]
    intro i j hi hj hij
    simp only [List.length_map] at hi hj
    have e1 := hnum i _ (List.getElem?_eq_getElem hi)
    have e2 := hnum j _ (List.getElem?_eq_getElem hj)
    simp only [List.getElem_map]
    rw [e1, e2]
    omega
  exact ⟨hnum, fun iv hiv => hall iv ((delivered_sublist _).subset hiv),
    hpair.sublist (delivered_sublist _)⟩

theorem iter_numbers_strictly_increasing_witness :
    (((produced [(3, true), (5, false), (9, true), (12, true)]).length : Int) < 2 ^ 63) ∧
    (∀ (n : Nat) (e : Emit),
      (produced [(3, true), (5, false), (9, true), (12, true)])[n]? = some e →
      e.interval.Number = (n : Int) + 1) ∧
    (∀ iv ∈ delivered (produced [(3, true), (5, false), (9, true), (12, true)]),
      1 ≤ iv.Number) ∧
    (delivered (produced [(3, true), (5, false), (9, true), (12, true)])).Pairwise
      (fun a b => a.Number < b.Number) :=
  ⟨by decide, iter_numbers_strictly_increasing _ (by decide)⟩

theorem isZero_eq_false_iff (t : Time) : IsZero t = false ↔ t ≠ 0 := by
  simp [IsZero]

/-- After any ticks the start time of `cur` is zero or the time of one of the ticks. -/
theorem cur_startTime_mem (ticks : List (Time × Bool)) :
    (afterTicks NewIter ticks).cur.StartTime = 0 ∨
      ∃ q ∈ ticks, (afterTicks NewIter ticks).cur.StartTime = q.1 := by
  induction ticks using List.reverseRecOn with
  | nil => left; rfl
  | append_singleton l p _ =>
    right
    exact ⟨p, by simp, by rw [afterTicks_snoc, onTick_startTime]⟩

/-- C3: if the tick times are non-decreasing, every interval produced has
StartTime <= StopTime. -/
theorem iter_start_le_stop (ticks : List (Time × Bool))
    (hmono : (ticks.map Prod.fst).Pairwise (fun a b => a ≤ b)) :
    ∀ e ∈ produced ticks, e.interval.StartTime ≤ e.interval.StopTime := by
  rw [produced_eq]
  induction ticks using List.reverseRecOn with
  | nil => simp [afterTicks, NewIter]
  | append_singleton l p ih =>
    rw [List.map_append, List.pairwise_append] at hmono
    obtain ⟨hl, -, hlp⟩ := hmono
    have ih := ih hl
    rw [afterTicks_snoc]
    cases h : IsZero (afterTicks NewIter l).cur.StartTime
    · rw [onTick_next _ _ _ h]
      intro e he
      simp only [List.mem_append, List.mem_singleton] at he
      rcases he with he | he
      · exact ih e he
      · subst he
        rw [emit_interval_ite]
        simp only
        rcases cur_startTime_mem l with h0 | ⟨q, hq, hqs⟩
        · exact absurd h0 ((isZero_eq_false_iff _).mp h)
        · rw [hqs]
          exact hlp q.1 (List.mem_map_of_mem _ hq) p.1 (by simp)
    · rw [onTick_first _ _ _ h]
      exact ih

theorem iter_start_le_stop_witness :
    ((([(3, true), (3, false), (9, true)] : List (Time × Bool)).map Prod.fst).Pairwise
      (fun a b => a ≤ b)) ∧
    ∀ e ∈ produced [(3, true), (3, false), (9, true)],
      e.interval.StartTime ≤ e.interval.StopTime :=
  ⟨by decide, iter_start_le_stop _ (by decide)⟩

/-- With non-zero tick times, `cur` has a non-zero start time once a tick was handled. -/
theorem cur_isZero_false (ticks : List (Time × Bool)) (hnz : ∀ p ∈ ticks, p.1 ≠ 0)
    (hne : ticks ≠ []) : IsZero (afterTicks NewIter ticks).cur.StartTime = false := by
  rcases List.eq_nil_or_concat ticks with h | ⟨l, p, h⟩
  · exact absurd h hne
  · rw [List.concat_eq_append] at h
    subst h
    rw [afterTicks_snoc, onTick_startTime, isZero_eq_false_iff]
    exact hnz p (by simp)

/-- The start time of `cur` is the time of the last tick handled. -/
theorem cur_startTime_last (ticks : List (Time × Bool)) (a : Time × Bool)
    (h : ticks[ticks.length - 1]? = some a) :
    (afterTicks NewIter ticks).cur.StartTime = a.1 := by
  rcases List.eq_nil_or_concat ticks with h0 | ⟨l, p, h0⟩
  · subst h0
    simp at h
  · rw [List.concat_eq_append] at h0
    subst h0
    have hlen : (l ++ [p]).length - 1 = l.length := by simp
    rw [hlen, List.getElem?_concat_length] at h
    cases h
    rw [afterTicks_snoc, onTick_startTime]

/-- With non-zero tick times, the emissions are one per pair of consecutive ticks: the
emission at position `n` starts at tick `n`, stops at tick `n + 1`, and is sent or lost as
the send at tick `n + 1` went. -/
theorem out_shape (ticks : List (Time × Bool)) (hnz : ∀ p ∈ ticks, p.1 ≠ 0) :
    (afterTicks NewIter ticks).out.length = ticks.length - 1 ∧
    ∀ (n : Nat) (e : Emit), (afterTicks NewIter ticks).out[n]? = some e →
      ∃ a b, ticks[n]? = some a ∧ ticks[n + 1]? = some b ∧
        e.interval.StartTime = a.1 ∧ e.interval.StopTime = b.1 ∧
        e = if b.2 then Emit.sent e.interval else Emit.lost e.interval := by
  induction ticks using List.reverseRecOn with
  | nil => simp [afterTicks, NewIter]
  | append_singleton l p ih =>
    have hnzl : ∀ q ∈ l, q.1 ≠ 0 := fun q hq => hnz q (by simp [hq])
    obtain ⟨ihLen, ihOut⟩ := ih hnzl
    by_cases hl : l = []
    · subst hl
      simp [afterTicks, onTick, NewIter, IsZero]
    · have hpos : 1 ≤ l.length := List.length_pos.mpr hl
      rw [afterTicks_snoc, onTick_next _ _ _ (cur_isZero_false l hnzl hl)]
      refine ⟨by simp only [List.length_append, List.length_singleton]; omega, ?_⟩
      intro n e hn
      simp only at hn
      rcases Nat.lt_or_ge n (afterTicks NewIter l).out.length with hlt | hge
      · rw [List.getElem?_append_left hlt] at hn
        obtain ⟨a, b, ha, hb, hrest⟩ := ihOut n e hn
        refine ⟨a, b, ?_, ?_, hrest⟩
        · rw [List.getElem?_append_left (by omega)]
          exact ha
        · rw [List.getElem?_append_left (by omega)]
          exact hb
      · rw [List.getElem?_append_right hge] at hn
        have hn0 : n - (afterTicks NewIter l).out.length = 0 := by
          by_contra hne
          have : 1 ≤ n - (afterTicks NewIter l).out.length := Nat.one_le_iff_ne_zero.mpr hne
          simp [List.getElem?_eq_none, this] at hn
        rw [hn0] at hn
        simp only [List.getElem?_cons_zero, Option.some.injEq] at hn
        have hnl : n = l.length - 1 := by omega
        obtain ⟨a, hlast⟩ : ∃ a, l[l.length - 1]? = some a :=
          ⟨_, List.getElem?_eq_getElem (by omega)⟩
        refine ⟨a, p, ?_, ?_, ?_⟩
        · rw [hnl, List.getElem?_append_left (by omega)]
          exact hlast
        · have : n + 1 = l.length := by omega
          rw [this, List.getElem?_concat_length]
        · subst hn
          rw [emit_interval_ite]
          exact ⟨cur_startTime_last l _ hlast, rfl, rfl⟩

/-- C1, as stated, fails: a first tick that carries the zero time leaves `cur.StartTime`
zero, so the second tick is handled as a first tick again and two ticks produce no
interval. -/
theorem iter_tick_count_counterexample :
    produced [(0, true), (5, true)] = [] ∧
    ¬ ((produced [(0, true), (5, true)]).length =
        ([(0, true), (5, true)] : List (Time × Bool)).length - 1) := by
  decide

/-- C1, amended: for k >= 1 ticks with non-zero times received before the stop signal, the
first tick produces no interval and every later tick produces exactly one (sent or lost),
so k ticks produce k - 1 intervals. -/
theorem iter_ticks_produce (ticks : List (Time × Bool)) (hne : ticks ≠ [])
    (hnz : ∀ p ∈ ticks, p.1 ≠ 0) :
    (produced ticks).length = ticks.length - 1 ∧
    produced (ticks.take 1) = [] ∧
    ∀ j, 1 ≤ j → j < ticks.length →
      ∃ e, produced (ticks.take (j + 1)) = produced (ticks.take j) ++ [e] := by
  refine ⟨?_, ?_, ?_⟩
  · rw [produced_eq]
    exact (out_shape ticks hnz).1
  · cases ticks with
    | nil => exact absurd rfl hne
    | cons p ps => simp [produced_eq, afterTicks, onTick, NewIter, IsZero]
  · intro j hj1 hjk
    have htake : ticks.take (j + 1) = ticks.take j ++ [ticks[j]] := by
      rw [List.take_succ, List.getElem?_eq_getElem hjk]
      rfl
    have hnzj : ∀ p ∈ ticks.take j, p.1 ≠ 0 := fun p hp => hnz p (List.mem_of_mem_take hp)
    have hnej : ticks.take j ≠ [] := by
      intro h0
      have hlen : (ticks.take j).length = 0 := by rw [h0]; rfl
      rw [List.length_take] at hlen
      omega
    rw [produced_eq, produced_eq, htake, afterTicks_snoc,
      onTick_next _ _ _ (cur_isZero_false _ hnzj hnej)]
    exact ⟨_, rfl⟩

theorem iter_ticks_produce_witness :
    (([(3, true), (5, false), (9, true)] : List (Time × Bool)) ≠ []) ∧
    (∀ p ∈ ([(3, true), (5, false), (9, true)] : List (Time × Bool)), p.1 ≠ 0) ∧
    ((produced [(3, true), (5, false), (9, true)]).length =
        ([(3, true), (5, false), (9, true)] : List (Time × Bool)).length - 1 ∧
      produced (([(3, true), (5, false), (9, true)] : List (Time × Bool)).take 1) = [] ∧
      ∀ j, 1 ≤ j → j < ([(3, true), (5, false), (9, true)] : List (Time × Bool)).length →
        ∃ e, produced (([(3, true), (5, false), (9, true)] : List (Time × Bool)).take (j + 1)) =
          produced (([(3, true), (5, false), (9, true)] : List (Time × Bool)).take j) ++ [e]) :=
  ⟨by decide, by decide, iter_ticks_produce _ (by decide) (by decide)⟩

/-- C4, as stated, fails: when the first tick carries the zero time the first interval
starts at the second tick, not at the first. -/
theorem iter_first_start_counterexample :
    (produced [(0, true), (3, true), (5, true)])[0]? =
      some (Emit.sent { Number := 1, StartTime := 3, StopTime := 5 }) ∧
    ([(0, true), (3, true), (5, true)] : List (Time × Bool))[0]? = some (0, true) ∧
    ¬ ((3 : Time) = 0) := by
  decide

/-- C4, amended: when no tick carries the zero time, of two intervals produced
consecutively (sent or lost) the later starts when the earlier stops, and the first
interval starts at the time of the first tick. -/
theorem iter_consecutive_times (ticks : List (Time × Bool)) (hnz : ∀ p ∈ ticks, p.1 ≠ 0) :
    (∀ (n : Nat) (e e2 : Emit), (produced ticks)[n]? = some e →
      (produced ticks)[n + 1]? = some e2 →
      e2.interval.StartTime = e.interval.StopTime) ∧
    (∀ e : Emit, (produced ticks)[0]? = some e →
      ∃ p, ticks[0]? = some p ∧ e.interval.StartTime = p.1) := by
  rw [produced_eq]
  refine ⟨?_, ?_⟩
  · intro n e e2 hn hn2
    obtain ⟨_, b, _, hb, _, hstop, _⟩ := (out_shape ticks hnz).2 n e hn
    obtain ⟨a2, _, ha2, _, hstart, _⟩ := (out_shape ticks hnz).2 (n + 1) e2 hn2
    rw [hb] at ha2
    cases ha2
    rw [hstart, hstop]
  · intro e h0
    obtain ⟨a, _, ha, _, hstart, _⟩ := (out_shape ticks hnz).2 0 e h0
    exact ⟨a, ha, hstart⟩

theorem iter_consecutive_times_witness :
    (∀ p ∈ ([(3, true), (5, false), (9, true)] : List (Time × Bool)), p.1 ≠ 0) ∧
    ((∀ (n : Nat) (e e2 : Emit), (produced [(3, true), (5, false), (9, true)])[n]? = some e →
      (produced [(3, true), (5, false), (9, true)])[n + 1]? = some e2 →
      e2.interval.StartTime = e.interval.StopTime) ∧
    (∀ e : Emit, (produced [(3, true), (5, false), (9, true)])[0]? = some e →
      ∃ p, ([(3, true), (5, false), (9, true)] : List (Time × Bool))[0]? = some p ∧
        e.interval.StartTime = p.1)) :=
  ⟨by decide, iter_consecutive_times _ (by decide)⟩

theorem delivered_append (a b : List Emit) :
    delivered (a ++ b) = delivered a ++ delivered b := by
  induction a with
  | nil => rfl
  | cons e es ih => cases e <;> simp [delivered, ih]

/-- The emissions are append-only: what was emitted before stays in front, and the rest of
the run does not depend on it. -/
theorem run_out_extend (no : Int) (cur : Interval) (pre : List Emit) (es : List Event) :
    run { intervalNo := no, cur := cur, out := pre } es =
      ({ (run { intervalNo := no, cur := cur, out := [] } es).1 with
          out := pre ++ (run { intervalNo := no, cur := cur, out := [] } es).1.out },
        (run { intervalNo := no, cur := cur, out := [] } es).2) := by
  induction es generalizing no cur pre with
  | nil => simp [run]
  | cons ev es ih =>
    cases ev with
    | stop => simp [run]
    | tick now r =>
      simp only [run]
      cases h : IsZero cur.StartTime
      · rw [onTick_next _ _ _ h, onTick_next _ _ _ h, ih]
        conv_rhs => rw [ih]
        simp
      · rw [onTick_first _ _ _ h, onTick_first _ _ _ h, ih]

/-- C5: when an interval is emitted and the send times out, the interval is logged as lost
and the iterator goes on exactly as after a delivery: same counter, same next interval
starting at the tick, same later emissions; the lost interval stays lost and is not among
the intervals delivered afterwards. -/
theorem iter_drop_then_continue (s : RunState) (now : Time) (es : List Event)
    (h : IsZero s.cur.StartTime = false) :
    (onTick s now false).out = s.out ++
      [Emit.lost { s.cur with StopTime := now, Number := wrapInt (s.intervalNo + 1) }] ∧
    (onTick s now true).out = s.out ++
      [Emit.sent { s.cur with StopTime := now, Number := wrapInt (s.intervalNo + 1) }] ∧
    (onTick s now false).intervalNo = wrapInt (s.intervalNo + 1) ∧
    (onTick s now false).cur = { StartTime := now } ∧
    (onTick s now false).intervalNo = (onTick s now true).intervalNo ∧
    (onTick s now false).cur = (onTick s now true).cur ∧
    ∃ rest : List Emit,
      (run (onTick s now false) es).1.out = s.out ++
        Emit.lost { s.cur with StopTime := now, Number := wrapInt (s.intervalNo + 1) } :: rest ∧
      (run (onTick s now true) es).1.out = s.out ++
        Emit.sent { s.cur with StopTime := now, Number := wrapInt (s.intervalNo + 1) } :: rest ∧
      (run (onTick s now false) es).1.intervalNo = (run (onTick s now true) es).1.intervalNo ∧
      (run (onTick s now false) es).1.cur = (run (onTick s now true) es).1.cur ∧
      delivered (run (onTick s now false) es).1.out = delivered s.out ++ delivered rest := by
  rw [onTick_next s now false h, onTick_next s now true h]
  refine ⟨by simp, by simp, rfl, rfl, rfl, rfl, ?_⟩
  refine ⟨(run { intervalNo := wrapInt (s.intervalNo + 1), cur := { StartTime := now },
                 out := [] } es).1.out, ?_, ?_, ?_, ?_, ?_⟩
  · rw [run_out_extend]
    simp
  · rw [run_out_extend]
    simp
  · rw [run_out_extend]
    conv_rhs => rw [run_out_extend]
  · rw [run_out_extend]
    conv_rhs => rw [run_out_extend]
  · rw [run_out_extend]
    simp [delivered_append, delivered]

theorem iter_drop_then_continue_witness :
    (IsZero (onTick NewIter 3 true).cur.StartTime = false) ∧
    ((onTick (onTick NewIter 3 true) 5 false).out = (onTick NewIter 3 true).out ++
      [Emit.lost { (onTick NewIter 3 true).cur with StopTime := 5, Number := wrapInt ((onTick NewIter 3 true).intervalNo + 1) }] ∧
    (onTick (onTick NewIter 3 true) 5 true).out = (onTick NewIter 3 true).out ++
      [Emit.sent { (onTick NewIter 3 true).cur with StopTime := 5, Number := wrapInt ((onTick NewIter 3 true).intervalNo + 1) }] ∧
    (onTick (onTick NewIter 3 true) 5 false).intervalNo = wrapInt ((onTick NewIter 3 true).intervalNo + 1) ∧
    (onTick (onTick NewIter 3 true) 5 false).cur = { StartTime := 5 } ∧
    (onTick (onTick NewIter 3 true) 5 false).intervalNo = (onTick (onTick NewIter 3 true) 5 true).intervalNo ∧
    (onTick (onTick NewIter 3 true) 5 false).cur = (onTick (onTick NewIter 3 true) 5 true).cur ∧
    ∃ rest : List Emit,
      (run (onTick (onTick NewIter 3 true) 5 false) [Event.tick 9 true, Event.tick 12 true, Event.stop]).1.out = (onTick NewIter 3 true).out ++
        Emit.lost { (onTick NewIter 3 true).cur with StopTime := 5, Number := wrapInt ((onTick NewIter 3 true).intervalNo + 1) } :: rest ∧
      (run (onTick (onTick NewIter 3 true) 5 true) [Event.tick 9 true, Event.tick 12 true, Event.stop]).1.out = (onTick NewIter 3 true).out ++
        Emit.sent { (onTick NewIter 3 true).cur with StopTime := 5, Number := wrapInt ((onTick NewIter 3 true).intervalNo + 1) } :: rest ∧
      (run (onTick (onTick NewIter 3 true) 5 false) [Event.tick 9 true, Event.tick 12 true, Event.stop]).1.intervalNo = (run (onTick (onTick NewIter 3 true) 5 true) [Event.tick 9 true, Event.tick 12 true, Event.stop]).1.intervalNo ∧
      (run (onTick (onTick NewIter 3 true) 5 false) [Event.tick 9 true, Event.tick 12 true, Event.stop]).1.cur = (run (onTick (onTick NewIter 3 true) 5 true) [Event.tick 9 true, Event.tick 12 true, Event.stop]).1.cur ∧
      delivered (run (onTick (onTick NewIter 3 true) 5 false) [Event.tick 9 true, Event.tick 12 true, Event.stop]).1.out = delivered (onTick NewIter 3 true).out ++ delivered rest) :=
  ⟨by decide, iter_drop_then_continue (onTick NewIter 3 true) 5
    [Event.tick 9 true, Event.tick 12 true, Event.stop] (by decide)⟩

end perfschema

namespace data

open pct

/-! ## The data manager -/

theorem start_running (env : Env) (m : Manager) (cmd : Cmd) (config : List UInt8)
    (h : m.config ≠ none) :
    m.Start env cmd config = (some (GoError.ServiceIsRunningError "data"), m) := by
  simp [Manager.Start, h]

/-- `Start` on an encoding that is neither empty nor "gzip". -/
theorem start_unknown_encoding (env : Env) (m : Manager) (cmd : Cmd) (config : List UInt8)
    (c : Config) (hcfg : m.config = none) (hdec : env.jsonUnmarshal config = Except.ok c)
    (hdir : env.MakeDir c.Dir = none) (h1 : c.Encoding ≠ "") (h2 : c.Encoding ≠ "gzip") :
    m.Start env cmd config =
      (some (GoError.errorString ("Unknown encoding: " ++ c.Encoding)), m) := by
  simp [Manager.Start, hcfg, hdec, hdir, h1, h2]

/-- The rest of `Start` once the serializer `sz` has been selected. -/
theorem start_selected (env : Env) (m : Manager) (cmd : Cmd) (config : List UInt8)
    (c : Config) (sz : Serializer) (hcfg : m.config = none)
    (hdec : env.jsonUnmarshal config = Except.ok c) (hdir : env.MakeDir c.Dir = none)
    (hsz : c.Encoding = "" ∧ sz = Serializer.JsonSerializer ∨
      c.Encoding = "gzip" ∧ sz = Serializer.JsonGzipSerializer) :
    m.Start env cmd config =
      match env.spoolerStart
        { logName := "data-spooler", dataDir := c.Dir, sz := sz, hostname := m.hostname } with
      | some err => (some err, m)
      | none =>
        match env.senderStart
          { logName := "data-sender", client := m.client,
            spooler := { logName := "data-spooler", dataDir := c.Dir, sz := sz,
                         hostname := m.hostname },
            tick := wrapInt (wrapInt c.SendInterval * 1000000000) } with
        | some err =>
          (some err, { m with
            spooler := some { logName := "data-spooler", dataDir := c.Dir, sz := sz,
                              hostname := m.hostname },
            logged := m.logged ++ ["Started spooler"] })
        | none =>
          (none, { m with
            spooler := some { logName := "data-spooler", dataDir := c.Dir, sz := sz,
                              hostname := m.hostname },
            sender := some { logName := "data-sender", client := m.client,
                             spooler := { logName := "data-spooler", dataDir := c.Dir,
                                          sz := sz, hostname := m.hostname },
                             tick := wrapInt (wrapInt c.SendInterval * 1000000000) },
            config := some c,
            status := m.status.Update "data" "Ready",
            logged := m.logged ++ ["Started spooler"] ++ ["Started sender"] ++ ["Ready"] }) := by
  rcases hsz with ⟨he, rfl⟩ | ⟨he, rfl⟩
  · simp only [Manager.Start, hcfg, hdec, hdir, he]
    rfl
  · simp only [Manager.Start, hcfg, hdec, hdir, he]
    rfl

theorem start_decode_error (env : Env) (m : Manager) (cmd : Cmd) (config : List UInt8)
    (err : GoError) (hcfg : m.config = none)
    (hdec : env.jsonUnmarshal config = Except.error err) :
    m.Start env cmd config = (some err, m) := by
  simp [Manager.Start, hcfg, hdec]

theorem start_makeDir_error (env : Env) (m : Manager) (cmd : Cmd) (config : List UInt8)
    (c : Config) (err : GoError) (hcfg : m.config = none)
    (hdec : env.jsonUnmarshal config = Except.ok c) (hdir : env.MakeDir c.Dir = some err) :
    m.Start env cmd config = (some err, m) := by
  simp [Manager.Start, hcfg, hdec, hdir]

/-- A `Start` that returns nil has decoded the bytes and stored the decoded config. -/
theorem start_ok_config (env : Env) (m : Manager) (cmd : Cmd) (config : List UInt8)
    (hok : (m.Start env cmd config).1 = none) :
    ∃ c, env.jsonUnmarshal config = Except.ok c ∧
      (m.Start env cmd config).2.config = some c := by
  cases hcfg : m.config with
  | some c0 =>
    rw [start_running env m cmd config (by simp [hcfg])] at hok
    cases hok
  | none =>
    cases hdec : env.jsonUnmarshal config with
    | error err =>
      rw [start_decode_error env m cmd config err hcfg hdec] at hok
      cases hok
    | ok c =>
      refine ⟨c, rfl, ?_⟩
      cases hdir : env.MakeDir c.Dir with
      | some err =>
        rw [start_makeDir_error env m cmd config c err hcfg hdec hdir] at hok
        cases hok
      | none =>
        have key : ∀ sz, (c.Encoding = "" ∧ sz = Serializer.JsonSerializer ∨
            c.Encoding = "gzip" ∧ sz = Serializer.JsonGzipSerializer) →
            (m.Start env cmd config).2.config = some c := by
          intro sz hsz
          rw [start_selected env m cmd config c sz hcfg hdec hdir hsz] at hok ⊢
          split at hok
          · cases hok
          · split at hok
            · cases hok
            · rename_i h1 _ h2
              simp only [h1, h2]
        by_cases h1 : c.Encoding = ""
        · exact key _ (Or.inl ⟨h1, rfl⟩)
        · by_cases h2 : c.Encoding = "gzip"
          · exact key _ (Or.inr ⟨h2, rfl⟩)
          · rw [start_unknown_encoding env m cmd config c hcfg hdec hdir h1 h2] at hok
            cases hok

theorem call_config (m : Manager) (k : Call) (c : Config) (h : m.config = some c) :
    (m.call k).config = some c := by
  cases k with
  | start env cmd config =>
    simp only [Manager.call]
    rw [start_running env m cmd config (by simp [h])]
    exact h
  | stop cmd => exact h
  | handle cmd => exact h

theorem calls_config (m : Manager) (cs : List Call) (c : Config) (h : m.config = some c) :
    (m.calls cs).config = some c := by
  induction cs generalizing m with
  | nil => exact h
  | cons k ks ih => exact ih (m.call k) (call_config m k c h)

/-- C6: Start on a manager whose config is already set returns
ServiceIsRunningError for service "data" and changes no field of the manager. -/
theorem data_start_when_running (env : Env) (m : Manager) (cmd : Cmd) (config : List UInt8)
    (h : m.config ≠ none) :
    (m.Start env cmd config).1 = some (GoError.ServiceIsRunningError "data") ∧
    (m.Start env cmd config).2 = m ∧
    (m.Start env cmd config).2.config = m.config ∧
    (m.Start env cmd config).2.spooler = m.spooler ∧
    (m.Start env cmd config).2.sender = m.sender ∧
    (m.Start env cmd config).2.status = m.status := by
  rw [start_running env m cmd config h]
  exact ⟨rfl, rfl, rfl, rfl, rfl, rfl⟩

theorem data_start_when_running_witness :
    (((NewManager "db01" 7).Start (Env.ok { Dir := "/var/spool", SendInterval := 60 })
        { Cmd := "StartService" } []).2.config ≠ none) ∧
    ((((NewManager "db01" 7).Start (Env.ok { Dir := "/var/spool", SendInterval := 60 })
        { Cmd := "StartService" } []).2.Start (Env.ok { Dir := "/tmp", Encoding := "gzip" })
        { Cmd := "StartService" } [1]).1 = some (GoError.ServiceIsRunningError "data") ∧
     (((NewManager "db01" 7).Start (Env.ok { Dir := "/var/spool", SendInterval := 60 })
        { Cmd := "StartService" } []).2.Start (Env.ok { Dir := "/tmp", Encoding := "gzip" })
        { Cmd := "StartService" } [1]).2 =
      ((NewManager "db01" 7).Start (Env.ok { Dir := "/var/spool", SendInterval := 60 })
        { Cmd := "StartService" } []).2 ∧
     (((NewManager "db01" 7).Start (Env.ok { Dir := "/var/spool", SendInterval := 60 })
        { Cmd := "StartService" } []).2.Start (Env.ok { Dir := "/tmp", Encoding := "gzip" })
        { Cmd := "StartService" } [1]).2.config =
      ((NewManager "db01" 7).Start (Env.ok { Dir := "/var/spool", SendInterval := 60 })
        { Cmd := "StartService" } []).2.config ∧
     (((NewManager "db01" 7).Start (Env.ok { Dir := "/var/spool", SendInterval := 60 })
        { Cmd := "StartService" } []).2.Start (Env.ok { Dir := "/tmp", Encoding := "gzip" })
        { Cmd := "StartService" } [1]).2.spooler =
      ((NewManager "db01" 7).Start (Env.ok { Dir := "/var/spool", SendInterval := 60 })
        { Cmd := "StartService" } []).2.spooler ∧
     (((NewManager "db01" 7).Start (Env.ok { Dir := "/var/spool", SendInterval := 60 })
        { Cmd := "StartService" } []).2.Start (Env.ok { Dir := "/tmp", Encoding := "gzip" })
        { Cmd := "StartService" } [1]).2.sender =
      ((NewManager "db01" 7).Start (Env.ok { Dir := "/var/spool", SendInterval := 60 })
        { Cmd := "StartService" } []).2.sender ∧
     (((NewManager "db01" 7).Start (Env.ok { Dir := "/var/spool", SendInterval := 60 })
        { Cmd := "StartService" } []).2.Start (Env.ok { Dir := "/tmp", Encoding := "gzip" })
        { Cmd := "StartService" } [1]).2.status =
      ((NewManager "db01" 7).Start (Env.ok { Dir := "/var/spool", SendInterval := 60 })
        { Cmd := "StartService" } []).2.status) :=
  ⟨by decide, data_start_when_running _ _ _ _ (by decide)⟩

/-- C7: the code at the failing input.  Start succeeds, Stop returns nil, and the next
Start with the same valid config is rejected with ServiceIsRunningError. -/
theorem data_restart_after_stop_rejected :
    ((NewManager "db01" 7).Start (Env.ok { Dir := "/var/spool", SendInterval := 60 })
        { Cmd := "StartService" } []).1 = none ∧
    (((NewManager "db01" 7).Start (Env.ok { Dir := "/var/spool", SendInterval := 60 })
        { Cmd := "StartService" } []).2.Stop { Cmd := "StopService" }).1 = none ∧
    ((((NewManager "db01" 7).Start (Env.ok { Dir := "/var/spool", SendInterval := 60 })
        { Cmd := "StartService" } []).2.Stop { Cmd := "StopService" }).2.Start
        (Env.ok { Dir := "/var/spool", SendInterval := 60 }) { Cmd := "StartService" } []).1 =
      some (GoError.ServiceIsRunningError "data") := by
  decide

/-- C8: Stop is a no-op: for every command and every manager it returns nil and leaves
config, spooler, sender and status (indeed the whole manager) unchanged. -/
theorem data_stop_noop (m : Manager) (cmd : Cmd) :
    (m.Stop cmd).1 = none ∧
    (m.Stop cmd).2.config = m.config ∧
    (m.Stop cmd).2.spooler = m.spooler ∧
    (m.Stop cmd).2.sender = m.sender ∧
    (m.Stop cmd).2.status = m.status ∧
    (m.Stop cmd).2 = m :=
  ⟨rfl, rfl, rfl, rfl, rfl, rfl⟩

/-- What can be observed of the serializer `sz` once `Start` has selected it: the spooler
that is started, stored and handed to the sender is built on `sz`. -/
theorem start_selected_obs (env : Env) (m : Manager) (cmd : Cmd) (config : List UInt8)
    (c : Config) (sz : Serializer) (hcfg : m.config = none)
    (hdec : env.jsonUnmarshal config = Except.ok c) (hdir : env.MakeDir c.Dir = none)
    (hsz : c.Encoding = "" ∧ sz = Serializer.JsonSerializer ∨
      c.Encoding = "gzip" ∧ sz = Serializer.JsonGzipSerializer) :
    (∀ err, env.spoolerStart
        { logName := "data-spooler", dataDir := c.Dir, sz := sz, hostname := m.hostname } =
          some err →
        m.Start env cmd config = (some err, m)) ∧
    (env.spoolerStart
        { logName := "data-spooler", dataDir := c.Dir, sz := sz, hostname := m.hostname } =
          none →
        (m.Start env cmd config).2.spooler = some
          { logName := "data-spooler", dataDir := c.Dir, sz := sz, hostname := m.hostname }) ∧
    ((m.Start env cmd config).1 = none →
        ∃ snd, (m.Start env cmd config).2.sender = some snd ∧ snd.spooler =
          { logName := "data-spooler", dataDir := c.Dir, sz := sz, hostname := m.hostname }) := by
  rw [start_selected env m cmd config c sz hcfg hdec hdir hsz]
  split
  · simp_all
  · split <;> simp_all

/-- C9: once Start reaches the selection (no config set, bytes decoded to c, directory
made), the empty Encoding selects the plain JSON serializer, "gzip" the gzip JSON
serializer, and any other value makes Start return "Unknown encoding: <value>" with no
spooler, no sender and no config set. -/
theorem data_start_selects_serializer (env : Env) (m : Manager) (cmd : Cmd)
    (config : List UInt8) (c : Config) (hcfg : m.config = none)
    (hdec : env.jsonUnmarshal config = Except.ok c) (hdir : env.MakeDir c.Dir = none) :
    (c.Encoding = "" →
      (∀ err, env.spoolerStart
        { logName := "data-spooler", dataDir := c.Dir, sz := Serializer.JsonSerializer,
          hostname := m.hostname } = some err →
        m.Start env cmd config = (some err, m)) ∧
      (env.spoolerStart
        { logName := "data-spooler", dataDir := c.Dir, sz := Serializer.JsonSerializer,
          hostname := m.hostname } = none →
        (m.Start env cmd config).2.spooler = some
        { logName := "data-spooler", dataDir := c.Dir, sz := Serializer.JsonSerializer,
          hostname := m.hostname }) ∧
      ((m.Start env cmd config).1 = none →
        ∃ snd, (m.Start env cmd config).2.sender = some snd ∧ snd.spooler =
        { logName := "data-spooler", dataDir := c.Dir, sz := Serializer.JsonSerializer,
          hostname := m.hostname })) ∧
    (c.Encoding = "gzip" →
      (∀ err, env.spoolerStart
        { logName := "data-spooler", dataDir := c.Dir, sz := Serializer.JsonGzipSerializer,
          hostname := m.hostname } = some err →
        m.Start env cmd config = (some err, m)) ∧
      (env.spoolerStart
        { logName := "data-spooler", dataDir := c.Dir, sz := Serializer.JsonGzipSerializer,
          hostname := m.hostname } = none →
        (m.Start env cmd config).2.spooler = some
        { logName := "data-spooler", dataDir := c.Dir, sz := Serializer.JsonGzipSerializer,
          hostname := m.hostname }) ∧
      ((m.Start env cmd config).1 = none →
        ∃ snd, (m.Start env cmd config).2.sender = some snd ∧ snd.spooler =
        { logName := "data-spooler", dataDir := c.Dir, sz := Serializer.JsonGzipSerializer,
          hostname := m.hostname })) ∧
    (c.Encoding ≠ "" → c.Encoding ≠ "gzip" →
      (m.Start env cmd config).1 =
        some (GoError.errorString ("Unknown encoding: " ++ c.Encoding)) ∧
      (m.Start env cmd config).2 = m ∧
      (m.Start env cmd config).2.spooler = m.spooler ∧
      (m.Start env cmd config).2.sender = m.sender ∧
      (m.Start env cmd config).2.config = none) := by
  refine ⟨?_, ?_, ?_⟩
  · intro he
    exact start_selected_obs env m cmd config c _ hcfg hdec hdir (Or.inl ⟨he, rfl⟩)
  · intro he
    exact start_selected_obs env m cmd config c _ hcfg hdec hdir (Or.inr ⟨he, rfl⟩)
  · intro h1 h2
    rw [start_unknown_encoding env m cmd config c hcfg hdec hdir h1 h2]
    exact ⟨rfl, rfl, rfl, rfl, hcfg⟩

theorem data_start_selects_serializer_witness :
    ((NewManager "db01" 7).config = none) ∧
    ((Env.ok ({ Dir := "/var/spool", Encoding := "zip", SendInterval := 60 } : Config)).jsonUnmarshal [123, 125] = Except.ok ({ Dir := "/var/spool", Encoding := "zip", SendInterval := 60 } : Config)) ∧
    ((Env.ok ({ Dir := "/var/spool", Encoding := "zip", SendInterval := 60 } : Config)).MakeDir ({ Dir := "/var/spool", Encoding := "zip", SendInterval := 60 } : Config).Dir = none) ∧
    ((({ Dir := "/var/spool", Encoding := "zip", SendInterval := 60 } : Config).Encoding = "" →
      (∀ err, (Env.ok ({ Dir := "/var/spool", Encoding := "zip", SendInterval := 60 } : Config)).spoolerStart
        { logName := "data-spooler", dataDir := ({ Dir := "/var/spool", Encoding := "zip", SendInterval := 60 } : Config).Dir, sz := Serializer.JsonSerializer,
          hostname := (NewManager "db01" 7).hostname } = some err →
        (NewManager "db01" 7).Start (Env.ok ({ Dir := "/var/spool", Encoding := "zip", SendInterval := 60 } : Config)) { Cmd := "StartService" } [123, 125] = (some err, NewManager "db01" 7)) ∧
      ((Env.ok ({ Dir := "/var/spool", Encoding := "zip", SendInterval := 60 } : Config)).spoolerStart
        { logName := "data-spooler", dataDir := ({ Dir := "/var/spool", Encoding := "zip", SendInterval := 60 } : Config).Dir, sz := Serializer.JsonSerializer,
          hostname := (NewManager "db01" 7).hostname } = none →
        ((NewManager "db01" 7).Start (Env.ok ({ Dir := "/var/spool", Encoding := "zip", SendInterval := 60 } : Config)) { Cmd := "StartService" } [123, 125]).2.spooler = some
        { logName := "data-spooler", dataDir := ({ Dir := "/var/spool", Encoding := "zip", SendInterval := 60 } : Config).Dir, sz := Serializer.JsonSerializer,
          hostname := (NewManager "db01" 7).hostname }) ∧
      (((NewManager "db01" 7).Start (Env.ok ({ Dir := "/var/spool", Encoding := "zip", SendInterval := 60 } : Config)) { Cmd := "StartService" } [123, 125]).1 = none →
        ∃ snd, ((NewManager "db01" 7).Start (Env.ok ({ Dir := "/var/spool", Encoding := "zip", SendInterval := 60 } : Config)) { Cmd := "StartService" } [123, 125]).2.sender = some snd ∧ snd.spooler =
        { logName := "data-spooler", dataDir := ({ Dir := "/var/spool", Encoding := "zip", SendInterval := 60 } : Config).Dir, sz := Serializer.JsonSerializer,
          hostname := (NewManager "db01" 7).hostname })) ∧
    (({ Dir := "/var/spool", Encoding := "zip", SendInterval := 60 } : Config).Encoding = "gzip" →
      (∀ err, (Env.ok ({ Dir := "/var/spool", Encoding := "zip", SendInterval := 60 } : Config)).spoolerStart
        { logName := "data-spooler", dataDir := ({ Dir := "/var/spool", Encoding := "zip", SendInterval := 60 } : Config).Dir, sz := Serializer.JsonGzipSerializer,
          hostname := (NewManager "db01" 7).hostname } = some err →
        (NewManager "db01" 7).Start (Env.ok ({ Dir := "/var/spool", Encoding := "zip", SendInterval := 60 } : Config)) { Cmd := "StartService" } [123, 125] = (some err, NewManager "db01" 7)) ∧
      ((Env.ok ({ Dir := "/var/spool", Encoding := "zip", SendInterval := 60 } : Config)).spoolerStart
        { logName := "data-spooler", dataDir := ({ Dir := "/var/spool", Encoding := "zip", SendInterval := 60 } : Config).Dir, sz := Serializer.JsonGzipSerializer,
          hostname := (NewManager "db01" 7).hostname } = none →
        ((NewManager "db01" 7).Start (Env.ok ({ Dir := "/var/spool", Encoding := "zip", SendInterval := 60 } : Config)) { Cmd := "StartService" } [123, 125]).2.spooler = some
        { logName := "data-spooler", dataDir := ({ Dir := "/var/spool", Encoding := "zip", SendInterval := 60 } : Config).Dir, sz := Serializer.JsonGzipSerializer,
          hostname := (NewManager "db01" 7).hostname }) ∧
      (((NewManager "db01" 7).Start (Env.ok ({ Dir := "/var/spool", Encoding := "zip", SendInterval := 60 } : Config)) { Cmd := "StartService" } [123, 125]).1 = none →
        ∃ snd, ((NewManager "db01" 7).Start (Env.ok ({ Dir := "/var/spool", Encoding := "zip", SendInterval := 60 } : Config)) { Cmd := "StartService" } [123, 125]).2.sender = some snd ∧ snd.spooler =
        { logName := "data-spooler", dataDir := ({ Dir := "/var/spool", Encoding := "zip", SendInterval := 60 } : Config).Dir, sz := Serializer.JsonGzipSerializer,
          hostname := (NewManager "db01" 7).hostname })) ∧
    (({ Dir := "/var/spool", Encoding := "zip", SendInterval := 60 } : Config).Encoding ≠ "" → ({ Dir := "/var/spool", Encoding := "zip", SendInterval := 60 } : Config).Encoding ≠ "gzip" →
      ((NewManager "db01" 7).Start (Env.ok ({ Dir := "/var/spool", Encoding := "zip", SendInterval := 60 } : Config)) { Cmd := "StartService" } [123, 125]).1 =
        some (GoError.errorString ("Unknown encoding: " ++ ({ Dir := "/var/spool", Encoding := "zip", SendInterval := 60 } : Config).Encoding)) ∧
      ((NewManager "db01" 7).Start (Env.ok ({ Dir := "/var/spool", Encoding := "zip", SendInterval := 60 } : Config)) { Cmd := "StartService" } [123, 125]).2 = NewManager "db01" 7 ∧
      ((NewManager "db01" 7).Start (Env.ok ({ Dir := "/var/spool", Encoding := "zip", SendInterval := 60 } : Config)) { Cmd := "StartService" } [123, 125]).2.spooler = (NewManager "db01" 7).spooler ∧
      ((NewManager "db01" 7).Start (Env.ok ({ Dir := "/var/spool", Encoding := "zip", SendInterval := 60 } : Config)) { Cmd := "StartService" } [123, 125]).2.sender = (NewManager "db01" 7).sender ∧
      ((NewManager "db01" 7).Start (Env.ok ({ Dir := "/var/spool", Encoding := "zip", SendInterval := 60 } : Config)) { Cmd := "StartService" } [123, 125]).2.config = none)) :=
  ⟨rfl, rfl, rfl, data_start_selects_serializer (Env.ok ({ Dir := "/var/spool", Encoding := "zip", SendInterval := 60 } : Config)) (NewManager "db01" 7)
    { Cmd := "StartService" } [123, 125] ({ Dir := "/var/spool", Encoding := "zip", SendInterval := 60 } : Config) rfl rfl rfl⟩

/-- C10: after Start(cmd, bytes) has succeeded, Handle of a GetConfig command replies with no
error and with exactly the Config decoded from those bytes, whatever calls (Handle of any
command, Stop, further Start) were made in between. -/
theorem data_getconfig_roundtrip (env : Env) (m : Manager) (cmd : Cmd) (config : List UInt8)
    (hok : (m.Start env cmd config).1 = none) :
    ∃ c, env.jsonUnmarshal config = Except.ok c ∧
      ∀ (cs : List Call) (g : Cmd), g.Cmd = "GetConfig" →
        (((m.Start env cmd config).2.calls cs).Handle g).1 =
          { Id := g.Id, Cmd := g.Cmd, Error := none,
            Data := some (ReplyData.config (some c)) } := by
  obtain ⟨c, hdec, hc⟩ := start_ok_config env m cmd config hok
  refine ⟨c, hdec, ?_⟩
  intro cs g hg
  have hcs := calls_config _ cs c hc
  simp [Manager.Handle, hg, hcs, Cmd.Reply]

theorem data_getconfig_roundtrip_witness :
    (((NewManager "db01" 7).Start (Env.ok { Dir := "/var/spool", SendInterval := 60 })
        { Cmd := "StartService" } [123, 125]).1 = none) ∧
    ∃ c, (Env.ok { Dir := "/var/spool", SendInterval := 60 }).jsonUnmarshal [123, 125] =
        Except.ok c ∧
      ∀ (cs : List Call) (g : Cmd), g.Cmd = "GetConfig" →
        ((((NewManager "db01" 7).Start (Env.ok { Dir := "/var/spool", SendInterval := 60 })
            { Cmd := "StartService" } [123, 125]).2.calls cs).Handle g).1 =
          { Id := g.Id, Cmd := g.Cmd, Error := none,
            Data := some (ReplyData.config (some c)) } :=
  ⟨by decide, data_getconfig_roundtrip _ _ _ _ (by decide)⟩

end data

namespace pct

theorem Status.get_update_same (s : Status) (proc status : String) :
    Status.Get (Status.Update s proc status) proc = status := by
  induction s with
  | nil => simp [Status.Update, Status.Get]
  | cons kv rest ih =>
    obtain ⟨k, v⟩ := kv
    by_cases h : k = proc
    · simp [Status.Update, Status.Get, h]
    · simp [Status.Update, Status.Get, h, ih]

end pct

namespace data

open pct

/-- C11: for a verb that is neither "GetConfig" nor "Status", Handle replies with the
UnknownCmdError that names the verb, and config, spooler and sender stay as they were. -/
theorem data_handle_unknown_verb (m : Manager) (cmd : Cmd)
    (h1 : cmd.Cmd ≠ "GetConfig") (h2 : cmd.Cmd ≠ "Status") :
    (m.Handle cmd).1 = cmd.Reply (ReplyData.error (GoError.UnknownCmdError cmd.Cmd)) ∧
    (m.Handle cmd).1.Error = some (GoError.UnknownCmdError cmd.Cmd) ∧
    (m.Handle cmd).2.config = m.config ∧
    (m.Handle cmd).2.spooler = m.spooler ∧
    (m.Handle cmd).2.sender = m.sender := by
  simp [Manager.Handle, h1, h2, Cmd.Reply]

theorem data_handle_unknown_verb_witness :
    (({ Cmd := "SetConfig" } : Cmd).Cmd ≠ "GetConfig") ∧
    (({ Cmd := "SetConfig" } : Cmd).Cmd ≠ "Status") ∧
    (((NewManager "db01" 7).Handle { Cmd := "SetConfig" }).1 =
        Cmd.Reply { Cmd := "SetConfig" }
          (ReplyData.error (GoError.UnknownCmdError ({ Cmd := "SetConfig" } : Cmd).Cmd)) ∧
      ((NewManager "db01" 7).Handle { Cmd := "SetConfig" }).1.Error =
        some (GoError.UnknownCmdError ({ Cmd := "SetConfig" } : Cmd).Cmd) ∧
      ((NewManager "db01" 7).Handle { Cmd := "SetConfig" }).2.config =
        (NewManager "db01" 7).config ∧
      ((NewManager "db01" 7).Handle { Cmd := "SetConfig" }).2.spooler =
        (NewManager "db01" 7).spooler ∧
      ((NewManager "db01" 7).Handle { Cmd := "SetConfig" }).2.sender =
        (NewManager "db01" 7).sender) :=
  ⟨by decide, by decide,
    data_handle_unknown_verb (NewManager "db01" 7) { Cmd := "SetConfig" }
      (by decide) (by decide)⟩

end data

namespace instanceMgr

open pct proto

/-! ## The instance manager -/

/-- C12, as stated, fails: the payload is decoded before the verb is looked at, so a
command with an unknown verb and a payload that does not decode (here the empty payload)
is answered with the decode error, not with UnknownCmdError. -/
theorem instance_unknown_verb_counterexample :
    (({ Cmd := "Status", Data := [] } : data.Cmd).Cmd ≠ "Add" ∧
      ({ Cmd := "Status", Data := [] } : data.Cmd).Cmd ≠ "Remove" ∧
      ({ Cmd := "Status", Data := [] } : data.Cmd).Cmd ≠ "GetInfo") ∧
    ((NewManager "/etc/agent").Handle
        (Env.undecodable (GoError.other "unexpected end of JSON input"))
        { Cmd := "Status", Data := [] }).1.Error =
      some (GoError.other "unexpected end of JSON input") ∧
    ((NewManager "/etc/agent").Handle
        (Env.undecodable (GoError.other "unexpected end of JSON input"))
        { Cmd := "Status", Data := [] }).1.Error ≠
      some (GoError.UnknownCmdError "Status") := by
  decide

/-- C12, amended: for a command whose payload decodes as a proto.ServiceInstance and whose
verb is not "Add", "Remove" or "GetInfo", Handle replies with the UnknownCmdError that
names the verb and makes no call on the repo. -/
theorem instance_handle_unknown_verb (env : Env) (m : Manager) (cmd : data.Cmd)
    (it : ServiceInstance) (hdec : env.unmarshalServiceInstance cmd.Data = Except.ok it)
    (h1 : cmd.Cmd ≠ "Add") (h2 : cmd.Cmd ≠ "Remove") (h3 : cmd.Cmd ≠ "GetInfo") :
    (m.Handle env cmd).1 = replyTo cmd none (some (GoError.UnknownCmdError cmd.Cmd)) ∧
    (m.Handle env cmd).2.repoOps = m.repoOps := by
  simp [Manager.Handle, hdec, h1, h2, h3]

theorem instance_handle_unknown_verb_witness :
    ((Env.decoding { Service := "mysql", InstanceId := 1 }).unmarshalServiceInstance
        ({ Cmd := "Status", Data := [123, 125] } : data.Cmd).Data =
      Except.ok { Service := "mysql", InstanceId := 1 }) ∧
    (({ Cmd := "Status", Data := [123, 125] } : data.Cmd).Cmd ≠ "Add") ∧
    (({ Cmd := "Status", Data := [123, 125] } : data.Cmd).Cmd ≠ "Remove") ∧
    (({ Cmd := "Status", Data := [123, 125] } : data.Cmd).Cmd ≠ "GetInfo") ∧
    (((NewManager "/etc/agent").Handle (Env.decoding { Service := "mysql", InstanceId := 1 })
        { Cmd := "Status", Data := [123, 125] }).1 =
      replyTo { Cmd := "Status", Data := [123, 125] } none
        (some (GoError.UnknownCmdError
          ({ Cmd := "Status", Data := [123, 125] } : data.Cmd).Cmd)) ∧
     ((NewManager "/etc/agent").Handle (Env.decoding { Service := "mysql", InstanceId := 1 })
        { Cmd := "Status", Data := [123, 125] }).2.repoOps = (NewManager "/etc/agent").repoOps) :=
  ⟨rfl, by decide, by decide, by decide,
    instance_handle_unknown_verb (Env.decoding { Service := "mysql", InstanceId := 1 })
      (NewManager "/etc/agent") { Cmd := "Status", Data := [123, 125] }
      { Service := "mysql", InstanceId := 1 } rfl (by decide) (by decide) (by decide)⟩

/-- C13: when the payload does not decode as a proto.ServiceInstance, Handle replies with
the decode error, makes no call on the repo (no Add, Remove or Get), and the "instance"
status afterwards is "Running". -/
theorem instance_handle_decode_error (env : Env) (m : Manager) (cmd : data.Cmd)
    (err : GoError) (hdec : env.unmarshalServiceInstance cmd.Data = Except.error err) :
    (m.Handle env cmd).1 = replyTo cmd none (some err) ∧
    (m.Handle env cmd).1.Error = some err ∧
    (m.Handle env cmd).2.repoOps = m.repoOps ∧
    (m.Handle env cmd).2.status.Get "instance" = "Running" := by
  simp [Manager.Handle, hdec, replyTo, Status.get_update_same]

theorem instance_handle_decode_error_witness :
    ((Env.undecodable (GoError.other "invalid character")).unmarshalServiceInstance
        ({ Cmd := "Add", Data := [125] } : data.Cmd).Data =
      Except.error (GoError.other "invalid character")) ∧
    (((NewManager "/etc/agent").Handle (Env.undecodable (GoError.other "invalid character"))
        { Cmd := "Add", Data := [125] }).1 =
      replyTo { Cmd := "Add", Data := [125] } none (some (GoError.other "invalid character")) ∧
     ((NewManager "/etc/agent").Handle (Env.undecodable (GoError.other "invalid character"))
        { Cmd := "Add", Data := [125] }).1.Error = some (GoError.other "invalid character") ∧
     ((NewManager "/etc/agent").Handle (Env.undecodable (GoError.other "invalid character"))
        { Cmd := "Add", Data := [125] }).2.repoOps = (NewManager "/etc/agent").repoOps ∧
     ((NewManager "/etc/agent").Handle (Env.undecodable (GoError.other "invalid character"))
        { Cmd := "Add", Data := [125] }).2.status.Get "instance" = "Running") :=
  ⟨rfl, instance_handle_decode_error (Env.undecodable (GoError.other "invalid character"))
    (NewManager "/etc/agent") { Cmd := "Add", Data := [125] }
    (GoError.other "invalid character") rfl⟩

end instanceMgr

namespace filepath

/-! ## Lexical paths -/

theorem splitSep_ne_nil (cs : List Char) : splitSep cs ≠ [] := by
  induction cs with
  | nil => simp [splitSep]
  | cons c cs ih =>
    unfold splitSep
    split
    · simp
    · split <;> simp

theorem splitSep_noSep (e : List Char) (h : '/' ∉ e) : splitSep e = [e] := by
  induction e with
  | nil => rfl
  | cons c cs ih =>
    have hc : c ≠ '/' := fun hc => h (by simp [hc])
    have hcs : '/' ∉ cs := fun hcs => h (by simp [hcs])
    simp [splitSep, hc, ih hcs]

theorem splitSep_append_sep (e r : List Char) (h : '/' ∉ e) :
    splitSep (e ++ '/' :: r) = e :: splitSep r := by
  induction e with
  | nil => simp [splitSep]
  | cons c cs ih =>
    have hc : c ≠ '/' := fun hc => h (by simp [hc])
    have hcs : '/' ∉ cs := fun hcs => h (by simp [hcs])
    simp [splitSep, hc, ih hcs]

theorem joinSep_cons (e : List Char) (ys : List (List Char)) (h : ys ≠ []) :
    joinSep (e :: ys) = e ++ '/' :: joinSep ys := by
  cases ys with
  | nil => exact absurd rfl h
  | cons y ys => rfl

theorem joinSep_snoc (ys : List (List Char)) (x : List Char) (h : ys ≠ []) :
    joinSep (ys ++ [x]) = joinSep ys ++ '/' :: x := by
  induction ys with
  | nil => exact absurd rfl h
  | cons y ys ih =>
    cases ys with
    | nil => simp [joinSep]
    | cons y2 ys2 =>
      have := ih (by simp)
      simp only [List.cons_append] at this ⊢
      simp [joinSep, this]

theorem splitSep_joinSep (xs : List (List Char)) (hne : xs ≠ [])
    (h : ∀ x ∈ xs, '/' ∉ x) : splitSep (joinSep xs) = xs := by
  induction xs with
  | nil => exact absurd rfl hne
  | cons x xs ih =>
    cases xs with
    | nil => simpa [joinSep] using splitSep_noSep x (h x (by simp))
    | cons y ys =>
      rw [joinSep_cons x (y :: ys) (by simp), splitSep_append_sep _ _ (h x (by simp)),
        ih (by simp) (fun z hz => h z (by simp [hz]))]

/-- Elements that are empty or plain pass through `Clean`: the empty ones are dropped,
the others kept in order. -/
theorem foldl_cleanStep_plain (rooted : Bool) (xs st : List (List Char))
    (h : ∀ x ∈ xs, x = [] ∨ (x ≠ [] ∧ x ≠ ['.'] ∧ x ≠ ['.', '.'])) :
    xs.foldl (cleanStep rooted) st = (xs.filter (fun x => decide (x ≠ []))).reverse ++ st := by
  induction xs generalizing st with
  | nil => simp
  | cons x xs ih =>
    have hx := h x (by simp)
    have hxs : ∀ y ∈ xs, y = [] ∨ (y ≠ [] ∧ y ≠ ['.'] ∧ y ≠ ['.', '.']) :=
      fun y hy => h y (by simp [hy])
    rw [List.foldl_cons, ih _ hxs]
    rcases hx with h0 | ⟨h1, h2, h3⟩
    · subst h0
      simp [cleanStep]
    · simp [cleanStep, h1, h2, h3, List.filter_cons]

/-- Cleaning a cleaned absolute path with one more plain element appended. -/
theorem cleanChars_rooted_snoc (comps : List (List Char)) (x : List Char)
    (hc : ∀ c ∈ comps, c ≠ [] ∧ c ≠ ['.'] ∧ c ≠ ['.', '.'] ∧ '/' ∉ c)
    (hx : x ≠ [] ∧ x ≠ ['.'] ∧ x ≠ ['.', '.'] ∧ '/' ∉ x) :
    cleanChars (('/' :: joinSep comps) ++ '/' :: x) = '/' :: joinSep (comps ++ [x]) := by
  have key : ∀ ys : List (List Char), (∀ y ∈ ys, y = [] ∨ (y ≠ [] ∧ y ≠ ['.'] ∧ y ≠ ['.', '.'] ∧
      '/' ∉ y)) → ys ≠ [] → ys.filter (fun y => decide (y ≠ [])) = comps ++ [x] →
      cleanChars ('/' :: joinSep ys) = '/' :: joinSep (comps ++ [x]) := by
    intro ys hys hne hfil
    have hsplit : splitSep ('/' :: joinSep ys) = [] :: ys := by
      have := splitSep_joinSep ([] :: ys) (by simp) (by
        intro z hz
        rcases List.mem_cons.mp hz with rfl | hz
        · simp
        · rcases hys z hz with rfl | ⟨_, _, _, h4⟩
          · simp
          · exact h4)
      rwa [joinSep_cons [] ys hne, List.nil_append] at this
    have hf : List.filter (fun y => decide (y ≠ [])) ([] :: ys) = comps ++ [x] := by
      rw [List.filter_cons]
      simpa using hfil
    unfold cleanChars
    simp only [List.head?_cons, decide_True, if_true, hsplit]
    rw [foldl_cleanStep_plain true ([] :: ys) [] (by
      intro z hz
      rcases List.mem_cons.mp hz with rfl | hz
      · left; rfl
      · rcases hys z hz with h0 | ⟨h1, h2, h3, _⟩
        · left; exact h0
        · right; exact ⟨h1, h2, h3⟩), hf]
    simp
  by_cases hcomps : comps = []
  · subst hcomps
    have := key [[], x] (by
      intro y hy
      simp only [List.mem_cons, List.mem_singleton, List.not_mem_nil, or_false] at hy
      rcases hy with rfl | rfl
      · left; rfl
      · right; exact hx) (by simp) (by simp [List.filter_cons, hx.1])
    simpa [joinSep] using this
  · have := key (comps ++ [x]) (by
      intro y hy
      rcases List.mem_append.mp hy with hy | hy
      · right; exact hc y hy
      · simp only [List.mem_singleton] at hy
        subst hy
        right; exact hx) (by simp) (by
      rw [List.filter_eq_self]
      intro y hy
      rcases List.mem_append.mp hy with hy | hy
      · simpa using (hc y hy).1
      · simp only [List.mem_singleton] at hy
        subst hy
        simpa using hx.1)
    rw [joinSep_snoc comps x hcomps] at this
    rw [joinSep_snoc comps x hcomps]
    simpa using this

theorem plainElem_iff (e : String) :
    plainElem e = true ↔ e.data ≠ [] ∧ e.data ≠ ['.'] ∧ e.data ≠ ['.', '.'] ∧ '/' ∉ e.data := by
  simp [plainElem]

/-- Joining a cleaned absolute path with one plain element appends the element. -/
theorem Join_rootedPath (comps : List String) (x : String)
    (hc : ∀ c ∈ comps, plainElem c = true) (hx : plainElem x = true) :
    Join [rootedPath comps, x] = rootedPath (comps ++ [x]) := by
  have hne : rootedPath comps ≠ "" := by
    intro h
    have := congrArg String.data h
    simp [rootedPath] at this
  have hdrop : List.dropWhile (fun e => decide (e = "")) [rootedPath comps, x] =
      [rootedPath comps, x] := by
    simp [List.dropWhile, hne]
  unfold Join
  rw [hdrop]
  simp only [Clean, List.map, joinSep, rootedPath]
  rw [cleanChars_rooted_snoc (comps.map String.data) x.data (by
    intro c hcm
    obtain ⟨s, hs, rfl⟩ := List.mem_map.mp hcm
    exact (plainElem_iff s).mp (hc s hs)) ((plainElem_iff x).mp hx)]
  simp

end filepath

namespace filepath

theorem rootedPath_snoc (comps : List String) (x : String) (h : comps ≠ []) :
    rootedPath (comps ++ [x]) = rootedPath comps ++ "/" ++ x := by
  apply String.ext
  have hm : comps.map String.data ≠ [] := by simpa using h
  simp only [rootedPath, List.map_append, List.map, String.data_append]
  rw [joinSep_snoc _ _ hm]
  simp

theorem plainElem_suffixed (service suffix : String) (hs : '/' ∉ service.data)
    (hsuf : '/' ∉ suffix.data) (hlen : 3 ≤ suffix.data.length) :
    plainElem (service ++ suffix) = true := by
  rw [plainElem_iff, String.data_append]
  have hl : 3 ≤ (service.data ++ suffix.data).length := by
    rw [List.length_append]
    omega
  refine ⟨?_, ?_, ?_, ?_⟩
  · intro h
    rw [h] at hl
    simp at hl
  · intro h
    rw [h] at hl
    simp at hl
  · intro h
    rw [h] at hl
    simp at hl
  · simp [hs, hsuf]

end filepath

namespace pct

open filepath

/-! ## The base directory -/

/-- An `Init` that returns nil has stored the absolute path and its three children. -/
theorem init_ok (sys : Sys) (b : basedir) (path : String)
    (hok : (b.Init sys path).1 = none) :
    ∃ p, sys.Abs path = Except.ok p ∧
      (b.Init sys path).2 =
        { path := p, configDir := Join [p, CONFIG_DIR], dataDir := Join [p, DATA_DIR],
          binDir := Join [p, BIN_DIR] } := by
  unfold basedir.Init at hok ⊢
  cases habs : sys.Abs path with
  | error err => simp [habs] at hok
  | ok p =>
    refine ⟨p, rfl, ?_⟩
    simp only [habs] at hok ⊢
    split_ifs at hok ⊢ with h1 h2 h3 h4
    · exact absurd hok h1.1
    · exact absurd hok h2.1
    · exact absurd hok h3.1
    · exact absurd hok h4.1
    · rfl

end pct

namespace pct

open filepath

theorem init_dirs (sys : Sys) (b : basedir) (path : String) (comps : List String)
    (hok : (b.Init sys path).1 = none)
    (hpath : (b.Init sys path).2.Path = rootedPath comps)
    (hcomps : ∀ c ∈ comps, plainElem c = true) :
    (b.Init sys path).2.configDir = rootedPath (comps ++ [CONFIG_DIR]) ∧
    (b.Init sys path).2.dataDir = rootedPath (comps ++ [DATA_DIR]) ∧
    (b.Init sys path).2.binDir = rootedPath (comps ++ [BIN_DIR]) := by
  obtain ⟨p, _, hb⟩ := init_ok sys b path hok
  rw [hb] at hpath ⊢
  simp only [basedir.Path] at hpath
  subst hpath
  exact ⟨Join_rootedPath comps CONFIG_DIR hcomps (by decide),
    Join_rootedPath comps DATA_DIR hcomps (by decide),
    Join_rootedPath comps BIN_DIR hcomps (by decide)⟩

/-- C14, as stated, fails: `filepath.Join` cleans the joined path, so a service name with
a parent-directory element names a file outside the config directory. -/
theorem basedir_configFile_counterexample :
    (basedir.Init Sys.plain {} "/base").1 = none ∧
    (basedir.Init Sys.plain {} "/base").2.Path = "/base" ∧
    (basedir.Init Sys.plain {} "/base").2.configDir = "/base/config" ∧
    (basedir.Init Sys.plain {} "/base").2.ConfigFile "../mm" = "/base/mm.conf" ∧
    (basedir.Init Sys.plain {} "/base").2.ConfigFile "../mm" ≠ "/base/config/../mm.conf" := by
  decide

/-- C14, amended: after Init(path) has succeeded, with the absolute path it stored being
the cleaned path of the elements comps, ConfigFile of every service name without a path
separator is the file <service>.conf directly inside the config child of that path. -/
theorem basedir_configFile_path (sys : Sys) (b : basedir) (path : String)
    (comps : List String) (service : String)
    (hok : (b.Init sys path).1 = none)
    (hpath : (b.Init sys path).2.Path = rootedPath comps)
    (hcomps : ∀ c ∈ comps, plainElem c = true)
    (hsvc : '/' ∉ service.data) :
    (b.Init sys path).2.ConfigFile service =
      rootedPath (comps ++ [CONFIG_DIR, service ++ CONFIG_FILE_SUFFIX]) ∧
    (comps ≠ [] → (b.Init sys path).2.ConfigFile service =
      (b.Init sys path).2.Path ++ "/" ++ CONFIG_DIR ++ "/" ++ service ++ CONFIG_FILE_SUFFIX) := by
  have hdirs := init_dirs sys b path comps hok hpath hcomps
  have hplain : ∀ c ∈ comps ++ [CONFIG_DIR], plainElem c = true := by
    intro c hc
    rcases List.mem_append.mp hc with hc | hc
    · exact hcomps c hc
    · simp only [List.mem_singleton] at hc
      subst hc
      decide
  have hfile : (b.Init sys path).2.ConfigFile service =
      rootedPath (comps ++ [CONFIG_DIR, service ++ CONFIG_FILE_SUFFIX]) := by
    unfold basedir.ConfigFile
    rw [hdirs.1, Join_rootedPath _ _ hplain
      (plainElem_suffixed service CONFIG_FILE_SUFFIX hsvc (by decide) (by decide))]
    simp
  refine ⟨hfile, ?_⟩
  intro hne
  rw [hfile, hpath]
  have h2 : comps ++ [CONFIG_DIR, service ++ CONFIG_FILE_SUFFIX] =
      (comps ++ [CONFIG_DIR]) ++ [service ++ CONFIG_FILE_SUFFIX] := by simp
  rw [h2, rootedPath_snoc _ _ (by simp), rootedPath_snoc _ _ hne]
  simp only [String.append_assoc]

theorem basedir_configFile_path_witness :
    ((basedir.Init Sys.plain {} "/usr/local/percona").1 = none) ∧
    ((basedir.Init Sys.plain {} "/usr/local/percona").2.Path =
      rootedPath ["usr", "local", "percona"]) ∧
    (∀ c ∈ ["usr", "local", "percona"], plainElem c = true) ∧
    ('/' ∉ ("qan" : String).data) ∧
    ((basedir.Init Sys.plain {} "/usr/local/percona").2.ConfigFile "qan" =
      rootedPath (["usr", "local", "percona"] ++ [CONFIG_DIR, "qan" ++ CONFIG_FILE_SUFFIX]) ∧
    ((["usr", "local", "percona"] : List String) ≠ [] →
      (basedir.Init Sys.plain {} "/usr/local/percona").2.ConfigFile "qan" =
      (basedir.Init Sys.plain {} "/usr/local/percona").2.Path ++ "/" ++ CONFIG_DIR ++ "/" ++
        "qan" ++ CONFIG_FILE_SUFFIX)) :=
  ⟨by decide, by decide, by decide, by decide,
    basedir_configFile_path Sys.plain {} "/usr/local/percona" ["usr", "local", "percona"] "qan"
      (by decide) (by decide) (by decide) (by decide)⟩

/-- C17: after Init(path) has succeeded, Dir of "config", "data" and "bin" returns the
config, data and bin child of the absolute base path that Path() returns, and Dir of any
other name panics. -/
theorem basedir_dir_children (sys : Sys) (b : basedir) (path : String)
    (hok : (b.Init sys path).1 = none) :
    sys.Abs path = Except.ok (b.Init sys path).2.Path ∧
    (b.Init sys path).2.Dir "config" =
      Except.ok (Join [(b.Init sys path).2.Path, CONFIG_DIR]) ∧
    (b.Init sys path).2.Dir "data" =
      Except.ok (Join [(b.Init sys path).2.Path, DATA_DIR]) ∧
    (b.Init sys path).2.Dir "bin" =
      Except.ok (Join [(b.Init sys path).2.Path, BIN_DIR]) ∧
    (∀ comps : List String, (b.Init sys path).2.Path = rootedPath comps →
      (∀ c ∈ comps, plainElem c = true) →
      (b.Init sys path).2.Dir "config" = Except.ok (rootedPath (comps ++ ["config"])) ∧
      (b.Init sys path).2.Dir "data" = Except.ok (rootedPath (comps ++ ["data"])) ∧
      (b.Init sys path).2.Dir "bin" = Except.ok (rootedPath (comps ++ ["bin"]))) ∧
    (∀ name : String, name ≠ "config" → name ≠ "data" → name ≠ "bin" →
      (b.Init sys path).2.Dir name = Except.error ("Invalid service: " ++ name)) := by
  obtain ⟨p, habs, hb⟩ := init_ok sys b path hok
  refine ⟨?_, ?_, ?_, ?_, ?_, ?_⟩
  · rw [hb, habs]
    rfl
  · rw [hb]
    rfl
  · rw [hb]
    rfl
  · rw [hb]
    rfl
  · intro comps hpath hcomps
    have hdirs := init_dirs sys b path comps hok hpath hcomps
    refine ⟨?_, ?_, ?_⟩
    · simp only [basedir.Dir, if_true]
      rw [hdirs.1]
      rfl
    · rw [show (b.Init sys path).2.Dir "data" = Except.ok (b.Init sys path).2.dataDir from rfl,
        hdirs.2.1]
      rfl
    · rw [show (b.Init sys path).2.Dir "bin" = Except.ok (b.Init sys path).2.binDir from rfl,
        hdirs.2.2]
      rfl
  · intro name h1 h2 h3
    simp [basedir.Dir, h1, h2, h3]

theorem basedir_dir_children_witness :
    ((basedir.Init Sys.plain {} "/usr/local/percona").1 = none) ∧
    (Sys.plain.Abs "/usr/local/percona" = Except.ok (basedir.Init Sys.plain {} "/usr/local/percona").2.Path ∧
    (basedir.Init Sys.plain {} "/usr/local/percona").2.Dir "config" =
      Except.ok (Join [(basedir.Init Sys.plain {} "/usr/local/percona").2.Path, CONFIG_DIR]) ∧
    (basedir.Init Sys.plain {} "/usr/local/percona").2.Dir "data" =
      Except.ok (Join [(basedir.Init Sys.plain {} "/usr/local/percona").2.Path, DATA_DIR]) ∧
    (basedir.Init Sys.plain {} "/usr/local/percona").2.Dir "bin" =
      Except.ok (Join [(basedir.Init Sys.plain {} "/usr/local/percona").2.Path, BIN_DIR]) ∧
    (∀ comps : List String, (basedir.Init Sys.plain {} "/usr/local/percona").2.Path = rootedPath comps →
      (∀ c ∈ comps, plainElem c = true) →
      (basedir.Init Sys.plain {} "/usr/local/percona").2.Dir "config" = Except.ok (rootedPath (comps ++ ["config"])) ∧
      (basedir.Init Sys.plain {} "/usr/local/percona").2.Dir "data" = Except.ok (rootedPath (comps ++ ["data"])) ∧
      (basedir.Init Sys.plain {} "/usr/local/percona").2.Dir "bin" = Except.ok (rootedPath (comps ++ ["bin"]))) ∧
    (∀ name : String, name ≠ "config" → name ≠ "data" → name ≠ "bin" →
      (basedir.Init Sys.plain {} "/usr/local/percona").2.Dir name = Except.error ("Invalid service: " ++ name))) :=
  ⟨by decide, basedir_dir_children Sys.plain {} "/usr/local/percona" (by decide)⟩

end pct

namespace pct

open filepath

/-- No character has an empty UTF-8 encoding. -/
theorem utf8EncodeChar_ne_nil (c : Char) : String.utf8EncodeChar c ≠ [] := by
  unfold String.utf8EncodeChar
  simp only []
  split
  · simp
  · split
    · simp
    · split <;> simp

/-- The bytes of a string are none exactly for the empty string. -/
theorem toUTF8_eq_nil_iff (s : String) : s.toUTF8.data.toList = [] ↔ s = "" := by
  obtain ⟨l⟩ := s
  cases l with
  | nil => exact ⟨fun _ => rfl, fun _ => rfl⟩
  | cons c t =>
    constructor
    · intro h
      have h2 : String.utf8EncodeChar c ++ t.flatMap String.utf8EncodeChar = [] := h
      exact absurd (List.append_eq_nil.mp h2).1 (utf8EncodeChar_ne_nil c)
    · intro h
      exact absurd h (by simp [String.ext_iff])

/-- ReadConfig on a file system that holds an empty file at the config path: nothing is
unmarshalled and no error is returned. -/
theorem readConfig_of_empty {α : Type} (sys : Sys)
    (unmarshal : List UInt8 → α → Option GoError × α) (fs : FS) (b : basedir)
    (service : String) (v : α)
    (hdata : fs (b.ConfigFile service) = some "".toUTF8.data.toList)
    (hfault : sys.readFault (b.ConfigFile service) = none) :
    b.ReadConfig sys unmarshal fs service v = (none, v) := by
  simp only [basedir.ConfigFile] at hdata hfault
  have he : "".toUTF8.data.toList = ([] : List UInt8) := rfl
  rw [he] at hdata
  simp [basedir.ReadConfig, ReadFile, hdata, hfault]

/-- ReadConfig on a file system that holds data at the config path, read without a fault:
the data is unmarshalled into the target. -/
theorem readConfig_of_data {α : Type} (sys : Sys)
    (unmarshal : List UInt8 → α → Option GoError × α) (fs : FS) (b : basedir)
    (service : String) (v : α) (data : List UInt8)
    (hdata : fs (b.ConfigFile service) = some data)
    (hfault : sys.readFault (b.ConfigFile service) = none) (hne : data ≠ []) :
    b.ReadConfig sys unmarshal fs service v = unmarshal data v := by
  simp only [basedir.ConfigFile] at hdata hfault
  have hlen : 0 < data.length := List.length_pos.mpr hne
  simp [basedir.ReadConfig, ReadFile, hdata, hfault, hlen]

/-- ReadConfig on a file system with no file at the config path, read without a fault:
the file-not-found error of the read, the target as it was. -/
theorem readConfig_of_missing {α : Type} (sys : Sys)
    (unmarshal : List UInt8 → α → Option GoError × α) (fs : FS) (b : basedir)
    (service : String) (v : α) (hnone : fs (b.ConfigFile service) = none)
    (hfault : sys.readFault (b.ConfigFile service) = none) :
    b.ReadConfig sys unmarshal fs service v =
      (some (GoError.PathError "open" (b.ConfigFile service) Errno.ENOENT), v) := by
  simp only [basedir.ConfigFile] at hnone hfault
  simp [basedir.ReadConfig, ReadFile, hnone, hfault, basedir.ConfigFile, IsNotExist]

/-- C15: ReadConfig, WriteConfig, WriteConfigString and RemoveConfig of a service act on
the path that ConfigFile(service) returns: each is the file operation at that path, and
ReadConfig returns what it reads there (a file with data there is what gets unmarshalled).
After WriteConfigString has succeeded the file there holds exactly the bytes of the string,
no other file has changed and ReadConfig unmarshals those bytes; after RemoveConfig has
succeeded there is no file there and ReadConfig finds none. -/
theorem basedir_config_ops (sys : Sys) (fs fs2 : FS) (b : basedir) (service config : String)
    (hw : (b.WriteConfigString sys fs service config).1 = none)
    (hr : (b.RemoveConfig sys fs2 service).1 = none) :
    b.WriteConfigString sys fs service config =
      WriteFile sys fs (b.ConfigFile service) config.toUTF8.data.toList ∧
    b.RemoveConfig sys fs2 service = RemoveFile sys fs2 (b.ConfigFile service) ∧
    (∀ (α : Type) (marshalIndent : α → Except GoError (List UInt8)) (cfg : α)
      (data : List UInt8), marshalIndent cfg = Except.ok data →
      b.WriteConfig sys marshalIndent fs service cfg =
        WriteFile sys fs (b.ConfigFile service) data) ∧
    (∀ (α : Type) (unmarshal : List UInt8 → α → Option GoError × α) (v : α) (fs3 : FS),
      fs3 (b.ConfigFile service) = fs (b.ConfigFile service) →
      b.ReadConfig sys unmarshal fs3 service v = b.ReadConfig sys unmarshal fs service v) ∧
    (b.WriteConfigString sys fs service config).2 (b.ConfigFile service) =
      some config.toUTF8.data.toList ∧
    (∀ q : String, q ≠ b.ConfigFile service →
      (b.WriteConfigString sys fs service config).2 q = fs q) ∧
    (b.RemoveConfig sys fs2 service).2 (b.ConfigFile service) = none ∧
    (∀ (α : Type) (unmarshal : List UInt8 → α → Option GoError × α) (v : α),
      b.ReadConfig sys unmarshal fs service v =
        if (ReadFile sys fs (b.ConfigFile service)).2 ≠ none ∧
            ¬ IsNotExist (ReadFile sys fs (b.ConfigFile service)).2 then
          ((ReadFile sys fs (b.ConfigFile service)).2, v)
        else if (ReadFile sys fs (b.ConfigFile service)).1.length > 0 then
          unmarshal (ReadFile sys fs (b.ConfigFile service)).1 v
        else ((ReadFile sys fs (b.ConfigFile service)).2, v)) ∧
    (∀ (α : Type) (unmarshal : List UInt8 → α → Option GoError × α) (v : α)
      (data : List UInt8), fs (b.ConfigFile service) = some data →
      sys.readFault (b.ConfigFile service) = none → data ≠ [] →
      b.ReadConfig sys unmarshal fs service v = unmarshal data v) ∧
    (∀ (α : Type) (unmarshal : List UInt8 → α → Option GoError × α) (v : α),
      sys.readFault (b.ConfigFile service) = none →
      b.ReadConfig sys unmarshal (b.WriteConfigString sys fs service config).2 service v =
        if config = "" then (none, v) else unmarshal config.toUTF8.data.toList v) ∧
    (∀ (α : Type) (unmarshal : List UInt8 → α → Option GoError × α) (v : α),
      sys.readFault (b.ConfigFile service) = none →
      b.ReadConfig sys unmarshal (b.RemoveConfig sys fs2 service).2 service v =
        (some (GoError.PathError "open" (b.ConfigFile service) Errno.ENOENT), v)) := by
  have hwritten : (b.WriteConfigString sys fs service config).2 (b.ConfigFile service) =
      some config.toUTF8.data.toList := by
    simp only [basedir.WriteConfigString, WriteFile, basedir.ConfigFile] at hw ⊢
    split at hw
    · cases hw
    · rename_i hfault
      simp [hfault]
  have hremoved : (b.RemoveConfig sys fs2 service).2 (b.ConfigFile service) = none := by
    simp only [basedir.RemoveConfig, RemoveFile, basedir.ConfigFile] at hr ⊢
    split at hr
    · cases hr
    · rename_i hfault
      simp [hfault]
  refine ⟨rfl, rfl, ?_, ?_, hwritten, ?_, hremoved, ?_, ?_, ?_, ?_⟩
  · intro α marshalIndent cfg data hdata
    simp [basedir.WriteConfig, basedir.ConfigFile, hdata]
  · intro α unmarshal v fs3 hsame
    simp only [basedir.ConfigFile] at hsame
    simp [basedir.ReadConfig, ReadFile, hsame]
  · intro q hq
    simp only [basedir.WriteConfigString, WriteFile, basedir.ConfigFile] at hw hq ⊢
    split at hw
    · cases hw
    · rename_i hfault
      simp [hfault, hq]
  · intro α unmarshal v
    rfl
  · intro α unmarshal v data hdata hfault hne
    exact readConfig_of_data sys unmarshal fs b service v data hdata hfault hne
  · intro α unmarshal v hfault
    by_cases hc : config = ""
    · rw [if_pos hc]
      have hempty : config.toUTF8.data.toList = "".toUTF8.data.toList := by rw [hc]
      rw [hempty] at hwritten
      exact readConfig_of_empty sys unmarshal _ b service v hwritten hfault
    · rw [if_neg hc]
      exact readConfig_of_data sys unmarshal _ b service v _ hwritten hfault
        (fun h => hc ((toUTF8_eq_nil_iff config).mp h))
  · intro α unmarshal v hfault
    exact readConfig_of_missing sys unmarshal _ b service v hremoved hfault

theorem basedir_config_ops_witness :
    (((basedir.Init Sys.plain {} "/base").2.WriteConfigString Sys.plain FS.empty "qan" "Interval=60").1 = none) ∧
    (((basedir.Init Sys.plain {} "/base").2.RemoveConfig Sys.plain ((basedir.Init Sys.plain {} "/base").2.WriteConfigString Sys.plain FS.empty "qan" "Interval=60").2 "qan").1 = none) ∧
    ((basedir.Init Sys.plain {} "/base").2.WriteConfigString Sys.plain FS.empty "qan" "Interval=60" =
      WriteFile Sys.plain FS.empty ((basedir.Init Sys.plain {} "/base").2.ConfigFile "qan") "Interval=60".toUTF8.data.toList ∧
    (basedir.Init Sys.plain {} "/base").2.RemoveConfig Sys.plain ((basedir.Init Sys.plain {} "/base").2.WriteConfigString Sys.plain FS.empty "qan" "Interval=60").2 "qan" = RemoveFile Sys.plain ((basedir.Init Sys.plain {} "/base").2.WriteConfigString Sys.plain FS.empty "qan" "Interval=60").2 ((basedir.Init Sys.plain {} "/base").2.ConfigFile "qan") ∧
    (∀ (α : Type) (marshalIndent : α → Except GoError (List UInt8)) (cfg : α)
      (data : List UInt8), marshalIndent cfg = Except.ok data →
      (basedir.Init Sys.plain {} "/base").2.WriteConfig Sys.plain marshalIndent FS.empty "qan" cfg =
        WriteFile Sys.plain FS.empty ((basedir.Init Sys.plain {} "/base").2.ConfigFile "qan") data) ∧
    (∀ (α : Type) (unmarshal : List UInt8 → α → Option GoError × α) (v : α) (fs3 : FS),
      fs3 ((basedir.Init Sys.plain {} "/base").2.ConfigFile "qan") = FS.empty ((basedir.Init Sys.plain {} "/base").2.ConfigFile "qan") →
      (basedir.Init Sys.plain {} "/base").2.ReadConfig Sys.plain unmarshal fs3 "qan" v = (basedir.Init Sys.plain {} "/base").2.ReadConfig Sys.plain unmarshal FS.empty "qan" v) ∧
    ((basedir.Init Sys.plain {} "/base").2.WriteConfigString Sys.plain FS.empty "qan" "Interval=60").2 ((basedir.Init Sys.plain {} "/base").2.ConfigFile "qan") =
      some "Interval=60".toUTF8.data.toList ∧
    (∀ q : String, q ≠ (basedir.Init Sys.plain {} "/base").2.ConfigFile "qan" →
      ((basedir.Init Sys.plain {} "/base").2.WriteConfigString Sys.plain FS.empty "qan" "Interval=60").2 q = FS.empty q) ∧
    ((basedir.Init Sys.plain {} "/base").2.RemoveConfig Sys.plain ((basedir.Init Sys.plain {} "/base").2.WriteConfigString Sys.plain FS.empty "qan" "Interval=60").2 "qan").2 ((basedir.Init Sys.plain {} "/base").2.ConfigFile "qan") = none ∧
    (∀ (α : Type) (unmarshal : List UInt8 → α → Option GoError × α) (v : α),
      (basedir.Init Sys.plain {} "/base").2.ReadConfig Sys.plain unmarshal FS.empty "qan" v =
        if (ReadFile Sys.plain FS.empty ((basedir.Init Sys.plain {} "/base").2.ConfigFile "qan")).2 ≠ none ∧
            ¬ IsNotExist (ReadFile Sys.plain FS.empty ((basedir.Init Sys.plain {} "/base").2.ConfigFile "qan")).2 then
          ((ReadFile Sys.plain FS.empty ((basedir.Init Sys.plain {} "/base").2.ConfigFile "qan")).2, v)
        else if (ReadFile Sys.plain FS.empty ((basedir.Init Sys.plain {} "/base").2.ConfigFile "qan")).1.length > 0 then
          unmarshal (ReadFile Sys.plain FS.empty ((basedir.Init Sys.plain {} "/base").2.ConfigFile "qan")).1 v
        else ((ReadFile Sys.plain FS.empty ((basedir.Init Sys.plain {} "/base").2.ConfigFile "qan")).2, v)) ∧
    (∀ (α : Type) (unmarshal : List UInt8 → α → Option GoError × α) (v : α)
      (data : List UInt8), FS.empty ((basedir.Init Sys.plain {} "/base").2.ConfigFile "qan") = some data →
      Sys.plain.readFault ((basedir.Init Sys.plain {} "/base").2.ConfigFile "qan") = none → data ≠ [] →
      (basedir.Init Sys.plain {} "/base").2.ReadConfig Sys.plain unmarshal FS.empty "qan" v = unmarshal data v) ∧
    (∀ (α : Type) (unmarshal : List UInt8 → α → Option GoError × α) (v : α),
      Sys.plain.readFault ((basedir.Init Sys.plain {} "/base").2.ConfigFile "qan") = none →
      (basedir.Init Sys.plain {} "/base").2.ReadConfig Sys.plain unmarshal ((basedir.Init Sys.plain {} "/base").2.WriteConfigString Sys.plain FS.empty "qan" "Interval=60").2 "qan" v =
        if "Interval=60" = "" then (none, v) else unmarshal "Interval=60".toUTF8.data.toList v) ∧
    (∀ (α : Type) (unmarshal : List UInt8 → α → Option GoError × α) (v : α),
      Sys.plain.readFault ((basedir.Init Sys.plain {} "/base").2.ConfigFile "qan") = none →
      (basedir.Init Sys.plain {} "/base").2.ReadConfig Sys.plain unmarshal ((basedir.Init Sys.plain {} "/base").2.RemoveConfig Sys.plain ((basedir.Init Sys.plain {} "/base").2.WriteConfigString Sys.plain FS.empty "qan" "Interval=60").2 "qan").2 "qan" v =
        (some (GoError.PathError "open" ((basedir.Init Sys.plain {} "/base").2.ConfigFile "qan") Errno.ENOENT), v))) :=
  ⟨rfl, rfl, basedir_config_ops Sys.plain FS.empty
    ((basedir.Init Sys.plain {} "/base").2.WriteConfigString Sys.plain FS.empty "qan" "Interval=60").2
    (basedir.Init Sys.plain {} "/base").2 "qan" "Interval=60" rfl rfl⟩

/-- The round trip of C15 on sample inputs: what WriteConfigString has written under
`/base/config/qan.conf` is what ReadConfig hands to the unmarshaller; a write for another
service leaves no file there, and neither does RemoveConfig. -/
theorem basedir_config_roundtrip_sample :
    (basedir.Init Sys.plain {} "/base").2.ConfigFile "qan" = "/base/config/qan.conf" ∧
    (basedir.Init Sys.plain {} "/base").2.ReadConfig Sys.plain
        (fun data (_ : List UInt8) => (none, data))
        ((basedir.Init Sys.plain {} "/base").2.WriteConfigString Sys.plain FS.empty "qan" "a=1").2
        "qan" [] = (none, [97, 61, 49]) ∧
    (basedir.Init Sys.plain {} "/base").2.ReadConfig Sys.plain
        (fun data (_ : List UInt8) => (none, data))
        ((basedir.Init Sys.plain {} "/base").2.WriteConfigString Sys.plain FS.empty "other" "a=1").2
        "qan" [] = (some (GoError.PathError "open" "/base/config/qan.conf" Errno.ENOENT), []) ∧
    (basedir.Init Sys.plain {} "/base").2.ReadConfig Sys.plain
        (fun data (_ : List UInt8) => (none, data))
        ((basedir.Init Sys.plain {} "/base").2.RemoveConfig Sys.plain
          ((basedir.Init Sys.plain {} "/base").2.WriteConfigString Sys.plain FS.empty "qan" "a=1").2
          "qan").2
        "qan" [] = (some (GoError.PathError "open" "/base/config/qan.conf" Errno.ENOENT), []) := by
  decide

/-- C16: the code at the failing input.  With no file at the config path, ReadConfig
falls through the guard and returns the file-not-found error of the read instead of nil
(the target is left as it was). -/
theorem basedir_readConfig_missing_file :
    FS.empty ((basedir.Init Sys.plain {} "/base").2.ConfigFile "qan") = none ∧
    (basedir.Init Sys.plain {} "/base").2.ReadConfig Sys.plain
        (fun _ (v : data.Config) => (none, v)) FS.empty "qan" { Dir := "/var/spool" } =
      (some (GoError.PathError "open" "/base/config/qan.conf" Errno.ENOENT),
        { Dir := "/var/spool" }) ∧
    IsNotExist ((basedir.Init Sys.plain {} "/base").2.ReadConfig Sys.plain
        (fun _ (v : data.Config) => (none, v)) FS.empty "qan" { Dir := "/var/spool" }).1 =
      true := by
  decide

end pct

namespace slowlog

open gotime qan perfschema

/-! ## The slow-log file iterator -/

theorem file_afterTicks_snoc (s : IterState) (ticks : List Tick) (p : Tick) :
    afterTicks s (ticks ++ [p]) = onTick (afterTicks s ticks) p := by
  simp [afterTicks, List.foldl_append]

/-- After a tick the iterator remembers the time, the size and the file of that tick. -/
theorem onTick_remembers (s : IterState) (p : Tick) :
    (onTick s p).prevStartTime = p.t ∧ (onTick s p).prevSize = p.size ∧
    (onTick s p).last = some (p.filename, p.inode) := by
  unfold onTick
  cases s.last <;> simp

theorem file_onTick_first (s : IterState) (p : Tick) (h : s.last = none) :
    (onTick s p).out = s.out ∧ (onTick s p).number = s.number := by
  simp [onTick, h]

theorem file_onTick_next (s : IterState) (p : Tick) (name : String) (inode : Nat)
    (h : s.last = some (name, inode)) :
    (onTick s p).number = s.number + 1 ∧
    ∃ e : Emit, (onTick s p).out = s.out ++ [e] ∧
      e = (if p.sendReady then Emit.sent e.interval else Emit.lost e.interval) ∧
      e.interval =
        { Number := s.number, Filename := p.filename, StartTime := s.prevStartTime,
          StopTime := p.t,
          StartOffset := ((if p.filename ≠ name ∨ p.inode ≠ inode ∨ p.size < s.prevSize
            then 0 else s.prevSize : Nat) : Int),
          EndOffset := (p.size : Int) } := by
  refine ⟨by simp [onTick, h], ?_⟩
  by_cases hrot : p.filename ≠ name ∨ p.inode ≠ inode ∨ p.size < s.prevSize
  · have hr : rotated s p = true := by
      simp only [rotated, h]
      rcases hrot with h1 | h2 | h3
      · simp [h1]
      · simp [h2]
      · simp [h3]
    cases hs : p.sendReady <;> simp [onTick, h, hr, hrot, hs, Emit.interval]
  · have hr : rotated s p = false := by
      simp only [not_or, not_not, Nat.not_lt] at hrot
      simp [rotated, h, hrot.1, hrot.2.1, hrot.2.2]
    cases hs : p.sendReady <;> simp [onTick, h, hr, hrot, hs, Emit.interval]

/-- The emissions of the iterator are one per pair of consecutive ticks: the interval at
position `n` is numbered `n + 1`, runs from tick `n` to tick `n + 1`, ends at the size seen
at tick `n + 1`, and starts at the size seen at tick `n` unless tick `n + 1` saw a
rotation. -/
theorem file_out_shape (ticks : List Tick) :
    (afterTicks IterState.init ticks).out.length = ticks.length - 1 ∧
    (afterTicks IterState.init ticks).number = (afterTicks IterState.init ticks).out.length + 1 ∧
    (ticks = [] → (afterTicks IterState.init ticks).last = none) ∧
    ∀ (n : Nat) (e : Emit), (afterTicks IterState.init ticks).out[n]? = some e →
      ∃ a b, ticks[n]? = some a ∧ ticks[n + 1]? = some b ∧
        e.interval =
          { Number := (n : Int) + 1, Filename := b.filename, StartTime := a.t,
            StopTime := b.t,
            StartOffset := ((if b.filename ≠ a.filename ∨ b.inode ≠ a.inode ∨ b.size < a.size
              then 0 else a.size : Nat) : Int),
            EndOffset := (b.size : Int) } := by
  induction ticks using List.reverseRecOn with
  | nil => simp [afterTicks, IterState.init]
  | append_singleton l p ih =>
    obtain ⟨ihLen, ihNo, ihLast, ihOut⟩ := ih
    rw [file_afterTicks_snoc]
    rcases List.eq_nil_or_concat l with hl | ⟨l2, q, hl⟩
    · subst hl
      have hlast : (afterTicks IterState.init []).last = none := ihLast rfl
      obtain ⟨ho, hn⟩ := file_onTick_first _ p hlast
      refine ⟨?_, ?_, ?_, ?_⟩
      · rw [ho, ihLen]; rfl
      · rw [ho, hn]; exact ihNo
      · intro h; simp at h
      · intro n e hn2
        rw [ho] at hn2
        simp [afterTicks, IterState.init] at hn2
    · rw [List.concat_eq_append] at hl
      subst hl
      have hrem := onTick_remembers (afterTicks IterState.init l2) q
      rw [← file_afterTicks_snoc] at hrem
      obtain ⟨hno, e0, hout, -, hiv⟩ := file_onTick_next (afterTicks IterState.init (l2 ++ [q])) p
        q.filename q.inode hrem.2.2
      have hlen : (afterTicks IterState.init (l2 ++ [q])).out.length = l2.length := by
        rw [ihLen]; simp
      refine ⟨?_, ?_, ?_, ?_⟩
      · rw [hout]
        simp only [List.length_append, List.length_singleton]
        omega
      · rw [hno, hout, ihNo]
        simp
      · intro h; simp at h
      · intro n e hn
        rw [hout] at hn
        rcases Nat.lt_or_ge n (afterTicks IterState.init (l2 ++ [q])).out.length with hlt | hge
        · rw [List.getElem?_append_left hlt] at hn
          obtain ⟨a, b, ha, hb, hrest⟩ := ihOut n e hn
          refine ⟨a, b, ?_, ?_, hrest⟩
          · rw [List.getElem?_append_left (by simp; omega)]
            exact ha
          · rw [List.getElem?_append_left (by simp; omega)]
            exact hb
        · rw [List.getElem?_append_right hge] at hn
          have hn0 : n - (afterTicks IterState.init (l2 ++ [q])).out.length = 0 := by
            by_contra hne
            have : 1 ≤ n - (afterTicks IterState.init (l2 ++ [q])).out.length :=
              Nat.one_le_iff_ne_zero.mpr hne
            simp [List.getElem?_eq_none, this] at hn
          rw [hn0] at hn
          simp only [List.getElem?_cons_zero, Option.some.injEq] at hn
          subst hn
          have hnl : n = l2.length := by omega
          refine ⟨q, p, ?_, ?_, ?_⟩
          · rw [hnl, List.getElem?_append_left (by simp)]
            exact List.getElem?_concat_length l2 q
          · have : n + 1 = (l2 ++ [q]).length := by simp [hnl]
            rw [this]
            exact List.getElem?_concat_length (l2 ++ [q]) p
          · rw [hiv, hrem.1, hrem.2.1, ihNo, hlen, hnl]

end slowlog

namespace slowlog

open gotime qan perfschema

/-- The model on the ticks of `TestIterFile`: 3 bytes at the first tick, 6 at the second,
a re-created file of 10 bytes at the third, 15 bytes at the fourth. -/
theorem testIterFile_scenario :
    (produced
      [⟨100, "slow.log", 1, 3, true⟩, ⟨200, "slow.log", 1, 6, true⟩,
       ⟨300, "slow.log", 2, 10, true⟩, ⟨400, "slow.log", 2, 15, true⟩]).map Emit.interval =
    [{ Number := 1, Filename := "slow.log", StartTime := 100, StopTime := 200,
       StartOffset := 3, EndOffset := 6 },
     { Number := 2, Filename := "slow.log", StartTime := 200, StopTime := 300,
       StartOffset := 0, EndOffset := 10 },
     { Number := 3, Filename := "slow.log", StartTime := 300, StopTime := 400,
       StartOffset := 10, EndOffset := 15 }] := by
  decide

/-- C18: of two consecutive intervals of the slow-log file iterator with no rotation at
the tick that closes the later one (same file name, same inode, size not smaller), the
later starts at the offset where the earlier ends, and each ends at the file size seen at
its closing tick. -/
theorem slowlog_consecutive_offsets (ticks : List Tick) (n : Nat) (e e2 : Emit) (a b : Tick)
    (he : (produced ticks)[n]? = some e) (he2 : (produced ticks)[n + 1]? = some e2)
    (ha : ticks[n + 1]? = some a) (hb : ticks[n + 2]? = some b)
    (hname : b.filename = a.filename) (hinode : b.inode = a.inode) (hsize : a.size ≤ b.size) :
    e2.interval.StartOffset = e.interval.EndOffset ∧
    e.interval.EndOffset = (a.size : Int) ∧
    e2.interval.EndOffset = (b.size : Int) := by
  unfold produced at he he2
  obtain ⟨_, b1, _, hb1, hiv1⟩ := (file_out_shape ticks).2.2.2 n e he
  obtain ⟨a2, b2, ha2, hb2, hiv2⟩ := (file_out_shape ticks).2.2.2 (n + 1) e2 he2
  rw [ha] at hb1 ha2
  rw [hb] at hb2
  cases hb1
  cases ha2
  cases hb2
  rw [hiv1, hiv2]
  have hno : ¬ (b.filename ≠ a.filename ∨ b.inode ≠ a.inode ∨ b.size < a.size) := by
    simp only [not_or, not_not, Nat.not_lt]
    exact ⟨hname, hinode, hsize⟩
  simp [hno]

theorem slowlog_consecutive_offsets_witness :
    ((produced
      [⟨100, "slow.log", 1, 3, true⟩, ⟨200, "slow.log", 1, 6, false⟩,
       ⟨300, "slow.log", 1, 10, true⟩])[0]? =
      some (Emit.lost { Number := 1, Filename := "slow.log", StartTime := 100, StopTime := 200, StartOffset := 3, EndOffset := 6 })) ∧
    ((produced
      [⟨100, "slow.log", 1, 3, true⟩, ⟨200, "slow.log", 1, 6, false⟩,
       ⟨300, "slow.log", 1, 10, true⟩])[0 + 1]? =
      some (Emit.sent { Number := 2, Filename := "slow.log", StartTime := 200, StopTime := 300, StartOffset := 6, EndOffset := 10 })) ∧
    (([⟨100, "slow.log", 1, 3, true⟩, ⟨200, "slow.log", 1, 6, false⟩,
       ⟨300, "slow.log", 1, 10, true⟩] : List Tick)[0 + 1]? =
      some ⟨200, "slow.log", 1, 6, false⟩) ∧
    (([⟨100, "slow.log", 1, 3, true⟩, ⟨200, "slow.log", 1, 6, false⟩,
       ⟨300, "slow.log", 1, 10, true⟩] : List Tick)[0 + 2]? =
      some ⟨300, "slow.log", 1, 10, true⟩) ∧
    ((⟨300, "slow.log", 1, 10, true⟩ : Tick).filename =
      (⟨200, "slow.log", 1, 6, false⟩ : Tick).filename) ∧
    ((⟨300, "slow.log", 1, 10, true⟩ : Tick).inode =
      (⟨200, "slow.log", 1, 6, false⟩ : Tick).inode) ∧
    ((⟨200, "slow.log", 1, 6, false⟩ : Tick).size ≤
      (⟨300, "slow.log", 1, 10, true⟩ : Tick).size) ∧
    ((Emit.sent { Number := 2, Filename := "slow.log", StartTime := 200, StopTime := 300, StartOffset := 6, EndOffset := 10 }).interval.StartOffset =
      (Emit.lost { Number := 1, Filename := "slow.log", StartTime := 100, StopTime := 200, StartOffset := 3, EndOffset := 6 }).interval.EndOffset ∧
     (Emit.lost { Number := 1, Filename := "slow.log", StartTime := 100, StopTime := 200, StartOffset := 3, EndOffset := 6 }).interval.EndOffset =
      (((⟨200, "slow.log", 1, 6, false⟩ : Tick).size : Nat) : Int) ∧
     (Emit.sent { Number := 2, Filename := "slow.log", StartTime := 200, StopTime := 300, StartOffset := 6, EndOffset := 10 }).interval.EndOffset =
      (((⟨300, "slow.log", 1, 10, true⟩ : Tick).size : Nat) : Int)) :=
  ⟨by decide, by decide, by decide, by decide, by decide, by decide, by decide,
    slowlog_consecutive_offsets
      [⟨100, "slow.log", 1, 3, true⟩, ⟨200, "slow.log", 1, 6, false⟩,
       ⟨300, "slow.log", 1, 10, true⟩] 0 _ _ _ _
      (by decide) (by decide) (by decide) (by decide) (by decide) (by decide) (by decide)⟩

/-- C19: when the tick that closes an interval sees a rotation (the file name differs
from the last call, or the inode differs, or the size is smaller than the previous size),
that interval has StartOffset 0 and EndOffset equal to the size of the file seen at that
tick; and every interval has EndOffset >= StartOffset. -/
theorem slowlog_rotation_offsets (ticks : List Tick) (n : Nat) (e : Emit) (a b : Tick)
    (he : (produced ticks)[n]? = some e)
    (ha : ticks[n]? = some a) (hb : ticks[n + 1]? = some b)
    (hrot : b.filename ≠ a.filename ∨ b.inode ≠ a.inode ∨ b.size < a.size) :
    e.interval.StartOffset = 0 ∧
    e.interval.EndOffset = (b.size : Int) ∧
    rotated (afterTicks IterState.init (ticks.take (n + 1))) b = true ∧
    ∀ e2 ∈ produced ticks, e2.interval.StartOffset ≤ e2.interval.EndOffset := by
  unfold produced at he ⊢
  refine ⟨?_, ?_, ?_, ?_⟩
  · obtain ⟨a1, b1, ha1, hb1, hiv⟩ := (file_out_shape ticks).2.2.2 n e he
    rw [ha] at ha1
    rw [hb] at hb1
    cases ha1
    cases hb1
    rw [hiv]
    simp [hrot]
  · obtain ⟨a1, b1, ha1, hb1, hiv⟩ := (file_out_shape ticks).2.2.2 n e he
    rw [hb] at hb1
    cases hb1
    rw [hiv]
  · have hn : n < ticks.length := by
      by_contra hge
      rw [List.getElem?_eq_none (by omega)] at ha
      cases ha
    have htake : ticks.take (n + 1) = ticks.take n ++ [a] := by
      rw [List.take_succ, ha]
      rfl
    rw [htake, file_afterTicks_snoc]
    obtain ⟨_, hsz, hlast⟩ := onTick_remembers (afterTicks IterState.init (ticks.take n)) a
    simp only [rotated, hlast, hsz]
    rcases hrot with h1 | h2 | h3
    · simp [h1]
    · simp [h2]
    · simp [h3]
  · intro e2 he2
    obtain ⟨m, hm⟩ := List.getElem?_of_mem he2
    obtain ⟨a2, b2, _, _, hiv⟩ := (file_out_shape ticks).2.2.2 m e2 hm
    rw [hiv]
    simp only
    split
    · simp
    · rename_i hno
      simp only [not_or, Nat.not_lt] at hno
      exact_mod_cast hno.2.2

end slowlog

namespace slowlog

open gotime qan perfschema

theorem slowlog_rotation_offsets_witness :
    ((produced
      [⟨100, "slow.log", 1, 3, true⟩, ⟨200, "slow.log", 1, 6, true⟩,
       ⟨300, "slow.log", 2, 10, true⟩, ⟨400, "slow.log", 2, 15, true⟩])[1]? =
      some (Emit.sent { Number := 2, Filename := "slow.log", StartTime := 200, StopTime := 300, StartOffset := 0, EndOffset := 10 })) ∧
    (([⟨100, "slow.log", 1, 3, true⟩, ⟨200, "slow.log", 1, 6, true⟩,
       ⟨300, "slow.log", 2, 10, true⟩, ⟨400, "slow.log", 2, 15, true⟩] : List Tick)[1]? =
      some ⟨200, "slow.log", 1, 6, true⟩) ∧
    (([⟨100, "slow.log", 1, 3, true⟩, ⟨200, "slow.log", 1, 6, true⟩,
       ⟨300, "slow.log", 2, 10, true⟩, ⟨400, "slow.log", 2, 15, true⟩] : List Tick)[1 + 1]? =
      some ⟨300, "slow.log", 2, 10, true⟩) ∧
    ((⟨300, "slow.log", 2, 10, true⟩ : Tick).filename ≠
        (⟨200, "slow.log", 1, 6, true⟩ : Tick).filename ∨
      (⟨300, "slow.log", 2, 10, true⟩ : Tick).inode ≠
        (⟨200, "slow.log", 1, 6, true⟩ : Tick).inode ∨
      (⟨300, "slow.log", 2, 10, true⟩ : Tick).size <
        (⟨200, "slow.log", 1, 6, true⟩ : Tick).size) ∧
    ((Emit.sent { Number := 2, Filename := "slow.log", StartTime := 200, StopTime := 300, StartOffset := 0, EndOffset := 10 }).interval.StartOffset = 0 ∧
     (Emit.sent { Number := 2, Filename := "slow.log", StartTime := 200, StopTime := 300, StartOffset := 0, EndOffset := 10 }).interval.EndOffset =
      (((⟨300, "slow.log", 2, 10, true⟩ : Tick).size : Nat) : Int) ∧
     rotated (afterTicks IterState.init
        (([⟨100, "slow.log", 1, 3, true⟩, ⟨200, "slow.log", 1, 6, true⟩,
          ⟨300, "slow.log", 2, 10, true⟩, ⟨400, "slow.log", 2, 15, true⟩] : List Tick).take
            (1 + 1))) ⟨300, "slow.log", 2, 10, true⟩ = true ∧
     ∀ e2 ∈ produced
        [⟨100, "slow.log", 1, 3, true⟩, ⟨200, "slow.log", 1, 6, true⟩,
         ⟨300, "slow.log", 2, 10, true⟩, ⟨400, "slow.log", 2, 15, true⟩],
       e2.interval.StartOffset ≤ e2.interval.EndOffset) :=
  ⟨by decide, by decide, by decide, by decide,
    slowlog_rotation_offsets
      [⟨100, "slow.log", 1, 3, true⟩, ⟨200, "slow.log", 1, 6, true⟩,
       ⟨300, "slow.log", 2, 10, true⟩, ⟨400, "slow.log", 2, 15, true⟩] 1
      (Emit.sent { Number := 2, Filename := "slow.log", StartTime := 200, StopTime := 300, StartOffset := 0, EndOffset := 10 })
      ⟨200, "slow.log", 1, 6, true⟩ ⟨300, "slow.log", 2, 10, true⟩
      (by decide) (by decide) (by decide) (by decide)⟩

end slowlog

namespace qan

/-! ## Rotation of the slow log -/

/-- The model on the intervals of `TestRotateAndRemoveSlowLog` (file of 2200 bytes,
MaxSlowLogSize 1000): the interval 0-736 executes nothing, the interval 736-1833 executes
the Stop and then the Start queries and is extended to 2200. -/
theorem testRotate_scenario :
    (rotationCheck { MaxSlowLogSize := 1000, Start := ["-- start"], Stop := ["-- stop"] }
      World.sample { Filename := "/tmp/slow006.log", StartOffset := 0, EndOffset := 736 }).2.executed
      = [] ∧
    (rotationCheck { MaxSlowLogSize := 1000, Start := ["-- start"], Stop := ["-- stop"] }
      World.sample { Filename := "/tmp/slow006.log", StartOffset := 736, EndOffset := 1833 }).2.executed
      = ["-- stop", "-- start"] ∧
    (rotationCheck { MaxSlowLogSize := 1000, Start := ["-- start"], Stop := ["-- stop"] }
      World.sample { Filename := "/tmp/slow006.log", StartOffset := 736, EndOffset := 1833 }).1.EndOffset
      = 2200 ∧
    (rotationCheck { MaxSlowLogSize := 1000, Start := ["-- start"], Stop := ["-- stop"] }
      World.sample { Filename := "/tmp/slow006.log", StartOffset := 736, EndOffset := 1833 }).2.pending
      = ["/tmp/slow006.log-1400000000"] := by
  decide

/-- C20: setting up an interval rotates the slow log exactly when its EndOffset is at
least MaxSlowLogSize.  When it rotates, the Stop queries and then the Start queries are
executed, in that order, and the EndOffset becomes the full size of the renamed file; when
it does not, no query is executed and the interval is unchanged. -/
theorem qan_rotation_check (cfg : Config) (w : World) (I : Interval) :
    ((rotationCheck cfg w I).2.pending ≠ w.pending ↔ I.EndOffset ≥ cfg.MaxSlowLogSize) ∧
    (I.EndOffset ≥ cfg.MaxSlowLogSize →
      (rotationCheck cfg w I).2.executed = w.executed ++ cfg.Stop ++ cfg.Start ∧
      (rotationCheck cfg w I).2.pending = w.pending ++ [rotatedName I.Filename w.unixNow] ∧
      (rotationCheck cfg w I).1 = { I with EndOffset := (w.size I.Filename : Int) } ∧
      (rotationCheck cfg w I).1.EndOffset =
        ((rotationCheck cfg w I).2.size (rotatedName I.Filename w.unixNow) : Int)) ∧
    (¬ I.EndOffset ≥ cfg.MaxSlowLogSize →
      (rotationCheck cfg w I).2.executed = w.executed ∧
      (rotationCheck cfg w I).2.pending = w.pending ∧
      (rotationCheck cfg w I).2.size = w.size ∧
      (rotationCheck cfg w I).1 = I) := by
  by_cases h : I.EndOffset ≥ cfg.MaxSlowLogSize
  · refine ⟨?_, ?_, ?_⟩
    · simp [rotationCheck, h]
    · intro _
      simp [rotationCheck, h]
    · intro hn
      exact absurd h hn
  · refine ⟨?_, ?_, ?_⟩
    · simp [rotationCheck, h]
    · intro hy
      exact absurd hy h
    · intro _
      simp [rotationCheck, h]

end qan

namespace data

open pct

/-- How `Start` ends: with an error and config and status as they were, or with nil, the
decoded config stored and the status "Ready". -/
theorem start_outcome (env : Env) (m : Manager) (cmd : Cmd) (config : List UInt8) :
    (∃ err, (m.Start env cmd config).1 = some err ∧
      (m.Start env cmd config).2.config = m.config ∧
      (m.Start env cmd config).2.status = m.status) ∨
    ((m.Start env cmd config).1 = none ∧ m.config = none ∧
      ∃ c, env.jsonUnmarshal config = Except.ok c ∧
        (m.Start env cmd config).2.config = some c ∧
        (m.Start env cmd config).2.status = m.status.Update "data" "Ready") := by
  cases hcfg : m.config with
  | some c0 =>
    left
    rw [start_running env m cmd config (by simp [hcfg])]
    exact ⟨_, rfl, hcfg, rfl⟩
  | none =>
    cases hdec : env.jsonUnmarshal config with
    | error err =>
      left
      rw [start_decode_error env m cmd config err hcfg hdec]
      exact ⟨_, rfl, hcfg, rfl⟩
    | ok c =>
      cases hdir : env.MakeDir c.Dir with
      | some err =>
        left
        rw [start_makeDir_error env m cmd config c err hcfg hdec hdir]
        exact ⟨_, rfl, hcfg, rfl⟩
      | none =>
        have key : ∀ sz, (c.Encoding = "" ∧ sz = Serializer.JsonSerializer ∨
            c.Encoding = "gzip" ∧ sz = Serializer.JsonGzipSerializer) →
            (∃ err, (m.Start env cmd config).1 = some err ∧
              (m.Start env cmd config).2.config = none ∧
              (m.Start env cmd config).2.status = m.status) ∨
            ((m.Start env cmd config).1 = none ∧ (none : Option Config) = none ∧
              ∃ c2, Except.ok c = (Except.ok c2 : Except GoError Config) ∧
                (m.Start env cmd config).2.config = some c2 ∧
                (m.Start env cmd config).2.status = m.status.Update "data" "Ready") := by
          intro sz hsz
          rw [start_selected env m cmd config c sz hcfg hdec hdir hsz]
          split
          · left
            exact ⟨_, rfl, hcfg, rfl⟩
          · split
            · left
              exact ⟨_, rfl, hcfg, rfl⟩
            · right
              exact ⟨rfl, rfl, c, rfl, rfl, rfl⟩
        by_cases h1 : c.Encoding = ""
        · exact key _ (Or.inl ⟨h1, rfl⟩)
        · by_cases h2 : c.Encoding = "gzip"
          · exact key _ (Or.inr ⟨h2, rfl⟩)
          · left
            rw [start_unknown_encoding env m cmd config c hcfg hdec hdir h1 h2]
            exact ⟨_, rfl, hcfg, rfl⟩

/-- C25: whenever Start returns an error the config and the "data" status are left as they
were; the config becomes non-nil and the status "Ready" only when Start returns nil. -/
theorem data_start_error_keeps_state (env : Env) (m : Manager) (cmd : Cmd)
    (config : List UInt8) :
    (∀ err, (m.Start env cmd config).1 = some err →
      (m.Start env cmd config).2.config = m.config ∧
      (m.Start env cmd config).2.status = m.status ∧
      (m.Start env cmd config).2.status.Get "data" = m.status.Get "data") ∧
    ((m.Start env cmd config).1 = none →
      m.config = none ∧ (m.Start env cmd config).2.config ≠ none ∧
      (m.Start env cmd config).2.status.Get "data" = "Ready") := by
  rcases start_outcome env m cmd config with ⟨e, he, hc, hs⟩ | ⟨hn, hm, c, _, hc, hs⟩
  · refine ⟨fun err _ => ⟨hc, hs, by rw [hs]⟩, fun hnone => ?_⟩
    rw [he] at hnone
    cases hnone
  · refine ⟨fun err herr => ?_, fun _ => ⟨hm, by simp [hc], by
      rw [hs, Status.get_update_same]⟩⟩
    rw [hn] at herr
    cases herr

/-- The outcomes of C25 on sample inputs: an unknown encoding leaves a fresh manager
without config and with the empty status, a valid config makes it "Ready". -/
theorem data_start_outcomes_sample :
    ((NewManager "db01" 7).Start (Env.ok { Dir := "/var/spool", Encoding := "zip" })
        { Cmd := "StartService" } []).1 = some (GoError.errorString "Unknown encoding: zip") ∧
    ((NewManager "db01" 7).Start (Env.ok { Dir := "/var/spool", Encoding := "zip" })
        { Cmd := "StartService" } []).2.config = none ∧
    ((NewManager "db01" 7).Start (Env.ok { Dir := "/var/spool", Encoding := "zip" })
        { Cmd := "StartService" } []).2.status.Get "data" = "" ∧
    ((NewManager "db01" 7).Start (Env.ok { Dir := "/var/spool", SendInterval := 60 })
        { Cmd := "StartService" } []).1 = none ∧
    ((NewManager "db01" 7).Start (Env.ok { Dir := "/var/spool", SendInterval := 60 })
        { Cmd := "StartService" } []).2.status.Get "data" = "Ready" := by
  decide

/-- C26: after Handle of any command the "data" status is "Ready", also on a manager that
was never started; the reply to a Status command carries the status from before the
call. -/
theorem data_handle_sets_ready (m : Manager) (cmd : Cmd) :
    (m.Handle cmd).2.status.Get "data" = "Ready" ∧
    (cmd.Cmd = "Status" →
      (m.Handle cmd).1 = cmd.Reply (ReplyData.status [("data", m.status.Get "data")]) ∧
      (m.Handle cmd).1.Data = some (ReplyData.status [("data", m.status.Get "data")])) ∧
    (∀ (hostname : String) (client : WebsocketClient),
      ((NewManager hostname client).Handle cmd).2.status.Get "data" = "Ready" ∧
      (cmd.Cmd = "Status" →
        ((NewManager hostname client).Handle cmd).1.Data =
          some (ReplyData.status [("data", "")]))) := by
  have hstatus : ∀ mm : Manager, cmd.Cmd = "Status" →
      (mm.Handle cmd).1 = cmd.Reply (ReplyData.status [("data", mm.status.Get "data")]) := by
    intro mm h
    simp [Manager.Handle, h, Manager.InternalStatus, Manager.Status]
  refine ⟨by simp [Manager.Handle, Status.get_update_same], fun h => ⟨hstatus m h, ?_⟩,
    fun hostname client => ⟨by simp [Manager.Handle, Status.get_update_same], fun h => ?_⟩⟩
  · rw [hstatus m h]
    rfl
  · rw [hstatus _ h]
    rfl

end data

namespace instanceMgr

open pct proto

/-! ## The MySQL instances of the instance manager -/

theorem loop_bad_split (env : Env) (name : String) (rest : List String)
    (acc : List MySQLInstance) (ops : List RepoOp)
    (h : (strings.Split name '-').length ≠ 2) :
    getMySQLInstancesLoop env (name :: rest) acc ops =
      (([], some (GoError.errorString ("Invalid instance name: " ++ name))), ops) := by
  unfold getMySQLInstancesLoop
  split
  · rename_i service idStr heq
    rw [heq] at h
    simp at h
  · rfl

theorem loop_other_service (env : Env) (name : String) (rest : List String)
    (acc : List MySQLInstance) (ops : List RepoOp) (service idStr : String)
    (h : strings.Split name '-' = [service, idStr]) (hs : service ≠ "mysql") :
    getMySQLInstancesLoop env (name :: rest) acc ops =
      getMySQLInstancesLoop env rest acc ops := by
  rw [getMySQLInstancesLoop]
  simp [h, hs]

theorem loop_bad_id (env : Env) (name : String) (rest : List String)
    (acc : List MySQLInstance) (ops : List RepoOp) (idStr : String) (err : GoError)
    (h : strings.Split name '-' = ["mysql", idStr])
    (hp : strconv.ParseInt idStr = Except.error err) :
    getMySQLInstancesLoop env (name :: rest) acc ops = (([], some err), ops) := by
  rw [getMySQLInstancesLoop]
  simp [h, hp]

theorem loop_bad_get (env : Env) (name : String) (rest : List String)
    (acc : List MySQLInstance) (ops : List RepoOp) (idStr : String) (id : Int) (err : GoError)
    (h : strings.Split name '-' = ["mysql", idStr])
    (hp : strconv.ParseInt idStr = Except.ok id)
    (hg : env.repoGet "mysql" (toUint id) = Except.error err) :
    getMySQLInstancesLoop env (name :: rest) acc ops =
      (([], some err), ops ++ [RepoOp.Get "mysql" (toUint id)]) := by
  rw [getMySQLInstancesLoop]
  simp [h, hp, hg]

/-- A MySQL instance that is found in the repo is appended whatever `GetMySQLInfo`
returns, and the loop goes on. -/
theorem loop_mysql (env : Env) (name : String) (rest : List String)
    (acc : List MySQLInstance) (ops : List RepoOp) (idStr : String) (id : Int)
    (it : MySQLInstance)
    (h : strings.Split name '-' = ["mysql", idStr])
    (hp : strconv.ParseInt idStr = Except.ok id)
    (hg : env.repoGet "mysql" (toUint id) = Except.ok it) :
    getMySQLInstancesLoop env (name :: rest) acc ops =
      getMySQLInstancesLoop env rest (acc ++ [(GetMySQLInfo env it).2])
        (ops ++ [RepoOp.Get "mysql" (toUint id)]) := by
  rw [getMySQLInstancesLoop]
  simp [h, hp, hg]

theorem split_two (name : String) (h : (strings.Split name '-').length = 2) :
    ∃ service idStr, strings.Split name '-' = [service, idStr] := by
  match hs : strings.Split name '-' with
  | [] => rw [hs] at h; simp at h
  | [a] => rw [hs] at h; simp at h
  | [a, b] => exact ⟨a, b, rfl⟩
  | a :: b :: c :: r => rw [hs] at h; simp at h

end instanceMgr

namespace instanceMgr

open pct proto

/-- What the loop of `getMySQLInstances` returns: an error exactly when one of the names
is malformed, has an id that does not parse, or is not found in the repo; otherwise the
instances of the names of service "mysql", in order, after the ones gathered before. -/
theorem loop_spec (env : Env) (names : List String) :
    ∀ (acc : List MySQLInstance) (ops : List RepoOp),
    ((getMySQLInstancesLoop env names acc ops).1.2 ≠ none ↔
      ∃ name ∈ names, (strings.Split name '-').length ≠ 2 ∨
        ∃ idStr, strings.Split name '-' = ["mysql", idStr] ∧
          ((∃ e, strconv.ParseInt idStr = Except.error e) ∨
           ∃ id e, strconv.ParseInt idStr = Except.ok id ∧
             env.repoGet "mysql" (toUint id) = Except.error e)) ∧
    ((getMySQLInstancesLoop env names acc ops).1.2 = none →
      ∃ insts, (getMySQLInstancesLoop env names acc ops).1.1 = acc ++ insts ∧
        List.Forall₂
          (fun name inst => ∃ idStr id it, strings.Split name '-' = ["mysql", idStr] ∧
            strconv.ParseInt idStr = Except.ok id ∧
            env.repoGet "mysql" (toUint id) = Except.ok it ∧
            inst = (GetMySQLInfo env it).2)
          (names.filter (fun name => decide ((strings.Split name '-').head? = some "mysql")))
          insts) := by
  induction names with
  | nil =>
    intro acc ops
    simp [getMySQLInstancesLoop]
  | cons name rest ih =>
    intro acc ops
    by_cases hlen : (strings.Split name '-').length = 2
    · obtain ⟨service, idStr, hsplit⟩ := split_two name hlen
      by_cases hsvc : service = "mysql"
      · subst hsvc
        have hfilter : decide ((strings.Split name '-').head? = some "mysql") = true := by
          simp [hsplit]
        cases hp : strconv.ParseInt idStr with
        | error err =>
          rw [loop_bad_id env name rest acc ops idStr err hsplit hp]
          refine ⟨⟨fun _ => ⟨name, by simp, Or.inr ⟨idStr, hsplit, Or.inl ⟨err, hp⟩⟩⟩,
            fun _ => by simp⟩, fun h => by simp at h⟩
        | ok id =>
          cases hg : env.repoGet "mysql" (toUint id) with
          | error err =>
            rw [loop_bad_get env name rest acc ops idStr id err hsplit hp hg]
            refine ⟨⟨fun _ => ⟨name, by simp,
              Or.inr ⟨idStr, hsplit, Or.inr ⟨id, err, hp, hg⟩⟩⟩, fun _ => by simp⟩,
              fun h => by simp at h⟩
          | ok it =>
            rw [loop_mysql env name rest acc ops idStr id it hsplit hp hg]
            obtain ⟨ih1, ih2⟩ := ih (acc ++ [(GetMySQLInfo env it).2])
              (ops ++ [RepoOp.Get "mysql" (toUint id)])
            have hgood : ¬ ((strings.Split name '-').length ≠ 2 ∨
                ∃ idStr2, strings.Split name '-' = ["mysql", idStr2] ∧
                  ((∃ e, strconv.ParseInt idStr2 = Except.error e) ∨
                   ∃ id2 e, strconv.ParseInt idStr2 = Except.ok id2 ∧
                     env.repoGet "mysql" (toUint id2) = Except.error e)) := by
              rintro (h | ⟨idStr2, h2, hbad⟩)
              · exact h hlen
              · rw [hsplit] at h2
                simp only [List.cons.injEq, and_true, true_and] at h2
                subst h2
                rcases hbad with ⟨e, he⟩ | ⟨id2, e, hid, he⟩
                · rw [hp] at he
                  cases he
                · rw [hp] at hid
                  cases hid
                  rw [hg] at he
                  cases he
            refine ⟨?_, ?_⟩
            · rw [ih1]
              constructor
              · rintro ⟨n, hn, hb⟩
                exact ⟨n, by simp [hn], hb⟩
              · rintro ⟨n, hn, hb⟩
                rcases List.mem_cons.mp hn with rfl | hn
                · exact absurd hb hgood
                · exact ⟨n, hn, hb⟩
            · intro hnone
              obtain ⟨insts, hinsts, hall⟩ := ih2 hnone
              refine ⟨(GetMySQLInfo env it).2 :: insts, by simp [hinsts], ?_⟩
              rw [List.filter_cons, if_pos hfilter]
              exact List.Forall₂.cons ⟨idStr, id, it, hsplit, hp, hg, rfl⟩ hall
      · rw [loop_other_service env name rest acc ops service idStr hsplit hsvc]
        obtain ⟨ih1, ih2⟩ := ih acc ops
        have hfilter : ¬ decide ((strings.Split name '-').head? = some "mysql") = true := by
          simp [hsplit, hsvc]
        have hgood : ¬ ((strings.Split name '-').length ≠ 2 ∨
            ∃ idStr2, strings.Split name '-' = ["mysql", idStr2] ∧
              ((∃ e, strconv.ParseInt idStr2 = Except.error e) ∨
               ∃ id2 e, strconv.ParseInt idStr2 = Except.ok id2 ∧
                 env.repoGet "mysql" (toUint id2) = Except.error e)) := by
          rintro (h | ⟨idStr2, h2, -⟩)
          · exact h hlen
          · rw [hsplit] at h2
            simp only [List.cons.injEq, and_true] at h2
            exact hsvc h2.1
        refine ⟨?_, ?_⟩
        · rw [ih1]
          constructor
          · rintro ⟨n, hn, hb⟩
            exact ⟨n, by simp [hn], hb⟩
          · rintro ⟨n, hn, hb⟩
            rcases List.mem_cons.mp hn with rfl | hn
            · exact absurd hb hgood
            · exact ⟨n, hn, hb⟩
        · intro hnone
          obtain ⟨insts, hinsts, hall⟩ := ih2 hnone
          refine ⟨insts, hinsts, ?_⟩
          rw [List.filter_cons, if_neg hfilter]
          exact hall
    · rw [loop_bad_split env name rest acc ops hlen]
      refine ⟨⟨fun _ => ⟨name, by simp, Or.inl hlen⟩, fun _ => by simp⟩,
        fun h => by simp at h⟩

end instanceMgr

namespace data

open pct

/-- C27, as stated, fails: a read that succeeds need not hand back a `data.Config`.  When
`pct.ReadConfig` returns no error and the nil interface, or a `*data.Config`, the type
assertion panics and LoadConfig returns nothing. -/
theorem data_loadConfig_counterexample :
    (fun _ => Except.ok Value.nil : String → Except GoError Value)
        ("/etc/agent" ++ "/" ++ "data.conf") = Except.ok Value.nil ∧
    ((NewManager "db01" 7).LoadConfig ⟨"data.conf", "/var/spool/agent", 63⟩
        (fun _ => Except.ok Value.nil) "/etc/agent").1 =
      Except.error "interface conversion: interface \x7b\x7d is nil, not data.Config" ∧
    ((NewManager "db01" 7).LoadConfig ⟨"data.conf", "/var/spool/agent", 63⟩
        (fun _ => Except.ok Value.nil) "/etc/agent").1.toOption = none ∧
    ((NewManager "db01" 7).LoadConfig ⟨"data.conf", "/var/spool/agent", 63⟩
        (fun _ => Except.ok (Value.other "*data.Config")) "/etc/agent").1 =
      Except.error "interface conversion: interface \x7b\x7d is *data.Config, not data.Config" :=
  ⟨rfl, rfl, rfl, rfl⟩

/-- C27, amended: when reading the config file succeeds with a value of dynamic type
data.Config, LoadConfig returns the config read with Dir replaced by DEFAULT_DATA_DIR
exactly when Dir is empty, SendInterval replaced by DEFAULT_DATA_SEND_INTERVAL exactly when
SendInterval <= 0, and the other field as read; when reading succeeds with any other value
it panics in the type assertion; when reading fails it returns a nil config and the read
error.  The config directory is stored in every case. -/
theorem data_loadConfig_defaults (consts : Consts)
    (readConfig : String → Except GoError Value) (m : Manager) (configDir : String) :
    (∀ c : Config, readConfig (configDir ++ "/" ++ consts.CONFIG_FILE) =
        Except.ok (Value.config c) →
      (m.LoadConfig consts readConfig configDir).1 = Except.ok (some
        { Dir := if c.Dir = "" then consts.DEFAULT_DATA_DIR else c.Dir,
          Encoding := c.Encoding,
          SendInterval := if c.SendInterval ≤ 0 then consts.DEFAULT_DATA_SEND_INTERVAL
            else c.SendInterval }, none)) ∧
    (readConfig (configDir ++ "/" ++ consts.CONFIG_FILE) = Except.ok Value.nil →
      (m.LoadConfig consts readConfig configDir).1 =
        Except.error "interface conversion: interface \x7b\x7d is nil, not data.Config") ∧
    (∀ typ : String,
      readConfig (configDir ++ "/" ++ consts.CONFIG_FILE) = Except.ok (Value.other typ) →
      (m.LoadConfig consts readConfig configDir).1 = Except.error
        ("interface conversion: interface \x7b\x7d is " ++ typ ++ ", not data.Config")) ∧
    (∀ err : GoError, readConfig (configDir ++ "/" ++ consts.CONFIG_FILE) = Except.error err →
      (m.LoadConfig consts readConfig configDir).1 = Except.ok (none, some err)) ∧
    (m.LoadConfig consts readConfig configDir).2 = { m with configDir := configDir } := by
  refine ⟨?_, ?_, ?_, ?_, ?_⟩
  · intro c hc
    simp only [Manager.LoadConfig, hc]
    by_cases h1 : c.Dir = "" <;> by_cases h2 : c.SendInterval ≤ 0 <;> simp [h1, h2]
  · intro hv
    simp only [Manager.LoadConfig, hv]
  · intro typ hv
    simp only [Manager.LoadConfig, hv]
  · intro err herr
    simp [Manager.LoadConfig, herr]
  · unfold Manager.LoadConfig
    split <;> rfl

/-- The defaults of C27 on sample inputs: an empty Dir and a zero SendInterval are
replaced, set values are kept. -/
theorem data_loadConfig_sample :
    ((NewManager "db01" 7).LoadConfig ⟨"data.conf", "/var/spool/agent", 63⟩
      (fun _ => Except.ok (Value.config { Encoding := "gzip" })) "/etc/agent").1.toOption =
      some (some { Dir := "/var/spool/agent", Encoding := "gzip", SendInterval := 63 }, none) ∧
    ((NewManager "db01" 7).LoadConfig ⟨"data.conf", "/var/spool/agent", 63⟩
      (fun _ => Except.ok (Value.config { Dir := "/tmp/d", SendInterval := 5 }))
      "/etc/agent").1.toOption =
      some (some { Dir := "/tmp/d", Encoding := "", SendInterval := 5 }, none) := by
  decide

end data

namespace test

open pct

/-- C30: the code at the failing input.  With nothing under the path, `os.Stat` fails with
the error that `os.IsNotExist` recognises, and FileExists returns true. -/
theorem fileExists_missing_file :
    FS.empty "/no/such/file" = none ∧
    Stat (fun _ => none) FS.empty "/no/such/file" =
      some (GoError.PathError "stat" "/no/such/file" Errno.ENOENT) ∧
    FileExists (fun _ => none) FS.empty "/no/such/file" = true := by
  decide

/-- What `FileExists` computes: true when `os.Stat` succeeds or reports that the path
does not exist, false only when `os.Stat` fails for another reason. -/
theorem fileExists_eq (statFault : String → Option GoError) (fs : FS) (file : String) :
    FileExists statFault fs file =
      (decide (Stat statFault fs file = none) || IsNotExist (Stat statFault fs file)) := by
  unfold FileExists
  by_cases h : Stat statFault fs file = none <;> simp [h]

end test

namespace instanceMgr

open pct proto

theorem getMySQLInfo_error_keeps (env : Env) (it : MySQLInstance)
    (h : (GetMySQLInfo env it).1 ≠ none) : (GetMySQLInfo env it).2 = it := by
  unfold GetMySQLInfo at h ⊢
  cases hc : env.connect it.DSN with
  | some err => rfl
  | none =>
    cases hq : env.queryInfo it.DSN with
    | error err => rfl
    | ok v =>
      obtain ⟨hostname, distro, version⟩ := v
      simp [hc, hq] at h

/-- The error of `getMySQLInstances` is the error of its loop. -/
theorem getMySQLInstances_error_iff (env : Env) (m : Manager) :
    (m.getMySQLInstances env).1.2 ≠ none ↔
      ∃ name ∈ env.repoList, (strings.Split name '-').length ≠ 2 ∨
        ∃ idStr, strings.Split name '-' = ["mysql", idStr] ∧
          ((∃ e, strconv.ParseInt idStr = Except.error e) ∨
           ∃ id e, strconv.ParseInt idStr = Except.ok id ∧
             env.repoGet "mysql" (toUint id) = Except.error e) :=
  (loop_spec env env.repoList [] (m.repoOps ++ [RepoOp.List])).1

/-- C28: getMySQLInstances returns an error exactly when some repo name does not split on
"-" into two parts, or a name of service "mysql" has an id that is not a base-10 64-bit
integer or is not found in the repo; otherwise it returns one instance per name of service
"mysql", in the order of the repo list, and skips the other services. -/
theorem instance_getMySQLInstances (env : Env) (m : Manager) :
    ((m.getMySQLInstances env).1.2 ≠ none ↔
      ∃ name ∈ env.repoList, (strings.Split name '-').length ≠ 2 ∨
        ∃ idStr, strings.Split name '-' = ["mysql", idStr] ∧
          ((∃ e, strconv.ParseInt idStr = Except.error e) ∨
           ∃ id e, strconv.ParseInt idStr = Except.ok id ∧
             env.repoGet "mysql" (toUint id) = Except.error e)) ∧
    ((m.getMySQLInstances env).1.2 = none →
      List.Forall₂
        (fun name inst => ∃ idStr id it, strings.Split name '-' = ["mysql", idStr] ∧
          strconv.ParseInt idStr = Except.ok id ∧
          env.repoGet "mysql" (toUint id) = Except.ok it ∧
          inst = (GetMySQLInfo env it).2)
        (env.repoList.filter
          (fun name => decide ((strings.Split name '-').head? = some "mysql")))
        (m.getMySQLInstances env).1.1) := by
  obtain ⟨h1, h2⟩ := loop_spec env env.repoList [] (m.repoOps ++ [RepoOp.List])
  refine ⟨h1, fun hnone => ?_⟩
  obtain ⟨insts, hinsts, hall⟩ := h2 hnone
  simp only [Manager.getMySQLInstances]
  rw [hinsts]
  exact hall

/-- The result of C28 on sample repo lists. -/
theorem getMySQLInstances_sample :
    ((NewManager "/etc/agent").getMySQLInstances
      (Env.unreachable ["mysql-1", "server-2", "mysql-3"])).1 =
      ([{ Id := 1, DSN := "root@tcp(db:3306)" }, { Id := 3, DSN := "root@tcp(db:3306)" }],
        none) ∧
    ((NewManager "/etc/agent").getMySQLInstances
      (Env.unreachable ["mysql-1", "mysql-1-2"])).1 =
      ([], some (GoError.errorString "Invalid instance name: mysql-1-2")) ∧
    ((NewManager "/etc/agent").getMySQLInstances
      (Env.unreachable ["mysql-one"])).1 =
      ([], some (GoError.other "strconv.ParseInt: parsing \x22one\x22: invalid syntax")) := by
  decide

/-- C29: when repo.Init succeeds, every repo name splits on "-" into two parts and every
name of service "mysql" has an id that parses and is found in the repo, getMySQLInstances
returns nil with one instance per such name, appended also when GetMySQLInfo failed for
it, and Start returns nil. -/
theorem instance_start_swallows_info_error (env : Env) (m : Manager)
    (hinit : env.repoInit = none)
    (hnames : ∀ name ∈ env.repoList, ∃ service idStr,
      strings.Split name '-' = [service, idStr] ∧
      (service = "mysql" → ∃ id it, strconv.ParseInt idStr = Except.ok id ∧
        env.repoGet "mysql" (toUint id) = Except.ok it)) :
    (m.Start env).1 = none ∧
    (m.getMySQLInstances env).1.2 = none ∧
    List.Forall₂
      (fun name inst => ∃ idStr id it, strings.Split name '-' = ["mysql", idStr] ∧
        strconv.ParseInt idStr = Except.ok id ∧
        env.repoGet "mysql" (toUint id) = Except.ok it ∧
        inst = (GetMySQLInfo env it).2 ∧
        ((GetMySQLInfo env it).1 ≠ none → inst = it))
      (env.repoList.filter
        (fun name => decide ((strings.Split name '-').head? = some "mysql")))
      (m.getMySQLInstances env).1.1 := by
  have hgood : ∀ mm : Manager, (mm.getMySQLInstances env).1.2 = none := by
    intro mm
    by_contra hne
    obtain ⟨name, hmem, hbad⟩ := (getMySQLInstances_error_iff env mm).mp hne
    obtain ⟨service, idStr, hsplit, hmysql⟩ := hnames name hmem
    rcases hbad with hlen | ⟨idStr2, h2, hbad⟩
    · rw [hsplit] at hlen
      simp at hlen
    · rw [hsplit] at h2
      simp only [List.cons.injEq, and_true] at h2
      obtain ⟨hs, hi⟩ := h2
      subst hi
      obtain ⟨id, it, hp, hg⟩ := hmysql hs
      rcases hbad with ⟨e, he⟩ | ⟨id2, e, hid, he⟩
      · rw [hp] at he
        cases he
      · rw [hp] at hid
        cases hid
        rw [hg] at he
        cases he
  refine ⟨?_, hgood m, ?_⟩
  · have := hgood { m with
      status := (m.status.Update "instance" "Starting").Update "instance" "Running",
      repoOps := m.repoOps ++ [RepoOp.Init], logged := m.logged ++ ["Started"] }
    simp only [Manager.Start, hinit]
    split
    · rename_i err herr
      rw [this] at herr
      cases herr
    · rfl
  · obtain ⟨insts, hinsts, hall⟩ :=
      (loop_spec env env.repoList [] (m.repoOps ++ [RepoOp.List])).2 (hgood m)
    simp only [Manager.getMySQLInstances]
    rw [hinsts]
    refine List.Forall₂.imp ?_ hall
    rintro name inst ⟨idStr, id, it, h1, h2, h3, h4⟩
    exact ⟨idStr, id, it, h1, h2, h3, h4, fun herr => by
      rw [h4, getMySQLInfo_error_keeps env it herr]⟩

theorem instance_start_swallows_info_error_witness :
    ((Env.unreachable ["mysql-1", "server-2", "mysql-3"]).repoInit = none) ∧
    (∀ name ∈ (Env.unreachable ["mysql-1", "server-2", "mysql-3"]).repoList, ∃ service idStr,
      strings.Split name '-' = [service, idStr] ∧
      (service = "mysql" → ∃ id it, strconv.ParseInt idStr = Except.ok id ∧
        (Env.unreachable ["mysql-1", "server-2", "mysql-3"]).repoGet "mysql" (toUint id) = Except.ok it)) ∧
    (((NewManager "/etc/agent").Start (Env.unreachable ["mysql-1", "server-2", "mysql-3"])).1 = none ∧
    ((NewManager "/etc/agent").getMySQLInstances (Env.unreachable ["mysql-1", "server-2", "mysql-3"])).1.2 = none ∧
    List.Forall₂
      (fun name inst => ∃ idStr id it, strings.Split name '-' = ["mysql", idStr] ∧
        strconv.ParseInt idStr = Except.ok id ∧
        (Env.unreachable ["mysql-1", "server-2", "mysql-3"]).repoGet "mysql" (toUint id) = Except.ok it ∧
        inst = (GetMySQLInfo (Env.unreachable ["mysql-1", "server-2", "mysql-3"]) it).2 ∧
        ((GetMySQLInfo (Env.unreachable ["mysql-1", "server-2", "mysql-3"]) it).1 ≠ none → inst = it))
      ((Env.unreachable ["mysql-1", "server-2", "mysql-3"]).repoList.filter
        (fun name => decide ((strings.Split name '-').head? = some "mysql")))
      ((NewManager "/etc/agent").getMySQLInstances (Env.unreachable ["mysql-1", "server-2", "mysql-3"])).1.1) :=
  have hnames : ∀ name ∈ (Env.unreachable ["mysql-1", "server-2", "mysql-3"]).repoList, ∃ service idStr,
      strings.Split name '-' = [service, idStr] ∧
      (service = "mysql" → ∃ id it, strconv.ParseInt idStr = Except.ok id ∧
        (Env.unreachable ["mysql-1", "server-2", "mysql-3"]).repoGet "mysql" (toUint id) = Except.ok it) := by
    intro name hmem
    simp only [Env.unreachable, List.mem_cons, List.mem_singleton, List.not_mem_nil,
      or_false] at hmem
    rcases hmem with rfl | rfl | rfl
    · exact ⟨"mysql", "1", by decide, fun _ => ⟨1, _, by rfl, rfl⟩⟩
    · exact ⟨"server", "2", by decide, fun h => absurd h (by decide)⟩
    · exact ⟨"mysql", "3", by decide, fun _ => ⟨3, _, by rfl, rfl⟩⟩
  ⟨rfl, hnames, instance_start_swallows_info_error (Env.unreachable ["mysql-1", "server-2", "mysql-3"])
    (NewManager "/etc/agent") rfl hnames⟩

end instanceMgr

namespace agent

/-! ## The agent config -/

/-- The model on `TestApplyConfig`: the config of `config001.json` (as `TestLoadConfig`
spells it out) with the options the test attributes to `config002.json` applied over
it gives the config the test expects. -/
theorem testApplyConfig_on_model :
    ({ ApiKey := "123", AgentUuid := "abc-123-def", LogLevel := "error" } : Config).Apply
        { LogLevel := "warning", LogDir := "/tmp/agent", Disable := ["LogFile"] } =
      { ApiKey := "123", AgentUuid := "abc-123-def", LogLevel := "warning",
        LogDir := "/tmp/agent", Disable := ["LogFile"] } := by
  decide

/-- The model on `TestRequiredConfig`.  With the merge of section 6 the empty config
applied over the full one gives the full one back, and so does the full one applied over
the empty one.  The test agrees on the options ApiHostname, ApiKey, AgentUuid, LogDir,
LogLevel and DataDir, but expects `PidFile: ""`, `Links: {}`,
`Enable: nil` and `Disable: nil` after the empty config has been applied: on these four
options the test and section 6 differ. -/
theorem testRequiredConfig_on_model :
    Config.full.Apply {} = Config.full ∧
    ({} : Config).Apply Config.full = Config.full ∧
    Config.full.Apply {} ≠
      { ApiHostname := "agent hostname", ApiKey := "api key", AgentUuid := "agent uuid",
        PidFile := "", LogDir := "log dir", LogLevel := "info", DataDir := "data dir",
        Links := [], Enable := [], Disable := [] } := by
  decide

/-- The enable list under the merge of section 6: the result holds every entry of the list
that is applied and only entries of the two lists, and it holds the entries of both lists
when the list that is applied is unset or contains the other one. -/
theorem apply_enable_superset (A B : Config) :
    (∀ x, x ∈ B.Enable → x ∈ (A.Apply B).Enable) ∧
    (∀ x, x ∈ (A.Apply B).Enable → x ∈ A.Enable ∨ x ∈ B.Enable) ∧
    ((B.Enable = [] ∨ ∀ x, x ∈ A.Enable → x ∈ B.Enable) →
      ∀ x, x ∈ A.Enable ∨ x ∈ B.Enable → x ∈ (A.Apply B).Enable) := by
  by_cases h : B.Enable = []
  · simp [Config.Apply, h]
  · simp only [Config.Apply, ne_eq, h, not_false_eq_true, if_true, false_or]
    refine ⟨fun x hx => hx, fun x hx => Or.inr hx, ?_⟩
    intro hsub x hx
    rcases hx with hx | hx
    · exact hsub x hx
    · exact hx

/-- C23: A.Apply(B) overwrites in A exactly the options that are set in B and leaves every
other option of A as it is, where an empty string and an empty collection in B are unset:
each of the ten options of the result is the one of B when that is set (not empty) and
the one of A when it is not. -/
theorem agent_apply_overwrites (A B : Config) :
    ((B.ApiHostname ≠ "" → (A.Apply B).ApiHostname = B.ApiHostname) ∧
      (B.ApiHostname = "" → (A.Apply B).ApiHostname = A.ApiHostname)) ∧
    ((B.ApiKey ≠ "" → (A.Apply B).ApiKey = B.ApiKey) ∧
      (B.ApiKey = "" → (A.Apply B).ApiKey = A.ApiKey)) ∧
    ((B.AgentUuid ≠ "" → (A.Apply B).AgentUuid = B.AgentUuid) ∧
      (B.AgentUuid = "" → (A.Apply B).AgentUuid = A.AgentUuid)) ∧
    ((B.PidFile ≠ "" → (A.Apply B).PidFile = B.PidFile) ∧
      (B.PidFile = "" → (A.Apply B).PidFile = A.PidFile)) ∧
    ((B.LogDir ≠ "" → (A.Apply B).LogDir = B.LogDir) ∧
      (B.LogDir = "" → (A.Apply B).LogDir = A.LogDir)) ∧
    ((B.LogLevel ≠ "" → (A.Apply B).LogLevel = B.LogLevel) ∧
      (B.LogLevel = "" → (A.Apply B).LogLevel = A.LogLevel)) ∧
    ((B.DataDir ≠ "" → (A.Apply B).DataDir = B.DataDir) ∧
      (B.DataDir = "" → (A.Apply B).DataDir = A.DataDir)) ∧
    ((B.Links ≠ [] → (A.Apply B).Links = B.Links) ∧
      (B.Links = [] → (A.Apply B).Links = A.Links)) ∧
    ((B.Enable ≠ [] → (A.Apply B).Enable = B.Enable) ∧
      (B.Enable = [] → (A.Apply B).Enable = A.Enable)) ∧
    ((B.Disable ≠ [] → (A.Apply B).Disable = B.Disable) ∧
      (B.Disable = [] → (A.Apply B).Disable = A.Disable)) := by
  refine ⟨⟨?_, ?_⟩, ⟨?_, ?_⟩, ⟨?_, ?_⟩, ⟨?_, ?_⟩, ⟨?_, ?_⟩, ⟨?_, ?_⟩, ⟨?_, ?_⟩, ⟨?_, ?_⟩,
    ⟨?_, ?_⟩, ⟨?_, ?_⟩⟩ <;> intro h <;> simp [Config.Apply, h]

/-- C24: the empty agent config is an identity for Apply on both sides: for every config
A, apply(A, empty) == A and apply(empty, A) == A. -/
theorem agent_apply_empty (A : Config) :
    A.Apply {} = A ∧ ({} : Config).Apply A = A := by
  obtain ⟨a1, a2, a3, a4, a5, a6, a7, a8, a9, a10⟩ := A
  constructor
  · simp [Config.Apply]
  · simp only [Config.Apply]
    congr 1 <;> split <;> simp_all

end agent

namespace qan

/-! ## The worker pool of the QAN manager -/

theorem dispatch_busy (cfg : Config) (p : Pool) (I : Interval)
    (h : p.running.length ≥ cfg.MaxWorkers) :
    dispatch cfg p I =
      { p with warned := p.warned ++ ["All workers busy"], dropped := p.dropped ++ [I] } := by
  simp [dispatch, h]

theorem dispatch_admitted (cfg : Config) (p : Pool) (I : Interval)
    (h : p.running.length < cfg.MaxWorkers) :
    (dispatch cfg p I).running = p.running ++ [p.nextId] ∧
    (dispatch cfg p I).held =
      (if I.EndOffset ≥ cfg.MaxSlowLogSize then
          p.held ++ [{ file := rotatedName I.Filename p.world.unixNow, holders := p.running }]
        else p.held).map (fun h => { h with holders := h.holders ++ [p.nextId] }) ∧
    (dispatch cfg p I).started = p.started ++ [(p.nextId, (rotationCheck cfg p.world I).1)] := by
  have hn : ¬ p.running.length ≥ cfg.MaxWorkers := Nat.not_le.mpr h
  simp [dispatch, hn]

theorem dispatch_removed (cfg : Config) (p : Pool) (I : Interval) :
    (dispatch cfg p I).removed = p.removed := by
  unfold dispatch
  split <;> rfl

theorem finish_running (cfg : Config) (p : Pool) (id : Nat) (h : id ∈ p.running) :
    (finish cfg p id).running = p.running.filter (fun w => decide (w ≠ id)) ∧
    (finish cfg p id).held =
      (p.held.map (fun h =>
        { h with holders := h.holders.filter (fun w => decide (w ≠ id)) })).filter
        (fun h => decide (h.holders ≠ [])) ∧
    (finish cfg p id).removed = p.removed ++
      (if cfg.RemoveOldSlowLogs then
        ((p.held.map (fun h =>
          { h with holders := h.holders.filter (fun w => decide (w ≠ id)) })).filter
          (fun h => decide (h.holders = []))).map Held.file
       else []) := by
  simp [finish, h]

theorem finish_idle (cfg : Config) (p : Pool) (id : Nat) (h : id ∉ p.running) :
    finish cfg p id = p := by
  simp [finish, h]

theorem step_bounded (cfg : Config) (p : Pool) (e : PoolEvent)
    (h : p.running.length ≤ cfg.MaxWorkers) :
    (p.step cfg e).running.length ≤ cfg.MaxWorkers := by
  cases e with
  | interval I =>
    simp only [Pool.step]
    rcases Nat.lt_or_ge p.running.length cfg.MaxWorkers with hlt | hge
    · rw [(dispatch_admitted cfg p I hlt).1]
      simp only [List.length_append, List.length_singleton]
      omega
    · rw [dispatch_busy cfg p I hge]
      exact h
  | done id =>
    simp only [Pool.step]
    by_cases hid : id ∈ p.running
    · rw [(finish_running cfg p id hid).1]
      exact le_trans (List.length_filter_le _ _) h
    · rw [finish_idle cfg p id hid]
      exact h

/-- Every entry of the pending-removal list is held by at least one worker, and its
holders are running. -/
theorem step_holders (cfg : Config) (p : Pool) (e : PoolEvent)
    (h : ∀ x ∈ p.held, x.holders ≠ [] ∧ ∀ w ∈ x.holders, w ∈ p.running) :
    ∀ x ∈ (p.step cfg e).held, x.holders ≠ [] ∧ ∀ w ∈ x.holders, w ∈ (p.step cfg e).running := by
  cases e with
  | interval I =>
    simp only [Pool.step]
    rcases Nat.lt_or_ge p.running.length cfg.MaxWorkers with hlt | hge
    · obtain ⟨hrun, hheld, -⟩ := dispatch_admitted cfg p I hlt
      rw [hrun, hheld]
      intro x hx
      obtain ⟨y, hy, rfl⟩ := List.mem_map.mp hx
      refine ⟨by simp, ?_⟩
      intro w hw
      simp only [List.mem_append, List.mem_singleton] at hw ⊢
      rcases hw with hw | hw
      · left
        split at hy
        · rcases List.mem_append.mp hy with hy | hy
          · exact (h y hy).2 w hw
          · simp only [List.mem_singleton] at hy
            subst hy
            exact hw
        · exact (h y hy).2 w hw
      · right
        exact hw
    · rw [dispatch_busy cfg p I hge]
      exact h
  | done id =>
    simp only [Pool.step]
    by_cases hid : id ∈ p.running
    · obtain ⟨hrun, hheld, -⟩ := finish_running cfg p id hid
      rw [hrun, hheld]
      intro x hx
      obtain ⟨hx1, hx2⟩ := List.mem_filter.mp hx
      obtain ⟨y, hy, rfl⟩ := List.mem_map.mp hx1
      refine ⟨by simpa using hx2, ?_⟩
      intro w hw
      obtain ⟨hw1, hw2⟩ := List.mem_filter.mp hw
      exact List.mem_filter.mpr ⟨(h y hy).2 w hw1, hw2⟩
    · rw [finish_idle cfg p id hid]
      exact h

theorem run_snoc (cfg : Config) (w : World) (es : List PoolEvent) (e : PoolEvent) :
    Pool.run cfg w (es ++ [e]) = (Pool.run cfg w es).step cfg e := by
  simp [Pool.run, List.foldl_append]

theorem run_bounded (cfg : Config) (w : World) (es : List PoolEvent) :
    (Pool.run cfg w es).running.length ≤ cfg.MaxWorkers := by
  induction es using List.reverseRecOn with
  | nil => simp [Pool.run, Pool.init]
  | append_singleton l e ih =>
    rw [run_snoc]
    exact step_bounded cfg _ e ih

theorem run_holders (cfg : Config) (w : World) (es : List PoolEvent) :
    ∀ x ∈ (Pool.run cfg w es).held,
      x.holders ≠ [] ∧ ∀ k ∈ x.holders, k ∈ (Pool.run cfg w es).running := by
  induction es using List.reverseRecOn with
  | nil => simp [Pool.run, Pool.init]
  | append_singleton l e ih =>
    rw [run_snoc]
    exact step_holders cfg _ e ih

/-- The model on `TestWaitRemoveSlowLog` (MaxWorkers 2, MaxSlowLogSize 1000,
RemoveOldSlowLogs true): the second interval rotates while worker 1 runs, the third is
dropped with a warning, the renamed log survives the end of worker 2 and is unlinked at
the end of worker 1. -/
theorem testWaitRemoveSlowLog_scenario :
    (Pool.run { MaxSlowLogSize := 1000, RemoveOldSlowLogs := true, MaxWorkers := 2 }
      World.sample
      [PoolEvent.interval { Filename := "/tmp/slow006.log", StartOffset := 0, EndOffset := 736 },
       PoolEvent.interval { Filename := "/tmp/slow006.log", StartOffset := 736, EndOffset := 1833 },
       PoolEvent.interval { Filename := "/tmp/slow006.log", StartOffset := 736, EndOffset := 1833 }]).running
      = [1, 2] ∧
    (Pool.run { MaxSlowLogSize := 1000, RemoveOldSlowLogs := true, MaxWorkers := 2 }
      World.sample
      [PoolEvent.interval { Filename := "/tmp/slow006.log", StartOffset := 0, EndOffset := 736 },
       PoolEvent.interval { Filename := "/tmp/slow006.log", StartOffset := 736, EndOffset := 1833 },
       PoolEvent.interval { Filename := "/tmp/slow006.log", StartOffset := 736, EndOffset := 1833 }]).warned
      = ["All workers busy"] ∧
    (Pool.run { MaxSlowLogSize := 1000, RemoveOldSlowLogs := true, MaxWorkers := 2 }
      World.sample
      [PoolEvent.interval { Filename := "/tmp/slow006.log", StartOffset := 0, EndOffset := 736 },
       PoolEvent.interval { Filename := "/tmp/slow006.log", StartOffset := 736, EndOffset := 1833 },
       PoolEvent.interval { Filename := "/tmp/slow006.log", StartOffset := 736, EndOffset := 1833 },
       PoolEvent.done 2]).removed = [] ∧
    (Pool.run { MaxSlowLogSize := 1000, RemoveOldSlowLogs := true, MaxWorkers := 2 }
      World.sample
      [PoolEvent.interval { Filename := "/tmp/slow006.log", StartOffset := 0, EndOffset := 736 },
       PoolEvent.interval { Filename := "/tmp/slow006.log", StartOffset := 736, EndOffset := 1833 },
       PoolEvent.interval { Filename := "/tmp/slow006.log", StartOffset := 736, EndOffset := 1833 },
       PoolEvent.done 2, PoolEvent.done 1]).removed = ["/tmp/slow006.log-1400000000"] ∧
    (Pool.run { MaxSlowLogSize := 1000, RemoveOldSlowLogs := false, MaxWorkers := 2 }
      World.sample
      [PoolEvent.interval { Filename := "/tmp/slow006.log", StartOffset := 0, EndOffset := 736 },
       PoolEvent.interval { Filename := "/tmp/slow006.log", StartOffset := 736, EndOffset := 1833 },
       PoolEvent.done 2, PoolEvent.done 1]).removed = [] := by
  decide

end qan

namespace qan

theorem finish_unlinks (cfg : Config) (p : Pool) (id : Nat) :
    ∃ unlinked : List String, (finish cfg p id).removed = p.removed ++ unlinked ∧
      ∀ f, f ∈ unlinked ↔
        (id ∈ p.running ∧ cfg.RemoveOldSlowLogs = true ∧
          ∃ x ∈ p.held, x.file = f ∧ ∀ k ∈ x.holders, k = id) := by
  by_cases hid : id ∈ p.running
  · obtain ⟨-, -, hrem⟩ := finish_running cfg p id hid
    refine ⟨_, hrem, ?_⟩
    intro f
    cases hflag : cfg.RemoveOldSlowLogs
    · simp
    · simp only [if_true, List.mem_map, List.mem_filter, decide_eq_true_eq, true_and]
      constructor
      · rintro ⟨y, ⟨⟨x, hx, rfl⟩, hy⟩, rfl⟩
        refine ⟨hid, x, hx, rfl, ?_⟩
        intro k hk
        by_contra hne
        have : k ∈ x.holders.filter (fun w => decide (w ≠ id)) :=
          List.mem_filter.mpr ⟨hk, by simpa using hne⟩
        simp only at hy
        rw [hy] at this
        simp at this
      · rintro ⟨-, x, hx, rfl, hall⟩
        refine ⟨_, ⟨⟨x, hx, rfl⟩, ?_⟩, rfl⟩
        simp only
        rw [List.filter_eq_nil_iff]
        intro k hk
        simp [hall k hk]
  · refine ⟨[], by rw [finish_idle cfg p id hid]; simp, ?_⟩
    intro f
    simp [hid]

theorem finish_keeps_held (cfg : Config) (p : Pool) (id : Nat) (x : Held) (k : Nat)
    (hx : x ∈ p.held) (hk : k ∈ x.holders) (hne : k ≠ id) :
    ∃ y ∈ (finish cfg p id).held, y.file = x.file ∧ k ∈ y.holders := by
  by_cases hid : id ∈ p.running
  · obtain ⟨-, hheld, -⟩ := finish_running cfg p id hid
    rw [hheld]
    have hkf : k ∈ x.holders.filter (fun w => decide (w ≠ id)) :=
      List.mem_filter.mpr ⟨hk, by simpa using hne⟩
    refine ⟨{ x with holders := x.holders.filter (fun w => decide (w ≠ id)) }, ?_, rfl, hkf⟩
    refine List.mem_filter.mpr ⟨List.mem_map.mpr ⟨x, hx, rfl⟩, ?_⟩
    simp only [decide_eq_true_eq]
    intro h0
    rw [h0] at hkf
    simp at hkf
  · rw [finish_idle cfg p id hid]
    exact ⟨x, hx, rfl, hk⟩

/-- C21: in every state the dispatch loop reaches, each renamed slow log that waits for
removal is held by running workers only and by at least one; the workers running at the
rotation and every worker started since hold it; the end of a worker unlinks exactly the
logs it was the last holder of, and only if RemoveOldSlowLogs is true; a log with another
holder still running stays, held by that worker; taking in an interval unlinks nothing. -/
theorem qan_removal_waits_for_holders (cfg : Config) (w : World) (es : List PoolEvent) :
    (∀ x ∈ (Pool.run cfg w es).held,
      x.holders ≠ [] ∧ ∀ k ∈ x.holders, k ∈ (Pool.run cfg w es).running) ∧
    (∀ I : Interval, (dispatch cfg (Pool.run cfg w es) I).removed =
      (Pool.run cfg w es).removed) ∧
    (∀ I : Interval, (Pool.run cfg w es).running.length < cfg.MaxWorkers →
      (I.EndOffset ≥ cfg.MaxSlowLogSize →
        ({ file := rotatedName I.Filename (Pool.run cfg w es).world.unixNow,
           holders := (Pool.run cfg w es).running ++ [(Pool.run cfg w es).nextId] } : Held) ∈
          (dispatch cfg (Pool.run cfg w es) I).held) ∧
      (∀ x ∈ (Pool.run cfg w es).held,
        ({ x with holders := x.holders ++ [(Pool.run cfg w es).nextId] } : Held) ∈
          (dispatch cfg (Pool.run cfg w es) I).held)) ∧
    (∀ id : Nat, ∃ unlinked : List String,
      (finish cfg (Pool.run cfg w es) id).removed =
        (Pool.run cfg w es).removed ++ unlinked ∧
      ∀ f, f ∈ unlinked ↔
        (id ∈ (Pool.run cfg w es).running ∧ cfg.RemoveOldSlowLogs = true ∧
          ∃ x ∈ (Pool.run cfg w es).held, x.file = f ∧ ∀ k ∈ x.holders, k = id)) ∧
    (∀ (id : Nat) (x : Held) (k : Nat), x ∈ (Pool.run cfg w es).held → k ∈ x.holders →
      k ≠ id →
      ∃ y ∈ (finish cfg (Pool.run cfg w es) id).held, y.file = x.file ∧ k ∈ y.holders) := by
  refine ⟨run_holders cfg w es, fun I => dispatch_removed cfg _ I, ?_,
    fun id => finish_unlinks cfg _ id,
    fun id x k hx hk hne => finish_keeps_held cfg _ id x k hx hk hne⟩
  intro I hlt
  obtain ⟨-, hheld, -⟩ := dispatch_admitted cfg (Pool.run cfg w es) I hlt
  rw [hheld]
  refine ⟨?_, ?_⟩
  · intro hrot
    rw [if_pos hrot]
    exact List.mem_map.mpr ⟨_, List.mem_append.mpr (Or.inr (List.mem_singleton.mpr rfl)), rfl⟩
  · intro x hx
    refine List.mem_map.mpr ⟨x, ?_, rfl⟩
    split
    · exact List.mem_append.mpr (Or.inl hx)
    · exact hx

/-- C22: in every state the dispatch loop reaches at most MaxWorkers workers are running;
an interval that arrives while MaxWorkers workers are running starts no worker, is
dropped, and the warning "All workers busy" is logged. -/
theorem qan_workers_bounded (cfg : Config) (w : World) (es : List PoolEvent) :
    (Pool.run cfg w es).running.length ≤ cfg.MaxWorkers ∧
    (∀ I : Interval, (Pool.run cfg w es).running.length = cfg.MaxWorkers →
      (dispatch cfg (Pool.run cfg w es) I).running = (Pool.run cfg w es).running ∧
      (dispatch cfg (Pool.run cfg w es) I).started = (Pool.run cfg w es).started ∧
      (dispatch cfg (Pool.run cfg w es) I).nextId = (Pool.run cfg w es).nextId ∧
      (dispatch cfg (Pool.run cfg w es) I).dropped = (Pool.run cfg w es).dropped ++ [I] ∧
      (dispatch cfg (Pool.run cfg w es) I).warned =
        (Pool.run cfg w es).warned ++ ["All workers busy"]) ∧
    (∀ I : Interval, (Pool.run cfg w es).running.length < cfg.MaxWorkers →
      (dispatch cfg (Pool.run cfg w es) I).running =
        (Pool.run cfg w es).running ++ [(Pool.run cfg w es).nextId]) := by
  refine ⟨run_bounded cfg w es, ?_, fun I hlt => (dispatch_admitted cfg _ I hlt).1⟩
  intro I hfull
  rw [dispatch_busy cfg _ I (Nat.le_of_eq hfull.symm)]
  exact ⟨rfl, rfl, rfl, rfl, rfl⟩

end qan
